import Mathlib

/-!
# Loan calculator scripts: number formatting, parsing and amortisation

A shallow embedding of the calculator code of `static/js/site-optimized.js` and
`staticfiles/js/business-loans.js`, of the helper `debounce`, of the listeners of the
range-slider displays and of the sortable tables of `static/js/site-optimized.js`, and of the
cookie lookup of `static/js/main.js`.

Numbers.  The scripts compute with JavaScript Numbers.  The properties studied here are
statements of exact arithmetic, so a finite Number is an exact rational `ℚ`; the three
non-finite values `NaN`, `Infinity` and `-Infinity` are kept, because `parseFloat`,
division and the comparisons of the scripts produce and consume them.  The sign of zero is
not tracked (a zero is `+0`).  Every binary64 value is such a rational, but the operations
here do not round to binary64 and do not overflow; statements about texts are therefore made
for the numbers handed to `formatNumber`, whatever they are, and for integers below `2^53`
where digits are concerned.

Where exact rational arithmetic has no answer the functions return `none`:
* `Math.pow` with a positive base and a non-integral exponent (the value is irrational in
  general);
* the decimal text of a number of magnitude `10^21` or more whose decimal expansion does
  not terminate (ECMAScript prints the shortest digits that identify the binary64 value);
* `toFixed` with more than 100 fraction digits (a `RangeError`).

A fractional number of months has a power that is a real number: for the claims of exact
real arithmetic the lines of the calculators are also read on a field (`calculateFiguresOver`,
`calculateLoanFiguresOver`), with the real numbers and their power in the theorems.

Texts are `String`s, handled through their lists of characters.

Page state.  An output element is given by its text content, `none` when the page has no such
element; a calculator run maps the values of the three input elements and the output
elements to the new output elements.  `calculate` and `calculateLoan` are the bodies of the
functions the scripts wrap in `debounce`; the write they defer with `requestAnimationFrame`
(`calculateFrame`, `calculateLoanFrame`) is performed at once.

Time.  `debounce` runs on a clock that counts milliseconds: a call arrives at a time, a timer
set at time `t` with delay `wait` fires at `t + wait` unless it is cleared before.  A call
of a page function carries its receiver (`this`), which is `undefined` when a strict-mode
function is called as `func(...args)`.

Tables.  A sortable table is the list of its headers `th[data-sort]` and the rows of its
`tbody`; `Array.prototype.sort` is a stable sort by the comparison function.

Cookies.  `getCookie` and `Utils.getCSRFToken` read the text `document.cookie`, which is an
argument here; they return a text or `null` (`none`), or throw.

Layout of the file: the embedding of the code, then the formulas of the specification
(`specMonthlyRate` ... `specAmountText`, `balance`, `groupFromRight`, `roundTo`) and the
predicates of the proofs, then the proofs: the claims `C1` to `C10` with their lemmas, and
after them the claims `C11` to `C21` with theirs.
-/

namespace LoanSite

/-! ## JavaScript numbers -/

/-- A JavaScript Number in exact arithmetic: a rational, or one of the non-finite values. -/
inductive JSNumber where
  | nan
  | negInf
  | fin (q : ℚ)
  | posInf
  deriving DecidableEq

namespace JSNumber

/-- Unary minus. -/
def neg : JSNumber → JSNumber
  | nan => nan
  | negInf => posInf
  | fin q => fin (-q)
  | posInf => negInf

/-- The operator `+` on Numbers. -/
def add : JSNumber → JSNumber → JSNumber
  | nan, _ => nan
  | _, nan => nan
  | posInf, negInf => nan
  | negInf, posInf => nan
  | posInf, _ => posInf
  | _, posInf => posInf
  | negInf, _ => negInf
  | _, negInf => negInf
  | fin a, fin b => fin (a + b)

/-- The operator `-` on Numbers. -/
def sub (a b : JSNumber) : JSNumber := add a (neg b)

/-- An infinity of the given sign (`true` is negative). -/
def inf (negative : Bool) : JSNumber := if negative then negInf else posInf

/-- The operator `*` on Numbers. -/
def mul : JSNumber → JSNumber → JSNumber
  | nan, _ => nan
  | _, nan => nan
  | fin a, fin b => fin (a * b)
  | fin a, posInf => if a = 0 then nan else inf (decide (a < 0))
  | fin a, negInf => if a = 0 then nan else inf (decide (0 < a))
  | posInf, fin b => if b = 0 then nan else inf (decide (b < 0))
  | negInf, fin b => if b = 0 then nan else inf (decide (0 < b))
  | posInf, posInf => posInf
  | negInf, negInf => posInf
  | posInf, negInf => negInf
  | negInf, posInf => negInf

/-- The operator `/` on Numbers (a zero divisor counts as `+0`). -/
def div : JSNumber → JSNumber → JSNumber
  | nan, _ => nan
  | _, nan => nan
  | fin a, fin b =>
    if b = 0 then (if a = 0 then nan else inf (decide (a < 0))) else fin (a / b)
  | fin _, posInf => fin 0
  | fin _, negInf => fin 0
  | posInf, fin b => inf (decide (b < 0))
  | negInf, fin b => inf (decide (0 ≤ b))
  | posInf, posInf => nan
  | posInf, negInf => nan
  | negInf, posInf => nan
  | negInf, negInf => nan

/-- The comparison `a <= b`; it is false as soon as one side is `NaN`. -/
def le : JSNumber → JSNumber → Bool
  | nan, _ => false
  | _, nan => false
  | negInf, _ => true
  | _, posInf => true
  | posInf, _ => false
  | _, negInf => false
  | fin a, fin b => decide (a ≤ b)

/-- The comparison `a >= b`. -/
def ge (a b : JSNumber) : Bool := le b a

/-- The expression `x || 0` on a Number: `NaN` and zero are falsy. -/
def orZero : JSNumber → JSNumber
  | nan => fin 0
  | x => x

end JSNumber

open JSNumber

/-- The built-in `Math.pow(base, exponent)` in exact arithmetic.  `none` when the base is
positive and the exponent is not an integer: the value is then irrational in general, and the
code returns its binary64 approximation (for such exponents the claims of exact arithmetic
are stated with the power of the real numbers, see `calculateFiguresOver`).  The value is
the exact power: it is not rounded and does not overflow, whereas the code gives `Infinity`
from `2^1024` on. -/
def Math.pow : JSNumber → JSNumber → Option JSNumber
  | _, nan => some nan
  | nan, fin e => some (if e = 0 then fin 1 else nan)
  | nan, _ => some nan
  | posInf, fin e => some (if e = 0 then fin 1 else if 0 < e then posInf else fin 0)
  | posInf, posInf => some posInf
  | posInf, negInf => some (fin 0)
  | negInf, fin e =>
    some (if e = 0 then fin 1
      else if 0 < e then (if e.den = 1 ∧ e.num % 2 = 1 then negInf else posInf)
      else fin 0)
  | negInf, posInf => some posInf
  | negInf, negInf => some (fin 0)
  | fin b, posInf =>
    some (if b = 0 then fin 0 else if 1 < |b| then posInf else if |b| = 1 then nan else fin 0)
  | fin b, negInf =>
    some (if b = 0 then posInf else if 1 < |b| then fin 0 else if |b| = 1 then nan else posInf)
  | fin b, fin e =>
    if e = 0 then some (fin 1)
    else if b = 0 then some (if 0 < e then fin 0 else posInf)
    else if e.den = 1 then some (fin (b ^ e.num))
    else if b < 0 then some nan
    else none

/-- The built-in `Math.round`: the nearest integer, a tie going up. -/
def Math.round : JSNumber → JSNumber
  | fin q => fin (⌊q + 1 / 2⌋ : ℤ)
  | x => x

/-! ## Decimal digits -/

/-- Worker of `decimal`: the digits of `n` are pushed in front of `acc`, at most `fuel` of
them. -/
def digitsFuel : ℕ → ℕ → List Char → List Char
  | 0, _, acc => acc
  | fuel + 1, n, acc =>
    if n = 0 then acc else digitsFuel fuel (n / 10) (Nat.digitChar (n % 10) :: acc)

/-- The decimal digits of a natural number, most significant first (`0` gives one digit). -/
def decimal (n : ℕ) : List Char :=
  if n = 0 then [Char.ofNat 48] else digitsFuel n n []

/-! ## `Number.prototype.toString` and `Number.prototype.toFixed` -/

/-- Removes the factors ten of `n`: returns `(s, t)` with `n = s * 10 ^ t`. -/
def stripZeros : ℕ → ℕ → ℕ × ℕ
  | 0, n => (n, 0)
  | fuel + 1, n =>
    if n ≠ 0 ∧ n % 10 = 0 then ((stripZeros fuel (n / 10)).1, (stripZeros fuel (n / 10)).2 + 1)
    else (n, 0)

/-- Searches from `j` on, for at most `fuel` further steps, a `j` with `q * 10 ^ j` an
integer. -/
def findScale (q : ℚ) : ℕ → ℕ → Option ℕ
  | 0, j => if (q * 10 ^ j).den = 1 then some j else none
  | fuel + 1, j => if (q * 10 ^ j).den = 1 then some j else findScale q fuel (j + 1)

/-- The significant digits of a positive rational with a terminating decimal expansion:
`(s, e)` with `q = s * 10 ^ e` and `s` not a multiple of ten. -/
def significand (q : ℚ) : Option (ℕ × ℤ) :=
  (findScale q q.den 0).map fun (j : ℕ) =>
    ((stripZeros (q * 10 ^ j).num.natAbs (q * 10 ^ j).num.natAbs).1,
      ((stripZeros (q * 10 ^ j).num.natAbs (q * 10 ^ j).num.natAbs).2 : ℤ) - (j : ℤ))

/-- The text of a positive Number with significant digits `s` and decimal exponent `e`, as
`Number::toString` lays it out (`n` is the position of the decimal point). -/
def layout (s : ℕ) (e : ℤ) : List Char :=
  let ds := decimal s
  let k : ℤ := ds.length
  let n : ℤ := k + e
  if k ≤ n ∧ n ≤ 21 then ds ++ List.replicate (n - k).toNat (Char.ofNat 48)
  else if 0 < n ∧ n ≤ 21 then ds.take n.toNat ++ '.' :: ds.drop n.toNat
  else if -6 < n ∧ n ≤ 0 then '0' :: '.' :: (List.replicate (-n).toNat (Char.ofNat 48) ++ ds)
  else
    let ex := (if 0 ≤ n - 1 then '+' else '-') :: decimal (n - 1).natAbs
    match ds with
    | [] => []
    | [d] => d :: 'e' :: ex
    | d :: rest => d :: '.' :: (rest ++ 'e' :: ex)

/-- The method `Number.prototype.toString()` (radix ten) on the exact value: all its digits
are printed.  The code prints the shortest digits that identify the binary64 value, which
are the same digits for every integer below `2^53`; a larger Number may be printed with
fewer digits and zeros after them (`2^60` as `1152921504606847000`). -/
def Number.toString : JSNumber → Option String
  | nan => some "NaN"
  | posInf => some "Infinity"
  | negInf => some "-Infinity"
  | fin q =>
    if q = 0 then some "0"
    else if q < 0 then
      (significand (-q)).map fun se => String.mk ('-' :: layout se.1 se.2)
    else (significand q).map fun se => String.mk (layout se.1 se.2)

/-- The method `Number.prototype.toFixed(fractionDigits)`. -/
def Number.toFixed (x : JSNumber) (f : ℕ) : Option String :=
  if 100 < f then none
  else match x with
    | fin q =>
      let a := |q|
      let body : Option (List Char) :=
        if (10 : ℚ) ^ 21 ≤ a then (Number.toString (fin a)).map String.data
        else
          let n := ⌊a * 10 ^ f + 1 / 2⌋.toNat
          let m := decimal n
          if f = 0 then some m
          else
            let m := List.replicate (f + 1 - m.length) (Char.ofNat 48) ++ m
            some (m.take (m.length - f) ++ '.' :: m.drop (m.length - f))
      body.map fun m => String.mk (if q < 0 then '-' :: m else m)
    | x => Number.toString x

/-! ## Regular expressions and string methods used by the scripts -/

/-- The class `\d`. -/
def isDigit (c : Char) : Bool := decide (48 ≤ c.toNat ∧ c.toNat ≤ 57)

/-- The class `\w` (no `u` or `i` flag): ASCII letters, digits and the underscore. -/
def isWord (c : Char) : Bool :=
  isDigit c || decide (65 ≤ c.toNat ∧ c.toNat ≤ 90) || decide (97 ≤ c.toNat ∧ c.toNat ≤ 122)
    || decide (c.toNat = 95)

/-- The class `\s`: the white space and line terminator code points of ECMAScript. -/
def isWhiteSpace (c : Char) : Bool :=
  decide (9 ≤ c.toNat ∧ c.toNat ≤ 13) || decide (c.toNat = 32) || decide (c.toNat = 160)
    || decide (c.toNat = 5760) || decide (8192 ≤ c.toNat ∧ c.toNat ≤ 8202)
    || decide (c.toNat = 8232) || decide (c.toNat = 8233) || decide (c.toNat = 8239)
    || decide (c.toNat = 8287) || decide (c.toNat = 12288) || decide (c.toNat = 65279)

/-- Whether the text starts with a digit. -/
def startsWithDigit : List Char → Bool
  | [] => false
  | c :: _ => isDigit c

/-- The lookahead `(?=(\d{3})+(?!\d))` at the start of the text: one or more groups of three
digits, the last of them not followed by a digit. -/
def lookaheadGroups : List Char → Bool
  | c1 :: c2 :: c3 :: rest =>
    isDigit c1 && isDigit c2 && isDigit c3 && (lookaheadGroups rest || !startsWithDigit rest)
  | _ => false

/-- The assertion `\B` between the previous character (if any) and the rest of the text. -/
def notWordBoundary (prev : Option Char) (rest : List Char) : Bool :=
  (match prev with | some p => isWord p | none => false)
    == (match rest with | c :: _ => isWord c | [] => false)

/-- Worker of `groupThousands`: `prev` is the character before the current position. -/
def groupThousandsFrom (prev : Option Char) : List Char → List Char
  | [] => []
  | c :: cs =>
    if notWordBoundary prev (c :: cs) && lookaheadGroups (c :: cs) then
      ' ' :: c :: groupThousandsFrom (some c) cs
    else c :: groupThousandsFrom (some c) cs

/-- The call `text.replace(/\B(?=(\d{3})+(?!\d))/g, ' ')`: a space is put at every position
where the (empty) pattern matches. -/
def groupThousands (text : List Char) : List Char := groupThousandsFrom none text

/-- The call `text.split('.')`. -/
def splitDot : List Char → List (List Char)
  | [] => [[]]
  | c :: cs =>
    if c = '.' then [] :: splitDot cs
    else match splitDot cs with
      | [] => [[c]]
      | p :: ps => (c :: p) :: ps

/-- The call `parts.join(',')`. -/
def joinComma : List (List Char) → List Char
  | [] => []
  | [p] => p
  | p :: ps => p ++ ',' :: joinComma ps

/-- The call `text.replace(/\s/g, '')`. -/
def removeWhiteSpace (text : List Char) : List Char := text.filter fun c => !isWhiteSpace c

/-- The call `text.replace(',', '.')`: only the first comma is replaced. -/
def replaceFirstComma : List Char → List Char
  | [] => []
  | c :: cs => if c = ',' then '.' :: cs else c :: replaceFirstComma cs

/-! ## `parseFloat` -/

/-- The value of a run of decimal digits. -/
def natOfDigits (cs : List Char) : ℕ := cs.foldl (fun a c => 10 * a + (c.toNat - 48)) 0

/-- Whether `p` is an initial segment of `cs`. -/
def startsWith : List Char → List Char → Bool
  | [], _ => true
  | _ :: _, [] => false
  | p :: ps, c :: cs => p == c && startsWith ps cs

/-- The value of the longest `ExponentPart` at the start of the text, `0` when there is
none. -/
def exponentPart : List Char → ℤ
  | c :: rest =>
    if c = 'e' ∨ c = 'E' then
      match rest with
      | '+' :: ds => if startsWithDigit ds then (natOfDigits (ds.takeWhile isDigit) : ℤ) else 0
      | '-' :: ds => if startsWithDigit ds then -(natOfDigits (ds.takeWhile isDigit) : ℤ) else 0
      | ds => if startsWithDigit ds then (natOfDigits (ds.takeWhile isDigit) : ℤ) else 0
    else 0
  | [] => 0

/-- The text after a leading decimal point, when the text starts with one. -/
def afterPoint : List Char → Option (List Char)
  | c :: t => if c = '.' then some t else none
  | [] => none

/-- The value of the longest prefix that is a `StrUnsignedDecimalLiteral`; `NaN` when no prefix
is one. -/
def strUnsignedDecimalLiteral (cs : List Char) : JSNumber :=
  if startsWith "Infinity".data cs then posInf
  else
    let ip := cs.takeWhile isDigit
    let r1 := cs.dropWhile isDigit
    let fp := match afterPoint r1 with
      | some t => t.takeWhile isDigit
      | none => []
    let r2 := match afterPoint r1 with
      | some t => t.dropWhile isDigit
      | none => r1
    if ip = [] ∧ fp = [] then nan
    else fin ((natOfDigits (ip ++ fp) : ℚ) * 10 ^ (exponentPart r2 - (fp.length : ℤ)))

/-- The built-in `parseFloat`: leading white space is skipped, then the longest prefix that is a
`StrDecimalLiteral` is evaluated.  The value is the exact decimal value of the literal; the
code rounds it to binary64 (`1e400` becomes `Infinity` and `1e-400` becomes 0 there). -/
def parseFloat (s : String) : JSNumber :=
  match s.data.dropWhile isWhiteSpace with
  | '+' :: t => strUnsignedDecimalLiteral t
  | '-' :: t => neg (strUnsignedDecimalLiteral t)
  | cs => strUnsignedDecimalLiteral cs

/-! ## Results and output elements -/

/-- The three numbers a calculator run computes. -/
structure LoanFigures where
  monthlyPayment : JSNumber
  totalPayment : JSNumber
  totalInterest : JSNumber
  deriving DecidableEq

/-- The statement `if (el) el.textContent = text` on an optional element, given by its text
content (`none`: the page has no such element). -/
def setText (el : Option String) (text : String) : Option String := el.map fun _ => text

/-- The same statement when the text comes from a call that is only made if the element
exists. -/
def setTextWith (el : Option String) (text : Option String) : Option (Option String) :=
  match el with
  | none => some none
  | some _ => text.map some

/-! ## `static/js/site-optimized.js` -/

namespace SiteOptimized

/-- The function `formatNumber(num, decimals = 0)`. -/
def formatNumber (num : JSNumber) (decimals : ℕ := 0) : Option String :=
  (if 0 < decimals then Number.toFixed num decimals else Number.toString (Math.round num)).map
    fun rounded =>
      match splitDot rounded.data with
      | [] => String.mk []
      | p :: ps => String.mk (joinComma (groupThousands p :: ps))

/-- The function `parseNumber(str)`. -/
def parseNumber (str : String) : JSNumber :=
  orZero (parseFloat (String.mk (replaceFirstComma (removeWhiteSpace str.data))))

/-- The output elements of one `[data-calculator]` block: `[data-monthly]`, `[data-total]` and
`[data-interest]`, each given by its text content when the block has it. -/
structure Displays where
  monthly : Option String
  total : Option String
  interest : Option String
  deriving DecidableEq

/-- The arithmetic of `calculate` once the inputs have passed the guard (the four `const`
lines from `monthlyRate` to `totalInterest`), in exact arithmetic: no result is rounded, and
there is none where `Math.pow` has none (a fractional number of months; the same lines on
the real numbers are `calculateFiguresOver`). -/
def calculateFigures (principal annualRate months : JSNumber) : Option LoanFigures :=
  let monthlyRate := div (div annualRate (fin 100)) (fin 12)
  (Math.pow (add (fin 1) monthlyRate) months).map fun pw =>
    let monthlyPayment := div (mul principal (mul monthlyRate pw)) (sub pw (fin 1))
    let totalPayment := mul monthlyPayment months
    let totalInterest := sub totalPayment principal
    { monthlyPayment := monthlyPayment, totalPayment := totalPayment,
      totalInterest := totalInterest }

/-- The callback `calculate` hands to `requestAnimationFrame`: it writes the three formatted
results. -/
def calculateFrame (v : LoanFigures) (d : Displays) : Option Displays :=
  (setTextWith d.monthly ((formatNumber v.monthlyPayment 2).map (· ++ " kr"))).bind fun m =>
  (setTextWith d.total ((formatNumber v.totalPayment 2).map (· ++ " kr"))).bind fun t =>
  (setTextWith d.interest ((formatNumber v.totalInterest 2).map (· ++ " kr"))).map fun i =>
    { monthly := m, total := t, interest := i }

/-- The body of `calculate` (the function wrapped by `debounce`): from the values of the three
input elements to the new contents of the output elements. -/
def calculate (amountInput rateInput termInput : String) (d : Displays) : Option Displays :=
  let principal := orZero (parseNumber amountInput)
  let annualRate := orZero (parseNumber rateInput)
  let months := orZero (parseNumber termInput)
  if le principal (fin 0) || le annualRate (fin 0) || le months (fin 0) then
    some { monthly := setText d.monthly "0 kr", total := setText d.total "0 kr",
           interest := setText d.interest "0 kr" }
  else
    (calculateFigures principal annualRate months).bind fun v => calculateFrame v d

end SiteOptimized

/-! ## `staticfiles/js/business-loans.js` -/

namespace BusinessLoans

/-- The function `formatNumber(num, decimals = 0)` local to `initLoanCalculator`. -/
def formatNumber (num : JSNumber) (decimals : ℕ := 0) : Option String :=
  (if 0 < decimals then Number.toFixed num decimals else Number.toString (Math.round num)).map
    fun rounded =>
      match splitDot rounded.data with
      | [] => String.mk []
      | p :: ps => String.mk (joinComma (groupThousands p :: ps))

/-- The function `parseNumber(str)` local to `initLoanCalculator`. -/
def parseNumber (str : String) : JSNumber :=
  orZero (parseFloat (String.mk (replaceFirstComma (removeWhiteSpace str.data))))

/-- The output elements `#monthlyPayment`, `#totalLoanAmount`, `#totalInterest` and
`#totalPayment`, each given by its text content when the page has it. -/
structure LoanDisplays where
  monthlyPayment : Option String
  totalLoanAmount : Option String
  totalInterest : Option String
  totalPayment : Option String
  deriving DecidableEq

/-- Whether the four output elements all exist. -/
def LoanDisplays.complete (d : LoanDisplays) : Bool :=
  d.monthlyPayment.isSome && d.totalLoanAmount.isSome && d.totalInterest.isSome
    && d.totalPayment.isSome

/-- The arithmetic of `calculateLoan` once the inputs have passed the guard, in exact
arithmetic: no result is rounded, and there is none where `Math.pow` has none (the same lines
on the real numbers are `calculateLoanFiguresOver`). -/
def calculateLoanFigures (principal annualRate months : JSNumber) : Option LoanFigures :=
  let monthlyRate := div (div annualRate (fin 100)) (fin 12)
  (Math.pow (add (fin 1) monthlyRate) months).map fun pw =>
    let monthlyPayment := div (mul principal (mul monthlyRate pw)) (sub pw (fin 1))
    let totalPayment := mul monthlyPayment months
    let totalInterest := sub totalPayment principal
    { monthlyPayment := monthlyPayment, totalPayment := totalPayment,
      totalInterest := totalInterest }

/-- The callback `calculateLoan` hands to `requestAnimationFrame`; it runs only when the four
elements exist. -/
def calculateLoanFrame (v : LoanFigures) (principal : JSNumber) : Option LoanDisplays :=
  (formatNumber v.monthlyPayment 2).bind fun m =>
  (formatNumber principal).bind fun a =>
  (formatNumber v.totalInterest 2).bind fun i =>
  (formatNumber v.totalPayment 2).map fun t =>
    { monthlyPayment := some (m ++ " kr"), totalLoanAmount := some (a ++ " kr"),
      totalInterest := some (i ++ " kr"), totalPayment := some (t ++ " kr") }

/-- The body of `calculateLoan` (the function wrapped by `debounce`). -/
def calculateLoan (loanAmountInput interestRateInput loanTermInput : String)
    (d : LoanDisplays) : Option LoanDisplays :=
  let principal := orZero (parseNumber loanAmountInput)
  let annualRate := orZero (parseNumber interestRateInput)
  let months := orZero (parseNumber loanTermInput)
  if !d.complete then some d
  else if le principal (fin 0) || le annualRate (fin 0) || le months (fin 0) then
    some { monthlyPayment := some "0 kr", totalLoanAmount := some "0 kr",
           totalInterest := some "0 kr", totalPayment := some "0 kr" }
  else
    (calculateLoanFigures principal annualRate months).bind fun v =>
      calculateLoanFrame v principal

end BusinessLoans

/-! ## `parseInt` -/

/-- A hexadecimal digit. -/
def isHexDigit (c : Char) : Bool :=
  isDigit c || decide (97 ≤ c.toNat ∧ c.toNat ≤ 102) || decide (65 ≤ c.toNat ∧ c.toNat ≤ 70)

/-- The value of a hexadecimal digit. -/
def hexValue (c : Char) : ℕ :=
  if isDigit c then c.toNat - 48 else if 97 ≤ c.toNat then c.toNat - 87 else c.toNat - 55

/-- The value of a run of hexadecimal digits. -/
def natOfHexDigits (cs : List Char) : ℕ := cs.foldl (fun a c => 16 * a + hexValue c) 0

/-- The text after a leading `0x` or `0X`, when the text starts with one. -/
def afterHexMark : List Char → Option (List Char)
  | c0 :: c1 :: rest => if c0 = '0' ∧ (c1 = 'x' ∨ c1 = 'X') then some rest else none
  | _ => none

/-- The built-in `parseInt(string)` without a radix: leading white space and a sign are
skipped, a `0x` mark selects radix 16, then the longest run of digits is evaluated; `NaN` when
that run is empty. -/
def parseInt (s : String) : JSNumber :=
  let trimmed := s.data.dropWhile isWhiteSpace
  let negative := match trimmed with
    | c :: _ => decide (c = '-')
    | [] => false
  let unsigned := match trimmed with
    | c :: t => if c = '+' ∨ c = '-' then t else trimmed
    | [] => trimmed
  match afterHexMark unsigned with
  | some rest =>
    if rest.takeWhile isHexDigit = [] then nan
    else fin (if negative then -(natOfHexDigits (rest.takeWhile isHexDigit) : ℚ)
      else (natOfHexDigits (rest.takeWhile isHexDigit) : ℚ))
  | none =>
    if unsigned.takeWhile isDigit = [] then nan
    else fin (if negative then -(natOfDigits (unsigned.takeWhile isDigit) : ℚ)
      else (natOfDigits (unsigned.takeWhile isDigit) : ℚ))

/-! ## Calls, receivers and `debounce`

The three scripts (`site-optimized.js`, `business-loans.js`, `Utils.debounce` in `main.js`)
hold the same text of `debounce`; it is embedded once.  Time is counted in milliseconds; a
timer fires exactly when it is due, and timers that are due when an event arrives fire before
the event is handled. -/

/-- An error thrown by a script. -/
inductive JSError where
  | typeError
  | uriError
  deriving DecidableEq

/-- The receiver (`this`) a function is called with: `undefined`, or an element given by its
`value`. -/
inductive Receiver where
  | undefined
  | element (value : String)
  deriving DecidableEq

/-- A function of the scripts that acts on a part `σ` of the page: from the receiver, the
arguments and the page to the new page, or to the error it throws (a function that throws
has written nothing before). -/
abbrev PageFunction (α σ : Type) := Receiver → α → σ → Except JSError σ

namespace Debounce

/-- A pending timer set by `setTimeout(later, wait)`: its id, the time it is due and the
arguments `later` has captured. -/
structure Timer (α : Type) where
  id : ℕ
  due : ℕ
  args : α

/-- What one function returned by `debounce(func, wait)` can see and change: its variable
`timeout`, the pending timers it has set, the next timer id, the page, and (for observation)
the time and arguments of every call of `func` and every error that was thrown. -/
structure State (α σ : Type) where
  timeout : Option ℕ
  timers : List (Timer α)
  nextId : ℕ
  world : σ
  invoked : List (ℕ × α)
  errors : List (ℕ × JSError)

/-- The state right after `debounce(func, wait)` has returned: `timeout` is `undefined`. -/
def init {α σ : Type} (world : σ) : State α σ :=
  { timeout := none, timers := [], nextId := 1, world := world, invoked := [], errors := [] }

/-- The call `clearTimeout(id)`: the timer of that id is dropped, if it is still pending. -/
def clearTimeout {α σ : Type} (id : Option ℕ) (s : State α σ) : State α σ :=
  { s with timers := s.timers.filter fun tm => decide (some tm.id ≠ id) }

/-- The call `setTimeout(later, delay)` at time `now`; `timeout` receives the new id. -/
def setTimeout {α σ : Type} (now delay : ℕ) (args : α) (s : State α σ) : State α σ :=
  { s with timers := s.timers ++ [{ id := s.nextId, due := now + delay, args := args }],
           nextId := s.nextId + 1, timeout := some s.nextId }

/-- The returned function `executedFunction(...args)` called at time `now`: the pending timer
is cleared and a new one is set.  Its receiver is not used. -/
def executedFunction {α σ : Type} (wait now : ℕ) (_this : Receiver) (args : α)
    (s : State α σ) : State α σ :=
  setTimeout now wait args (clearTimeout s.timeout s)

/-- The arrow function `later` run at time `now`: `clearTimeout(timeout); func(...args)`.  The
call `func(...args)` names no receiver, so `func` is called with `undefined`. -/
def later {α σ : Type} (func : PageFunction α σ) (now : ℕ) (args : α)
    (s : State α σ) : State α σ :=
  match func Receiver.undefined args (clearTimeout s.timeout s).world with
  | Except.ok w =>
    { clearTimeout s.timeout s with world := w, invoked := s.invoked ++ [(now, args)] }
  | Except.error e =>
    { clearTimeout s.timeout s with invoked := s.invoked ++ [(now, args)],
                                    errors := s.errors ++ [(now, e)] }

/-- The pending timer that fires next: the earliest due, the first set among equals. -/
def earliest {α : Type} : List (Timer α) → Option (Timer α)
  | [] => none
  | tm :: rest =>
    match earliest rest with
    | none => some tm
    | some other => if tm.due ≤ other.due then some tm else some other

/-- Whether a time is within the limit (`none`: no limit). -/
def within (limit : Option ℕ) (t : ℕ) : Bool :=
  match limit with
  | none => true
  | some l => decide (t ≤ l)

/-- The event loop lets the timers due up to `limit` fire, at most `fuel` of them. -/
def runTimers {α σ : Type} (func : PageFunction α σ) :
    ℕ → Option ℕ → State α σ → State α σ
  | 0, _, s => s
  | fuel + 1, limit, s =>
    match earliest s.timers with
    | none => s
    | some tm =>
      if within limit tm.due then
        runTimers func fuel limit
          (later func tm.due tm.args
            { s with timers := s.timers.filter fun other => decide (other.id ≠ tm.id) })
      else s

/-- The calls of the returned function, each given by its time, receiver and arguments, are
handled in turn. -/
def handleCalls {α σ : Type} (func : PageFunction α σ) (wait : ℕ) :
    List (ℕ × Receiver × α) → State α σ → State α σ
  | [], s => s
  | (now, this, args) :: rest, s =>
    handleCalls func wait rest
      (executedFunction wait now this args (runTimers func s.timers.length (some now) s))

/-- The state once no timer is pending any more. -/
def settle {α σ : Type} (func : PageFunction α σ) (s : State α σ) : State α σ :=
  runTimers func s.timers.length none s

end Debounce

/-- The function `debounce(func, wait)`, observed: the state after the function it returns
has been called at the given times and every timer has fired. -/
def debounce {α σ : Type} (func : PageFunction α σ) (wait : ℕ)
    (calls : List (ℕ × Receiver × α)) (world : σ) : Debounce.State α σ :=
  Debounce.settle func (Debounce.handleCalls func wait calls (Debounce.init world))

/-! ## Range sliders -/

/-- A range control and its text display: the `value`, `min` and `max` of the control, the
custom property `--value`, the text of the display, the number of `rangeupdate` events
dispatched, and the number of calls made to the debounced `updateSlider` (each arms its
10 ms timer; the last three fields before it are written by the body of `updateSlider`
only). -/
structure SliderPair where
  value : String
  min : String
  max : String
  fill : String
  display : String
  rangeUpdates : ℕ
  updateCalls : ℕ
  deriving DecidableEq

namespace SiteOptimized

/-- The listener `initRangeSliders` registers (through `debounce`) for `input` on the
display.  `setValue` is the platform's setter of `slider.value`: from the control's `min` and
`max` and the number assigned to the value the control then holds. -/
def displayInput (setValue : String → String → JSNumber → String) :
    PageFunction Unit SliderPair
  | Receiver.undefined, _, _ => Except.error JSError.typeError
  | Receiver.element text, _, s =>
    let value := parseNumber text
    let min := parseFloat s.min
    let max := parseFloat s.max
    if ge value min && le value max then
      Except.ok { s with value := setValue s.min s.max value,
                         updateCalls := s.updateCalls + 1 }
    else Except.ok s

end SiteOptimized

namespace BusinessLoans

/-- The listener `initLoanSlider` registers (through `debounce`) for `input` on
`#loanAmountDisplay`; `setValue` as above. -/
def displayInput (setValue : String → String → JSNumber → String) :
    PageFunction Unit SliderPair
  | Receiver.undefined, _, _ => Except.error JSError.typeError
  | Receiver.element text, _, s =>
    let value := orZero (parseInt (String.mk (removeWhiteSpace text.data)))
    if ge value (fin 10000) && le value (fin 30000000) then
      Except.ok { s with value := setValue s.min s.max value,
                         updateCalls := s.updateCalls + 1 }
    else Except.ok s

end BusinessLoans

/-! ## Sortable tables (`static/js/site-optimized.js`) -/

/-- The call `array.sort(comparefn)`: a stable sort; `before x y` tells that `comparefn(x, y)`
is not positive (a `NaN` counts as zero).  Each element is put in front of the first
element of the sorted rest that it may precede. -/
def orderedInsert {α : Type} (before : α → α → Bool) (x : α) : List α → List α
  | [] => [x]
  | y :: ys => if before x y then x :: y :: ys else y :: orderedInsert before x ys

/-- Whether a comparison result lets the first argument stay first: it is not positive. -/
def notPositive : JSNumber → Bool
  | nan => true
  | negInf => true
  | fin q => decide (q ≤ 0)
  | posInf => false

/-- The method `Array.prototype.sort(comparefn)`. -/
def arraySort {α : Type} (comparefn : α → α → JSNumber) : List α → List α
  | [] => []
  | x :: xs => orderedInsert (fun a b => notPositive (comparefn a b)) x (arraySort comparefn xs)

/-- A cell of a body row: its attribute `data-sort-value` (if it has one) and its text. -/
structure Cell where
  sortValue : Option String
  textContent : String
  deriving DecidableEq

/-- A header `th[data-sort]`: its position among the cells of its row (the property
`cellIndex`, which the script never reads) and whether it carries the classes `sorted-asc`
and `sorted-desc`. -/
structure Header where
  cellIndex : ℕ
  sortedAsc : Bool
  sortedDesc : Bool
  deriving DecidableEq

/-- A table `table[data-sortable]`: its headers `th[data-sort]` in document order and the
rows of its `tbody`, if it has one. -/
structure Table where
  headers : List Header
  tbody : Option (List (List Cell))
  deriving DecidableEq

namespace SiteOptimized

/-- The expression `row.cells[index]?.getAttribute('data-sort-value') ||
row.cells[index]?.textContent || ''`. -/
def sortKeyText (index : ℕ) (row : List Cell) : String :=
  match row.get? index with
  | none => ""
  | some cell =>
    match cell.sortValue with
    | some v => if v ≠ "" then v else cell.textContent
    | none => cell.textContent

/-- The comparison function handed to `rows.sort`; `localeCompare` is the platform's
`String.prototype.localeCompare` for the locale `sv-SE`. -/
def compareRows (localeCompare : String → String → JSNumber) (isAscending : Bool) (index : ℕ)
    (a b : List Cell) : JSNumber :=
  let aValue := sortKeyText index a
  let bValue := sortKeyText index b
  let aNum := parseFloat aValue
  let bNum := parseFloat bValue
  if aNum ≠ nan ∧ bNum ≠ nan then
    (if isAscending then sub bNum aNum else sub aNum bNum)
  else
    (if isAscending then localeCompare bValue aValue else localeCompare aValue bValue)

/-- The function `sortTable` of the header at position `index` among the headers
`th[data-sort]` (the listener for `click`, and for `Enter` and the space key). -/
def sortTable (localeCompare : String → String → JSNumber) (index : ℕ) (t : Table) : Table :=
  match t.tbody, t.headers.get? index with
  | some rows, some header =>
    { headers := (t.headers.map fun h => { h with sortedAsc := false, sortedDesc := false }).set
        index { header with sortedAsc := !header.sortedAsc, sortedDesc := header.sortedAsc },
      tbody := some (arraySort (compareRows localeCompare header.sortedAsc index) rows) }
  | _, _ => t

end SiteOptimized

/-! ## Cookies (`static/js/main.js`)

The text `document.cookie` is a parameter of the functions that read it.  Positions and
lengths count characters; the texts hold no unpaired surrogates, so that a text starts with
another by characters exactly when it does by UTF-16 code units. -/

/-- The call `text.split(';')`: the pieces of the text between its semicolons. -/
def splitSemicolon : List Char → List (List Char)
  | [] => [[]]
  | c :: cs =>
    if c = ';' then [] :: splitSemicolon cs
    else
      match splitSemicolon cs with
      | [] => [[c]]
      | piece :: pieces => (c :: piece) :: pieces

/-- The method `String.prototype.trim`: white space and line terminators are taken off both
ends. -/
def trim (cs : List Char) : List Char :=
  ((cs.dropWhile isWhiteSpace).reverse.dropWhile isWhiteSpace).reverse

/-- The number of leading 1 bits of an octet; 5 stands for 5 and more. -/
def leadingOnes (octet : ℕ) : ℕ :=
  if octet < 128 then 0 else if octet < 192 then 1 else if octet < 224 then 2
  else if octet < 240 then 3 else if octet < 248 then 4 else 5

/-- The code point of which the octets are the UTF-8 encoding, for two to four octets of
which the first announces their number: the others are continuation octets, and the code
point is not a surrogate, not above `U+10FFFF` and has no shorter encoding. -/
def utf8CodePoint : List ℕ → Option ℕ
  | [b0, b1] =>
    if 128 ≤ b1 ∧ b1 < 192 ∧ 128 ≤ (b0 - 192) * 64 + (b1 - 128) then
      some ((b0 - 192) * 64 + (b1 - 128))
    else none
  | [b0, b1, b2] =>
    if 128 ≤ b1 ∧ b1 < 192 ∧ 128 ≤ b2 ∧ b2 < 192 ∧
        2048 ≤ (b0 - 224) * 4096 + (b1 - 128) * 64 + (b2 - 128) ∧
        ¬ (55296 ≤ (b0 - 224) * 4096 + (b1 - 128) * 64 + (b2 - 128) ∧
          (b0 - 224) * 4096 + (b1 - 128) * 64 + (b2 - 128) ≤ 57343) then
      some ((b0 - 224) * 4096 + (b1 - 128) * 64 + (b2 - 128))
    else none
  | [b0, b1, b2, b3] =>
    if 128 ≤ b1 ∧ b1 < 192 ∧ 128 ≤ b2 ∧ b2 < 192 ∧ 128 ≤ b3 ∧ b3 < 192 ∧
        65536 ≤ (b0 - 240) * 262144 + (b1 - 128) * 4096 + (b2 - 128) * 64 + (b3 - 128) ∧
        (b0 - 240) * 262144 + (b1 - 128) * 4096 + (b2 - 128) * 64 + (b3 - 128) ≤ 1114111 then
      some ((b0 - 240) * 262144 + (b1 - 128) * 4096 + (b2 - 128) * 64 + (b3 - 128))
    else none
  | _ => none

/-- The abstract operation `Decode` of ECMAScript with no reserved characters, on the rest
of a text: `octets` are the octets read so far of a code point of several octets, of which
`need` are still to come.  A `%` is followed by two hexadecimal digits, which give an octet;
an octet below 128 is a character; an octet with 2 to 4 leading 1 bits opens the UTF-8
encoding of a code point, whose other octets follow, each as `%` and two hexadecimal
digits.  Everything else after a `%` is a `URIError`; a character other than `%` stands for
itself. -/
def decodeFrom : List ℕ → ℕ → List Char → Except JSError (List Char)
  | _, need, [] => if need = 0 then Except.ok [] else Except.error JSError.uriError
  | octets, need, c :: rest =>
    if c = '%' then
      match rest with
      | a :: b :: rest2 =>
        if isHexDigit a && isHexDigit b then
          if need = 0 then
            if leadingOnes (16 * hexValue a + hexValue b) = 0 then
              (decodeFrom [] 0 rest2).map fun cs =>
                Char.ofNat (16 * hexValue a + hexValue b) :: cs
            else if leadingOnes (16 * hexValue a + hexValue b) = 1 ∨
                4 < leadingOnes (16 * hexValue a + hexValue b) then
              Except.error JSError.uriError
            else
              decodeFrom [16 * hexValue a + hexValue b]
                (leadingOnes (16 * hexValue a + hexValue b) - 1) rest2
          else if need = 1 then
            match utf8CodePoint (octets ++ [16 * hexValue a + hexValue b]) with
            | some v => (decodeFrom [] 0 rest2).map fun cs => Char.ofNat v :: cs
            | none => Except.error JSError.uriError
          else decodeFrom (octets ++ [16 * hexValue a + hexValue b]) (need - 1) rest2
        else Except.error JSError.uriError
      | _ => Except.error JSError.uriError
    else if need = 0 then (decodeFrom [] 0 rest).map fun cs => c :: cs
    else Except.error JSError.uriError

/-- The function `decodeURIComponent`. -/
def decodeURIComponent (encoded : String) : Except JSError String :=
  (decodeFrom [] 0 encoded.data).map String.mk

/-- The loop of `getCookie` over the entries not yet looked at; `null` is `none`. -/
def getCookieLoop (name : List Char) : List (List Char) → Except JSError (Option String)
  | [] => Except.ok none
  | entry :: entries =>
    if (trim entry).take (name.length + 1) = name ++ ['='] then
      (decodeURIComponent (String.mk ((trim entry).drop (name.length + 1)))).map some
    else getCookieLoop name entries

/-- The function `getCookie(name)`, reading `document.cookie`. -/
def getCookie (documentCookie name : String) : Except JSError (Option String) :=
  if documentCookie ≠ "" then getCookieLoop name.data (splitSemicolon documentCookie.data)
  else Except.ok none

namespace Utils

/-- The loop of `Utils.getCSRFToken` over the entries not yet looked at. -/
def getCSRFTokenLoop : List (List Char) → Except JSError (Option String)
  | [] => Except.ok none
  | entry :: entries =>
    if (trim entry).take ("csrftoken".length + 1) = "csrftoken".data ++ ['='] then
      (decodeURIComponent (String.mk ((trim entry).drop ("csrftoken".length + 1)))).map some
    else getCSRFTokenLoop entries

/-- The method `Utils.getCSRFToken()`, reading `document.cookie`. -/
def getCSRFToken (documentCookie : String) : Except JSError (Option String) :=
  if documentCookie ≠ "" then getCSRFTokenLoop (splitSemicolon documentCookie.data)
  else Except.ok none

end Utils

/-! ## The arithmetic of the calculators in a field

The four `const` lines that `calculate` and `calculateLoan` run past their guard, read on the
numbers of a field `K`, with the built-in `Math.pow` as the parameter `pow`.  On the real
numbers with the real power this is the arithmetic of the scripts in exact real arithmetic,
for a whole and for a fractional number of months alike; on the rationals with a whole
exponent it is the arithmetic of `calculateFigures` and `calculateLoanFigures`. -/

/-- The four numbers computed past the guard. -/
structure Figures (K : Type) where
  monthlyRate : K
  monthlyPayment : K
  totalPayment : K
  totalInterest : K

namespace SiteOptimized

/-- The lines `const monthlyRate = …` to `const totalInterest = …` of `calculate`. -/
def calculateFiguresOver {K : Type} [Field K] (pow : K → K → K)
    (principal annualRate months : K) : Figures K :=
  let monthlyRate := annualRate / 100 / 12
  let monthlyPayment := principal * (monthlyRate * pow (1 + monthlyRate) months) /
    (pow (1 + monthlyRate) months - 1)
  let totalPayment := monthlyPayment * months
  let totalInterest := totalPayment - principal
  { monthlyRate := monthlyRate, monthlyPayment := monthlyPayment,
    totalPayment := totalPayment, totalInterest := totalInterest }

end SiteOptimized

namespace BusinessLoans

/-- The lines `const monthlyRate = …` to `const totalInterest = …` of `calculateLoan`. -/
def calculateLoanFiguresOver {K : Type} [Field K] (pow : K → K → K)
    (principal annualRate months : K) : Figures K :=
  let monthlyRate := annualRate / 100 / 12
  let monthlyPayment := principal * (monthlyRate * pow (1 + monthlyRate) months) /
    (pow (1 + monthlyRate) months - 1)
  let totalPayment := monthlyPayment * months
  let totalInterest := totalPayment - principal
  { monthlyRate := monthlyRate, monthlyPayment := monthlyPayment,
    totalPayment := totalPayment, totalInterest := totalInterest }

end BusinessLoans

/-! ## The specification's amortisation formulas -/

/-- The specification: `monthlyRate = annualRatePercent / 100 / 12`. -/
def specMonthlyRate (annualRate : ℚ) : ℚ := annualRate / 100 / 12

/-- The specification: `monthlyPayment = principal × monthlyRate × (1+monthlyRate)^termMonths /
((1+monthlyRate)^termMonths − 1)`. -/
def specMonthlyPayment (principal annualRate : ℚ) (months : ℕ) : ℚ :=
  principal * specMonthlyRate annualRate * (1 + specMonthlyRate annualRate) ^ months /
    ((1 + specMonthlyRate annualRate) ^ months - 1)

/-- The specification: `totalPayment = monthlyPayment × termMonths`. -/
def specTotalPayment (principal annualRate : ℚ) (months : ℕ) : ℚ :=
  specMonthlyPayment principal annualRate months * months

/-- The specification: `totalInterest = totalPayment − principal`. -/
def specTotalInterest (principal annualRate : ℚ) (months : ℕ) : ℚ :=
  specTotalPayment principal annualRate months - principal

/-- The specification's results as a record of Numbers. -/
def specFigures (principal annualRate : ℚ) (months : ℕ) : LoanFigures :=
  { monthlyPayment := fin (specMonthlyPayment principal annualRate months),
    totalPayment := fin (specTotalPayment principal annualRate months),
    totalInterest := fin (specTotalInterest principal annualRate months) }

/-- The specification's four formulas on the numbers of a field, `pow b e` being `b^e`:
`monthlyRate = annualRatePercent / 100 / 12`, `monthlyPayment = principal × monthlyRate ×
(1+monthlyRate)^termMonths / ((1+monthlyRate)^termMonths − 1)`, `totalPayment =
monthlyPayment × termMonths` and `totalInterest = totalPayment − principal`. -/
def specFiguresOver {K : Type} [Field K] (pow : K → K → K)
    (principal annualRate months : K) : Figures K :=
  { monthlyRate := annualRate / 100 / 12
    monthlyPayment :=
      principal * (annualRate / 100 / 12) * pow (1 + annualRate / 100 / 12) months /
        (pow (1 + annualRate / 100 / 12) months - 1)
    totalPayment :=
      principal * (annualRate / 100 / 12) * pow (1 + annualRate / 100 / 12) months /
        (pow (1 + annualRate / 100 / 12) months - 1) * months
    totalInterest :=
      principal * (annualRate / 100 / 12) * pow (1 + annualRate / 100 / 12) months /
        (pow (1 + annualRate / 100 / 12) months - 1) * months - principal }

/-- The divisor of the payment formula, `(1 + monthlyRate)^months - 1`, on the numbers of a
field. -/
def specDivisorOver {K : Type} [Field K] (pow : K → K → K) (annualRate months : K) : K :=
  pow (1 + annualRate / 100 / 12) months - 1

/-- The balance left after `k` payments of `payment`, interest `rate` being added each
period: `B_0 = principal`, `B_(k+1) = B_k * (1 + rate) - payment`. -/
def balance (principal rate payment : ℚ) : ℕ → ℚ
  | 0 => principal
  | k + 1 => balance principal rate payment k * (1 + rate) - payment

/-- Digits grouped by three in a text whose first character is the last digit: a space
after every third digit that has a successor. -/
def groupReversed : List Char → List Char
  | a :: b :: c :: rest =>
    if rest = [] then [a, b, c] else a :: b :: c :: ' ' :: groupReversed rest
  | l => l

/-- The specification: a grouping separator (a space) every three digits from the right. -/
def groupFromRight (digits : List Char) : List Char := (groupReversed digits.reverse).reverse

/-- The `width` last decimal digits of `n`, with leading zeros. -/
def fixedWidth : ℕ → ℕ → List Char
  | 0, _ => []
  | width + 1, n => fixedWidth width (n / 10) ++ [Nat.digitChar (n % 10)]

/-- The specification's display text of a non-negative amount with `d` decimals: the amount
rounded to `d` decimals, its integer part grouped, a comma and `d` digits. -/
def specAmountText (x : ℚ) (d : ℕ) : String :=
  String.mk (groupFromRight (decimal (⌊x * 10 ^ d + 1 / 2⌋.toNat / 10 ^ d)) ++
    ',' :: fixedWidth d (⌊x * 10 ^ d + 1 / 2⌋.toNat % 10 ^ d))

/-! ## Auxiliary definitions for the proofs -/

/-- The exponent layout: one digit, the other digits after a point, the exponent. -/
def exponentLayout (s : ℕ) (e : ℤ) : List Char :=
  match decimal s with
  | [] => []
  | [d] => d :: 'e' :: '+' :: decimal ((decimal s).length + e - 1).toNat
  | d :: rest => d :: '.' :: (rest ++ 'e' :: '+' :: decimal ((decimal s).length + e - 1).toNat)

/-- The text `formatNumber` makes of the text of the rounded number: split at the points,
group the first part, join with commas. -/
def formattedText (rounded : List Char) : String :=
  match splitDot rounded with
  | [] => String.mk []
  | p :: ps => String.mk (joinComma (groupThousands p :: ps))

/-- The text holds no white space, comma or point. -/
def Clean (text : List Char) : Prop :=
  ∀ c ∈ text, isWhiteSpace c = false ∧ c ≠ ',' ∧ c ≠ '.'

/-- A number rounded to `d` decimals, a tie going up. -/
def roundTo (d : ℕ) (x : ℚ) : ℚ := (⌊x * 10 ^ d + 1 / 2⌋ : ℤ) / 10 ^ d

/-- Whether an unsigned text starts like a number for `parseFloat`: with a digit, with a
point followed by a digit, or with `Infinity`. -/
def startsUnsignedNumber (cs : List Char) : Bool :=
  startsWith "Infinity".data cs || startsWithDigit cs ||
    (match afterPoint cs with
      | some t => startsWithDigit t
      | none => false)

/-- Whether a text starts like a number for `parseFloat`: leading white space and one sign
are allowed in front. -/
def startsNumber (cs : List Char) : Bool :=
  match cs.dropWhile isWhiteSpace with
  | c :: t => if c = '+' ∨ c = '-' then startsUnsignedNumber t else startsUnsignedNumber (c :: t)
  | [] => false

/-- The text `parseNumber` hands to `parseFloat`: white space removed, the first comma
replaced by a point. -/
def cleanedText (s : String) : List Char := replaceFirstComma (removeWhiteSpace s.data)

namespace Debounce

/-- The state in which exactly one timer is pending and `func` has not been called yet. -/
def armed {α σ : Type} (id due : ℕ) (args : α) (world : σ) : State α σ :=
  { timeout := some id, timers := [{ id := id, due := due, args := args }], nextId := id + 1,
    world := world, invoked := [], errors := [] }

/-- What stays true of a debounced function whose `func` throws `e` whenever it is called
without a receiver: the page is `w`, every call of `func` has thrown, and thrown `e`. -/
def Throwing {α σ : Type} (e : JSError) (w : σ) (s : State α σ) : Prop :=
  s.world = w ∧ s.errors.map Prod.fst = s.invoked.map Prod.fst ∧ ∀ x ∈ s.errors, x.2 = e

end Debounce

/-- The number a body row shows in a column: what `parseFloat` reads from the
`data-sort-value` or else the text of the cell at that position. -/
def columnKey (column : ℕ) (row : List Cell) : JSNumber :=
  parseFloat (SiteOptimized.sortKeyText column row)

/-! ## Arithmetic on finite numbers -/

theorem add_fin (a b : ℚ) : add (fin a) (fin b) = fin (a + b) := rfl

theorem mul_fin (a b : ℚ) : mul (fin a) (fin b) = fin (a * b) := rfl

theorem sub_fin (a b : ℚ) : sub (fin a) (fin b) = fin (a - b) := by
  simp [sub, neg, add, sub_eq_add_neg]

theorem div_fin (a b : ℚ) (hb : b ≠ 0) : div (fin a) (fin b) = fin (a / b) := by
  simp [div, hb]

theorem le_fin (a b : ℚ) : le (fin a) (fin b) = decide (a ≤ b) := rfl

theorem pow_fin_nat (b : ℚ) (n : ℕ) (hb : b ≠ 0) (hn : 0 < n) :
    Math.pow (fin b) (fin (n : ℚ)) = some (fin (b ^ n)) := by
  have hn0 : (n : ℚ) ≠ 0 := by exact_mod_cast hn.ne.symm
  simp [Math.pow, hn0, hb]

/-- The divisor of the payment formula is positive. -/
theorem growth_sub_one_pos (r : ℚ) (n : ℕ) (hr : 0 < r) (hn : 0 < n) :
    0 < (1 + specMonthlyRate r) ^ n - 1 := by
  have hm : 0 < specMonthlyRate r := by unfold specMonthlyRate; positivity
  have h1 : 1 < (1 + specMonthlyRate r) ^ n :=
    one_lt_pow₀ (by linarith) hn.ne.symm
  linarith

theorem SiteOptimized.calculateFigures_fin (p r : ℚ) (n : ℕ) (hr : 0 < r) (hn : 0 < n) :
    SiteOptimized.calculateFigures (fin p) (fin r) (fin (n : ℚ)) = some (specFigures p r n) := by
  have hd := growth_sub_one_pos r n hr hn
  have hm : 0 < specMonthlyRate r := by unfold specMonthlyRate; positivity
  have hb : (1 + specMonthlyRate r) ≠ 0 := by linarith
  have e1 : div (div (fin r) (fin 100)) (fin 12) = fin (specMonthlyRate r) := by
    rw [div_fin _ _ (by norm_num), div_fin _ _ (by norm_num)]; rfl
  simp only [SiteOptimized.calculateFigures, e1, add_fin, pow_fin_nat _ _ hb hn, Option.map_some',
    mul_fin, sub_fin, div_fin _ _ hd.ne.symm, specFigures, specMonthlyPayment, specTotalPayment,
    specTotalInterest]
  congr 3 <;> ring

theorem BusinessLoans.calculateLoanFigures_fin (p r : ℚ) (n : ℕ) (hr : 0 < r) (hn : 0 < n) :
    BusinessLoans.calculateLoanFigures (fin p) (fin r) (fin (n : ℚ)) =
      some (specFigures p r n) :=
  SiteOptimized.calculateFigures_fin p r n hr hn

theorem orZero_fin_pos (q : ℚ) : orZero (fin q) = fin q := rfl

theorem orZero_orZero (x : JSNumber) : orZero (orZero x) = orZero x := by
  cases x <;> rfl

theorem SiteOptimized.orZero_parseNumber (s : String) :
    orZero (SiteOptimized.parseNumber s) = SiteOptimized.parseNumber s :=
  orZero_orZero _

theorem BusinessLoans.orZero_parseNumber_loan (s : String) :
    orZero (BusinessLoans.parseNumber s) = BusinessLoans.parseNumber s :=
  orZero_orZero _

theorem le_zero_false {q : ℚ} (h : 0 < q) : le (fin q) (fin 0) = false := by
  simp [le_fin, h]

/-- The guard of `calculate` sends degenerate inputs to the zero texts. -/
theorem SiteOptimized.calculate_zero (amount rate term : String) (d : SiteOptimized.Displays)
    (h : le (SiteOptimized.parseNumber amount) (fin 0) = true ∨
      le (SiteOptimized.parseNumber rate) (fin 0) = true ∨
      le (SiteOptimized.parseNumber term) (fin 0) = true) :
    SiteOptimized.calculate amount rate term d =
      some { monthly := setText d.monthly "0 kr", total := setText d.total "0 kr",
             interest := setText d.interest "0 kr" } := by
  have hg : (le (SiteOptimized.parseNumber amount) (fin 0) ||
      le (SiteOptimized.parseNumber rate) (fin 0) ||
      le (SiteOptimized.parseNumber term) (fin 0)) = true := by
    rcases h with h | h | h <;> simp [h]
  simp only [SiteOptimized.calculate, SiteOptimized.orZero_parseNumber, hg, if_true]

/-- The guard of `calculateLoan` sends degenerate inputs to the zero texts. -/
theorem BusinessLoans.calculateLoan_zero (amount rate term : String)
    (d : BusinessLoans.LoanDisplays)
    (h : le (BusinessLoans.parseNumber amount) (fin 0) = true ∨
      le (BusinessLoans.parseNumber rate) (fin 0) = true ∨
      le (BusinessLoans.parseNumber term) (fin 0) = true) :
    BusinessLoans.calculateLoan amount rate term d =
      some (if d.complete then
        { monthlyPayment := some "0 kr", totalLoanAmount := some "0 kr",
          totalInterest := some "0 kr", totalPayment := some "0 kr" }
        else d) := by
  have hg : (le (BusinessLoans.parseNumber amount) (fin 0) ||
      le (BusinessLoans.parseNumber rate) (fin 0) ||
      le (BusinessLoans.parseNumber term) (fin 0)) = true := by
    rcases h with h | h | h <;> simp [h]
  simp only [BusinessLoans.calculateLoan, BusinessLoans.orZero_parseNumber_loan, hg, if_true]
  cases d.complete <;> simp

/-- Past the guard `calculate` formats the figures of the specification. -/
theorem SiteOptimized.calculate_pos (amount rate term : String) (p r : ℚ) (n : ℕ)
    (d : SiteOptimized.Displays)
    (ha : SiteOptimized.parseNumber amount = fin p)
    (hr : SiteOptimized.parseNumber rate = fin r)
    (ht : SiteOptimized.parseNumber term = fin (n : ℚ))
    (hp0 : 0 < p) (hr0 : 0 < r) (hn0 : 0 < n) :
    SiteOptimized.calculate amount rate term d =
      SiteOptimized.calculateFrame (specFigures p r n) d := by
  have hn' : (0 : ℚ) < n := by exact_mod_cast hn0
  simp only [SiteOptimized.calculate, ha, hr, ht, orZero_fin_pos, le_zero_false hp0,
    le_zero_false hr0, le_zero_false hn', Bool.or_self, Bool.false_eq_true, if_false,
    SiteOptimized.calculateFigures_fin p r n hr0 hn0, Option.some_bind]

/-- Past the guard `calculateLoan` formats the figures of the specification. -/
theorem BusinessLoans.calculateLoan_pos (amount rate term : String) (p r : ℚ) (n : ℕ)
    (d : BusinessLoans.LoanDisplays)
    (ha : BusinessLoans.parseNumber amount = fin p)
    (hr : BusinessLoans.parseNumber rate = fin r)
    (ht : BusinessLoans.parseNumber term = fin (n : ℚ))
    (hp0 : 0 < p) (hr0 : 0 < r) (hn0 : 0 < n) :
    BusinessLoans.calculateLoan amount rate term d =
      if d.complete then BusinessLoans.calculateLoanFrame (specFigures p r n) (fin p)
      else some d := by
  have hn' : (0 : ℚ) < n := by exact_mod_cast hn0
  simp only [BusinessLoans.calculateLoan, ha, hr, ht, orZero_fin_pos, le_zero_false hp0,
    le_zero_false hr0, le_zero_false hn', Bool.or_self, Bool.false_eq_true, if_false,
    BusinessLoans.calculateLoanFigures_fin p r n hr0 hn0, Option.some_bind]
  cases d.complete <;> simp

theorem specMonthlyPayment_pos (p r : ℚ) (n : ℕ) (hp : 0 < p) (hr : 0 < r) (hn : 0 < n) :
    0 < specMonthlyPayment p r n := by
  have hd := growth_sub_one_pos r n hr hn
  have hm : 0 < specMonthlyRate r := by unfold specMonthlyRate; positivity
  unfold specMonthlyPayment
  positivity

/-- Growth over `n` periods is at most `n` times the last period's interest. -/
theorem growth_sub_one_le (x : ℚ) (hx : 1 ≤ x) (n : ℕ) :
    x ^ n - 1 ≤ n * (x - 1) * x ^ n := by
  induction n with
  | zero => simp
  | succ k ih =>
    have hk : (1 : ℚ) ≤ x ^ (k + 1) := one_le_pow₀ hx
    have h0 : (0 : ℚ) ≤ x - 1 := by linarith
    have h1 : x * (x ^ k - 1) ≤ x * (k * (x - 1) * x ^ k) :=
      mul_le_mul_of_nonneg_left ih (by linarith)
    have h2 : (x - 1) * 1 ≤ (x - 1) * x ^ (k + 1) := mul_le_mul_of_nonneg_left hk h0
    have e : x ^ (k + 1) = x * x ^ k := pow_succ' x k
    push_cast
    nlinarith [h1, h2, e]

theorem specTotalPayment_ge (p r : ℚ) (n : ℕ) (hp : 0 < p) (hr : 0 < r) (hn : 0 < n) :
    p ≤ specTotalPayment p r n := by
  have hd := growth_sub_one_pos r n hr hn
  have hm : 0 < specMonthlyRate r := by unfold specMonthlyRate; positivity
  have hg := growth_sub_one_le (1 + specMonthlyRate r) (by linarith) n
  unfold specTotalPayment specMonthlyPayment
  rw [div_mul_eq_mul_div, le_div_iff₀ hd]
  have : (1 + specMonthlyRate r) ^ n - 1 ≤
      specMonthlyRate r * (1 + specMonthlyRate r) ^ n * n := by
    have e : (n : ℚ) * (1 + specMonthlyRate r - 1) * (1 + specMonthlyRate r) ^ n =
        specMonthlyRate r * (1 + specMonthlyRate r) ^ n * n := by ring
    linarith
  calc p * ((1 + specMonthlyRate r) ^ n - 1)
      ≤ p * (specMonthlyRate r * (1 + specMonthlyRate r) ^ n * n) :=
        mul_le_mul_of_nonneg_left this hp.le
    _ = p * specMonthlyRate r * (1 + specMonthlyRate r) ^ n * n := by ring

/-- Closed form of the balance after `k` payments. -/
theorem balance_closed (p r m : ℚ) (hr : r ≠ 0) (k : ℕ) :
    balance p r m k = p * (1 + r) ^ k - m * ((1 + r) ^ k - 1) / r := by
  induction k with
  | zero => simp [balance]
  | succ k ih =>
    rw [balance, ih]
    field_simp
    ring

theorem balance_specMonthlyPayment (p r : ℚ) (n : ℕ) (hr : 0 < r) (hn : 0 < n) :
    balance p (specMonthlyRate r) (specMonthlyPayment p r n) n = 0 := by
  have hd := growth_sub_one_pos r n hr hn
  have hm : 0 < specMonthlyRate r := by unfold specMonthlyRate; positivity
  rw [balance_closed _ _ _ hm.ne.symm, specMonthlyPayment]
  field_simp
  ring

/-! ## Decimal digits -/

theorem isDigit_digitChar (d : ℕ) (hd : d < 10) : isDigit (Nat.digitChar d) = true := by
  interval_cases d <;> decide

theorem toNat_digitChar (d : ℕ) (hd : d < 10) : (Nat.digitChar d).toNat - 48 = d := by
  interval_cases d <;> decide

theorem digitChar_zero : Nat.digitChar 0 = Char.ofNat 48 := by decide

theorem digitsFuel_eq (fuel : ℕ) : ∀ (n : ℕ) (acc : List Char), n ≤ fuel →
    digitsFuel fuel n acc = ((Nat.digits 10 n).reverse.map Nat.digitChar) ++ acc := by
  induction fuel with
  | zero =>
    intro n acc h
    have : n = 0 := by omega
    subst this
    simp [digitsFuel]
  | succ k ih =>
    intro n acc h
    by_cases hn : n = 0
    · subst hn; simp [digitsFuel]
    · have hpos : 0 < n := Nat.pos_of_ne_zero hn
      rw [digitsFuel, if_neg hn, ih _ _ (by omega), Nat.digits_def' (by norm_num) hpos]
      simp

theorem decimal_eq (n : ℕ) (hn : n ≠ 0) :
    decimal n = (Nat.digits 10 n).reverse.map Nat.digitChar := by
  rw [decimal, if_neg hn, digitsFuel_eq n n [] le_rfl, List.append_nil]

theorem decimal_zero : decimal 0 = [Char.ofNat 48] := rfl

theorem decimal_ne_nil (n : ℕ) : decimal n ≠ [] := by
  by_cases hn : n = 0
  · subst hn; simp [decimal]
  · rw [decimal_eq n hn]
    simpa using Nat.digits_ne_nil_iff_ne_zero.mpr hn

theorem decimal_step (n : ℕ) (hn : 10 ≤ n) :
    decimal n = decimal (n / 10) ++ [Nat.digitChar (n % 10)] := by
  have h1 : n ≠ 0 := by omega
  have h2 : n / 10 ≠ 0 := by omega
  rw [decimal_eq n h1, decimal_eq _ h2, Nat.digits_def' (by norm_num) (by omega)]
  simp

theorem decimal_lt_ten (n : ℕ) (hn : n < 10) : decimal n = [Nat.digitChar n] := by
  by_cases h0 : n = 0
  · subst h0; rfl
  · rw [decimal_eq n h0, Nat.digits_def' (by norm_num) (by omega)]
    have : n / 10 = 0 := by omega
    simp [this, Nat.mod_eq_of_lt hn]

theorem isDigit_of_mem_decimal (n : ℕ) : ∀ c ∈ decimal n, isDigit c = true := by
  intro c hc
  by_cases hn : n = 0
  · subst hn
    simp [decimal] at hc
    subst hc; decide
  · rw [decimal_eq n hn] at hc
    simp only [List.mem_map, List.mem_reverse] at hc
    obtain ⟨d, hd, rfl⟩ := hc
    exact isDigit_digitChar d (Nat.digits_lt_base (by norm_num) hd)

theorem natOfDigits_append_singleton (cs : List Char) (c : Char) :
    natOfDigits (cs ++ [c]) = 10 * natOfDigits cs + (c.toNat - 48) := by
  simp [natOfDigits, List.foldl_append]

theorem natOfDigits_decimal (n : ℕ) : natOfDigits (decimal n) = n := by
  induction n using Nat.strong_induction_on with
  | _ n ih =>
    by_cases hn : n < 10
    · rw [decimal_lt_ten n hn]
      simp [natOfDigits, toNat_digitChar n hn]
    · rw [decimal_step n (by omega), natOfDigits_append_singleton, ih (n / 10) (by omega),
        toNat_digitChar _ (Nat.mod_lt _ (by norm_num))]
      omega

theorem length_decimal_le_iff (n k : ℕ) (hk : 0 < k) :
    (decimal n).length ≤ k ↔ n < 10 ^ k := by
  by_cases hn : n = 0
  · subst hn
    simp [decimal]
    omega
  · rw [decimal_eq n hn]
    simp only [List.length_map, List.length_reverse]
    constructor
    · intro h
      calc n < 10 ^ (Nat.digits 10 n).length := Nat.lt_base_pow_length_digits (by norm_num)
        _ ≤ 10 ^ k := Nat.pow_le_pow_right (by norm_num) h
    · intro h
      have h1 := Nat.base_pow_length_digits_le 10 n (by norm_num) hn
      have h2 : 10 ^ (Nat.digits 10 n).length < 10 ^ (k + 1) := by
        rw [pow_succ]; omega
      have := (Nat.pow_lt_pow_iff_right (by norm_num : 1 < 10)).mp h2
      omega

theorem decimal_mul_pow (s t : ℕ) (hs : 0 < s) :
    decimal (s * 10 ^ t) = decimal s ++ List.replicate t (Char.ofNat 48) := by
  have h1 : s * 10 ^ t ≠ 0 := by positivity
  rw [decimal_eq _ h1, decimal_eq s hs.ne.symm, mul_comm,
    Nat.digits_base_pow_mul (by norm_num) hs]
  simp [digitChar_zero]

/-! ## `Number::toString` -/

theorem stripZeros_spec (fuel : ℕ) : ∀ n : ℕ,
    (stripZeros fuel n).1 * 10 ^ (stripZeros fuel n).2 = n ∧
      (n ≠ 0 → (stripZeros fuel n).1 ≠ 0) := by
  induction fuel with
  | zero => intro n; simp [stripZeros]
  | succ k ih =>
    intro n
    rw [stripZeros]
    by_cases h : n ≠ 0 ∧ n % 10 = 0
    · rw [if_pos h]
      obtain ⟨h1, h2⟩ := ih (n / 10)
      refine ⟨?_, fun _ => h2 (by omega)⟩
      simp only
      rw [pow_succ, ← mul_assoc, h1]
      omega
    · rw [if_neg h]
      simp

theorem findScale_some (q : ℚ) (fuel : ℕ) : ∀ j j₁ : ℕ,
    findScale q fuel j = some j₁ → (q * 10 ^ j₁).den = 1 := by
  induction fuel with
  | zero =>
    intro j j₁ h
    rw [findScale] at h
    by_cases hd : (q * 10 ^ j).den = 1
    · rw [if_pos hd] at h
      cases h
      exact hd
    · rw [if_neg hd] at h
      cases h
  | succ k ih =>
    intro j j₁ h
    rw [findScale] at h
    by_cases hd : (q * 10 ^ j).den = 1
    · rw [if_pos hd] at h
      cases h
      exact hd
    · rw [if_neg hd] at h
      exact ih _ _ h

theorem findScale_isSome (q : ℚ) (fuel : ℕ) : ∀ j j₁ : ℕ, j ≤ j₁ → j₁ ≤ j + fuel →
    (q * 10 ^ j₁).den = 1 → ∃ j₂, findScale q fuel j = some j₂ := by
  induction fuel with
  | zero =>
    intro j j₁ h1 h2 hd
    have : j₁ = j := by omega
    subst this
    exact ⟨j₁, by rw [findScale, if_pos hd]⟩
  | succ k ih =>
    intro j j₁ h1 h2 hd
    by_cases hj : (q * 10 ^ j).den = 1
    · exact ⟨j, by rw [findScale, if_pos hj]⟩
    · have hne : j ≠ j₁ := fun e => hj (e ▸ hd)
      obtain ⟨j₂, h⟩ := ih (j + 1) j₁ (by omega) (by omega) hd
      exact ⟨j₂, by rw [findScale, if_neg hj]; exact h⟩

theorem significand_spec (q : ℚ) (hq : 0 < q) (s : ℕ) (e : ℤ)
    (h : significand q = some (s, e)) : (s : ℚ) * 10 ^ e = q ∧ 0 < s := by
  unfold significand at h
  cases hf : findScale q q.den 0 with
  | none => rw [hf] at h; cases h
  | some j =>
    rw [hf, Option.map_some'] at h
    have hs : (stripZeros (q * 10 ^ j).num.natAbs (q * 10 ^ j).num.natAbs).1 = s :=
      congrArg Prod.fst (Option.some.inj h)
    have he : ((stripZeros (q * 10 ^ j).num.natAbs (q * 10 ^ j).num.natAbs).2 : ℤ) - (j : ℤ)
        = e := congrArg Prod.snd (Option.some.inj h)
    have hd := findScale_some q _ _ _ hf
    have hpos : 0 < q * 10 ^ j := by positivity
    have hnum : 0 < (q * 10 ^ j).num := Rat.num_pos.mpr hpos
    have hcast : ((q * 10 ^ j).num : ℚ) = q * 10 ^ j := by
      have := Rat.num_div_den (q * 10 ^ j)
      rw [hd] at this
      simpa using this
    have hnat : (((q * 10 ^ j).num.natAbs : ℕ) : ℚ) = q * 10 ^ j := by
      have e1 : (((q * 10 ^ j).num.natAbs : ℕ) : ℤ) = (q * 10 ^ j).num :=
        Int.natAbs_of_nonneg hnum.le
      calc (((q * 10 ^ j).num.natAbs : ℕ) : ℚ)
          = ((((q * 10 ^ j).num.natAbs : ℕ) : ℤ) : ℚ) := (Int.cast_natCast _).symm
        _ = ((q * 10 ^ j).num : ℚ) := by rw [e1]
        _ = q * 10 ^ j := hcast
    have hN0 : (q * 10 ^ j).num.natAbs ≠ 0 := by omega
    obtain ⟨h1, h2⟩ := stripZeros_spec (q * 10 ^ j).num.natAbs (q * 10 ^ j).num.natAbs
    generalize (q * 10 ^ j).num.natAbs = N at hs he hnat hN0 h1 h2
    generalize stripZeros N N = st at hs he h1 h2
    rw [hs] at h1 h2
    refine ⟨?_, Nat.pos_of_ne_zero (h2 hN0)⟩
    have h3 : (s : ℚ) * 10 ^ st.2 = q * 10 ^ j := by
      rw [← hnat, ← h1]
      push_cast
      ring
    rw [← he, zpow_sub₀ (by norm_num), zpow_natCast, zpow_natCast, ← mul_div_assoc, h3]
    field_simp

theorem significand_natCast (n : ℕ) :
    significand (n : ℚ) = some ((stripZeros n n).1, ((stripZeros n n).2 : ℤ)) := by
  have hd : ((n : ℚ) * 10 ^ 0).den = 1 := by simp
  have hf : findScale (n : ℚ) (n : ℚ).den 0 = some 0 := by
    cases (n : ℚ).den <;> rw [findScale, if_pos hd]
  have hn : ((n : ℚ) * 10 ^ 0).num.natAbs = n := by simp
  simp only [significand, hf, Option.map_some', hn]
  simp

theorem significand_isSome (q : ℚ) (j : ℕ) (hj : j ≤ 2) (hd : (q * 10 ^ j).den = 1) :
    ∃ se, significand q = some se := by
  have : ∃ j₂, findScale q q.den 0 = some j₂ := by
    by_cases h1 : q.den = 1
    · refine findScale_isSome q _ 0 0 le_rfl (by omega) ?_
      simpa using h1
    · have : 2 ≤ q.den := by
        have := q.den_pos
        omega
      exact findScale_isSome q _ 0 j (by omega) (by omega) hd
  obtain ⟨j₂, h⟩ := this
  exact ⟨_, by rw [significand, h, Option.map_some']⟩

theorem length_decimal_pos (n : ℕ) : 0 < (decimal n).length :=
  List.length_pos.mpr (decimal_ne_nil n)

/-- A positive integer below `10^21` prints as its decimal digits. -/
theorem layout_plain (s t : ℕ) (hs : 0 < s) (h : s * 10 ^ t < 10 ^ 21) :
    layout s (t : ℤ) = decimal (s * 10 ^ t) := by
  have hlen : (decimal (s * 10 ^ t)).length ≤ 21 :=
    (length_decimal_le_iff _ 21 (by norm_num)).mpr h
  rw [decimal_mul_pow s t hs] at hlen ⊢
  simp only [List.length_append, List.length_replicate] at hlen
  have hc : ((decimal s).length : ℤ) ≤ ((decimal s).length : ℤ) + (t : ℤ) ∧
      ((decimal s).length : ℤ) + (t : ℤ) ≤ 21 := by
    constructor <;> omega
  simp only [layout, hc, and_self, if_true]
  congr 2
  omega

/-- The text of a natural number below `10^21`. -/
theorem Number.toString_natCast (n : ℕ) (h : n < 10 ^ 21) :
    Number.toString (fin (n : ℚ)) = some (String.mk (decimal n)) := by
  by_cases hn : n = 0
  · subst hn
    simp [Number.toString, decimal]
  · have hq : ¬ ((n : ℚ) = 0) := by exact_mod_cast hn
    have hq' : ¬ ((n : ℚ) < 0) := by simp
    obtain ⟨h1, h2⟩ := stripZeros_spec n n
    simp only [Number.toString, hq, hq', if_false, significand_natCast, Option.map_some']
    rw [layout_plain _ _ (Nat.pos_of_ne_zero (h2 hn)) (by rw [h1]; exact h), h1]

theorem layout_exponent (s : ℕ) (e : ℤ) (h : 21 < ((decimal s).length : ℤ) + e) :
    layout s e = exponentLayout s e := by
  have c1 : ¬ (((decimal s).length : ℤ) ≤ ((decimal s).length : ℤ) + e ∧
      ((decimal s).length : ℤ) + e ≤ 21) := by omega
  have c2 : ¬ (0 < ((decimal s).length : ℤ) + e ∧ ((decimal s).length : ℤ) + e ≤ 21) := by
    omega
  have c3 : ¬ (-6 < ((decimal s).length : ℤ) + e ∧ ((decimal s).length : ℤ) + e ≤ 0) := by
    omega
  have c4 : 0 ≤ ((decimal s).length : ℤ) + e - 1 := by omega
  have c5 : (((decimal s).length : ℤ) + e - 1).natAbs = (((decimal s).length : ℤ) + e - 1).toNat := by
    omega
  simp only [layout, exponentLayout, c1, c2, c3, c4, c5, if_false, if_true]

/-- A number of magnitude `10^21` or more has its decimal point beyond 21 digits. -/
theorem point_of_large (q : ℚ) (s : ℕ) (e : ℤ) (hq : (s : ℚ) * 10 ^ e = q)
    (hlarge : (10 : ℚ) ^ 21 ≤ q) : 21 < ((decimal s).length : ℤ) + e := by
  have h1 : s < 10 ^ (decimal s).length :=
    (length_decimal_le_iff s _ (length_decimal_pos s)).mp le_rfl
  have h2 : (s : ℚ) < 10 ^ (decimal s).length := by exact_mod_cast h1
  have h3 : q < 10 ^ (((decimal s).length : ℤ) + e) := by
    rw [← hq, zpow_add₀ (by norm_num), zpow_natCast]
    exact mul_lt_mul_of_pos_right h2 (by positivity)
  have h4 : (10 : ℚ) ^ (21 : ℤ) < 10 ^ (((decimal s).length : ℤ) + e) := by
    refine lt_of_le_of_lt ?_ h3
    rw [show (21 : ℤ) = ((21 : ℕ) : ℤ) from rfl, zpow_natCast]
    exact hlarge
  exact (zpow_lt_zpow_iff_right₀ (by norm_num)).mp h4

/-- The text of a positive number of magnitude `10^21` or more, when it has one. -/
theorem Number.toString_large (q : ℚ) (hlarge : (10 : ℚ) ^ 21 ≤ q) (s : ℕ) (e : ℤ)
    (h : significand q = some (s, e)) :
    Number.toString (fin q) = some (String.mk (exponentLayout s e)) := by
  have hpos : 0 < q := lt_of_lt_of_le (by positivity) hlarge
  have hq : ¬ (q = 0) := hpos.ne.symm
  have hq' : ¬ (q < 0) := not_lt.mpr hpos.le
  obtain ⟨h1, _⟩ := significand_spec q hpos s e h
  simp only [Number.toString, hq, hq', if_false, h, Option.map_some']
  rw [layout_exponent s e (point_of_large q s e h1 hlarge)]

/-! ## Characters -/

theorem ne_of_isDigit {c d : Char} (hc : isDigit c = true) (hd : isDigit d = false) : c ≠ d := by
  rintro rfl
  rw [hc] at hd
  cases hd

theorem isWhiteSpace_of_isDigit {c : Char} (hc : isDigit c = true) : isWhiteSpace c = false := by
  simp only [isDigit, decide_eq_true_eq] at hc
  simp only [isWhiteSpace, Bool.or_eq_false_iff, decide_eq_false_iff_not]
  omega

theorem natOfDigits_append (a b : List Char) :
    natOfDigits (a ++ b) = natOfDigits a * 10 ^ b.length + natOfDigits b := by
  induction b using List.reverseRecOn with
  | nil => simp [natOfDigits]
  | append_singleton b c ih =>
    rw [← List.append_assoc, natOfDigits_append_singleton, ih, natOfDigits_append_singleton]
    simp only [List.length_append, List.length_singleton, pow_succ]
    ring

theorem takeWhile_digits (ip r : List Char) (hip : ∀ c ∈ ip, isDigit c = true)
    (hr : startsWithDigit r = false) : (ip ++ r).takeWhile isDigit = ip := by
  induction ip with
  | nil =>
    cases r with
    | nil => rfl
    | cons c cs =>
      simp only [startsWithDigit] at hr
      simp [List.takeWhile, hr]
  | cons d ds ih =>
    have hd : isDigit d = true := hip d (List.mem_cons_self _ _)
    rw [List.cons_append, List.takeWhile_cons_of_pos hd,
      ih (fun c hc => hip c (List.mem_cons_of_mem _ hc))]

theorem dropWhile_digits (ip r : List Char) (hip : ∀ c ∈ ip, isDigit c = true)
    (hr : startsWithDigit r = false) : (ip ++ r).dropWhile isDigit = r := by
  induction ip with
  | nil =>
    cases r with
    | nil => rfl
    | cons c cs =>
      simp only [startsWithDigit] at hr
      simp [List.dropWhile, hr]
  | cons d ds ih =>
    have hd : isDigit d = true := hip d (List.mem_cons_self _ _)
    rw [List.cons_append, List.dropWhile_cons_of_pos hd,
      ih (fun c hc => hip c (List.mem_cons_of_mem _ hc))]

theorem exponentPart_nil : exponentPart [] = 0 := rfl

theorem exponentPart_plus (es : List Char) (hes : ∀ c ∈ es, isDigit c = true) (hne : es ≠ []) :
    exponentPart ('e' :: '+' :: es) = (natOfDigits es : ℤ) := by
  have h1 : startsWithDigit es = true := by
    cases es with
    | nil => exact absurd rfl hne
    | cons c cs => exact hes c (List.mem_cons_self _ _)
  have h2 : es.takeWhile isDigit = es := by
    have := takeWhile_digits es [] hes rfl
    simpa using this
  simp [exponentPart, h1, h2]

/-- The value read from digits, a point, digits and what follows. -/
theorem strUnsigned_point (ip fp r2 : List Char) (hip : ∀ c ∈ ip, isDigit c = true)
    (hne : ip ≠ []) (hfp : ∀ c ∈ fp, isDigit c = true) (hr2 : startsWithDigit r2 = false) :
    strUnsignedDecimalLiteral (ip ++ '.' :: (fp ++ r2)) =
      fin ((natOfDigits (ip ++ fp) : ℚ) * 10 ^ (exponentPart r2 - (fp.length : ℤ))) := by
  have hs : startsWith "Infinity".data (ip ++ '.' :: (fp ++ r2)) = false := by
    cases ip with
    | nil => exact absurd rfl hne
    | cons d ds =>
      have hd : isDigit d = true := hip d (List.mem_cons_self _ _)
      have : ('I' == d) = false := by
        rw [beq_eq_false_iff_ne]
        exact (ne_of_isDigit hd (by decide)).symm
      simp [startsWith, this]
  have hdot : startsWithDigit ('.' :: (fp ++ r2)) = false := by
    show isDigit '.' = false
    decide
  have ht := takeWhile_digits ip _ hip hdot
  have hd := dropWhile_digits ip _ hip hdot
  have ht2 := takeWhile_digits fp r2 hfp hr2
  have hd2 := dropWhile_digits fp r2 hfp hr2
  have hap : afterPoint ('.' :: (fp ++ r2)) = some (fp ++ r2) := by simp [afterPoint]
  simp only [strUnsignedDecimalLiteral, hs, ht, hd, hap, ht2, hd2]
  simp [hne]

/-- The value read from digits followed by something that is neither a digit nor a point. -/
theorem strUnsigned_plain (ip r2 : List Char) (hip : ∀ c ∈ ip, isDigit c = true)
    (hne : ip ≠ []) (hr2 : startsWithDigit r2 = false) (hdot : ∀ t, r2 ≠ '.' :: t) :
    strUnsignedDecimalLiteral (ip ++ r2) =
      fin ((natOfDigits ip : ℚ) * 10 ^ (exponentPart r2)) := by
  have hs : startsWith "Infinity".data (ip ++ r2) = false := by
    cases ip with
    | nil => exact absurd rfl hne
    | cons d ds =>
      have hd : isDigit d = true := hip d (List.mem_cons_self _ _)
      have : ('I' == d) = false := by
        rw [beq_eq_false_iff_ne]
        exact (ne_of_isDigit hd (by decide)).symm
      simp [startsWith, this]
  have ht := takeWhile_digits ip _ hip hr2
  have hd := dropWhile_digits ip _ hip hr2
  have hap : afterPoint r2 = none := by
    cases r2 with
    | nil => rfl
    | cons c cs =>
      have hc : c ≠ '.' := fun h => hdot cs (by rw [h])
      simp [afterPoint, hc]
  simp only [strUnsignedDecimalLiteral, hs, ht, hd, hap]
  simp [hne]

theorem parseFloat_digits (ip r : List Char) (hip : ∀ c ∈ ip, isDigit c = true)
    (hne : ip ≠ []) :
    parseFloat (String.mk (ip ++ r)) = strUnsignedDecimalLiteral (ip ++ r) := by
  cases ip with
  | nil => exact absurd rfl hne
  | cons d ds =>
    have hd : isDigit d = true := hip d (List.mem_cons_self _ _)
    have hw : isWhiteSpace d = false := isWhiteSpace_of_isDigit hd
    have h1 : d ≠ '+' := ne_of_isDigit hd (by decide)
    have h2 : d ≠ '-' := ne_of_isDigit hd (by decide)
    simp only [parseFloat, List.cons_append, List.dropWhile, hw]
    split
    · rename_i h; simp at h; exact absurd h.1 h1
    · rename_i h; simp at h; exact absurd h.1 h2
    · rfl

/-! ## What `formatNumber` adds and `parseNumber` removes -/

theorem SiteOptimized.formatNumber_eq (num : JSNumber) (d : ℕ) :
    SiteOptimized.formatNumber num d =
      (if 0 < d then Number.toFixed num d else Number.toString (Math.round num)).map
        fun rounded => formattedText rounded.data := rfl

theorem BusinessLoans.formatNumber_eq_site (num : JSNumber) (d : ℕ) :
    BusinessLoans.formatNumber num d = SiteOptimized.formatNumber num d := rfl

theorem BusinessLoans.parseNumber_eq_site (s : String) :
    BusinessLoans.parseNumber s = SiteOptimized.parseNumber s := rfl

theorem clean_of_digits (l : List Char) (h : ∀ c ∈ l, isDigit c = true) : Clean l := by
  intro c hc
  exact ⟨isWhiteSpace_of_isDigit (h c hc), ne_of_isDigit (h c hc) (by decide),
    ne_of_isDigit (h c hc) (by decide)⟩

theorem Clean.append {a b : List Char} (ha : Clean a) (hb : Clean b) : Clean (a ++ b) := by
  intro c hc
  rcases List.mem_append.mp hc with h | h
  · exact ha c h
  · exact hb c h

theorem Clean.cons {c : Char} {a : List Char} (hc : isWhiteSpace c = false ∧ c ≠ ',' ∧ c ≠ '.')
    (ha : Clean a) : Clean (c :: a) := by
  intro x hx
  rcases List.mem_cons.mp hx with h | h
  · rw [h]; exact hc
  · exact ha x h

theorem Clean.tail {c : Char} {a : List Char} (h : Clean (c :: a)) : Clean a :=
  fun x hx => h x (List.mem_cons_of_mem _ hx)

theorem splitDot_clean (a : List Char) (ha : Clean a) : splitDot a = [a] := by
  induction a with
  | nil => rfl
  | cons c cs ih =>
    have hc : c ≠ '.' := (ha c (List.mem_cons_self _ _)).2.2
    rw [splitDot, if_neg hc, ih ha.tail]

theorem splitDot_point (a b : List Char) (ha : Clean a) :
    splitDot (a ++ '.' :: b) = a :: splitDot b := by
  induction a with
  | nil => simp [splitDot]
  | cons c cs ih =>
    have hc : c ≠ '.' := (ha c (List.mem_cons_self _ _)).2.2
    rw [List.cons_append, splitDot, if_neg hc, ih ha.tail]

theorem removeWhiteSpace_clean (a : List Char) (ha : Clean a) : removeWhiteSpace a = a := by
  unfold removeWhiteSpace
  rw [List.filter_eq_self]
  intro c hc
  simp [(ha c hc).1]

theorem removeWhiteSpace_group (a : List Char) (ha : Clean a) :
    ∀ prev, removeWhiteSpace (groupThousandsFrom prev a) = a := by
  induction a with
  | nil => intro prev; rfl
  | cons c cs ih =>
    intro prev
    have hc : isWhiteSpace c = false := (ha c (List.mem_cons_self _ _)).1
    have hsp : isWhiteSpace ' ' = true := by decide
    have ih' := ih ha.tail (some c)
    unfold removeWhiteSpace at ih' ⊢
    rw [groupThousandsFrom]
    split
    · simp only [List.filter, hsp, hc, Bool.not_true, Bool.not_false]
      rw [ih']
    · simp only [List.filter, hc, Bool.not_false]
      rw [ih']

theorem replaceFirstComma_clean (a : List Char) (ha : Clean a) : replaceFirstComma a = a := by
  induction a with
  | nil => rfl
  | cons c cs ih =>
    have hc : c ≠ ',' := (ha c (List.mem_cons_self _ _)).2.1
    rw [replaceFirstComma, if_neg hc, ih ha.tail]

theorem replaceFirstComma_comma (a b : List Char) (ha : Clean a) :
    replaceFirstComma (a ++ ',' :: b) = a ++ '.' :: b := by
  induction a with
  | nil => simp [replaceFirstComma]
  | cons c cs ih =>
    have hc : c ≠ ',' := (ha c (List.mem_cons_self _ _)).2.1
    rw [List.cons_append, replaceFirstComma, if_neg hc, ih ha.tail, List.cons_append]

theorem removeWhiteSpace_append (a b : List Char) :
    removeWhiteSpace (a ++ b) = removeWhiteSpace a ++ removeWhiteSpace b := by
  simp [removeWhiteSpace]

/-- Parsing undoes the grouping of a text without a point. -/
theorem parseNumber_formattedText_plain (a : List Char) (ha : Clean a) :
    SiteOptimized.parseNumber (formattedText a) = orZero (parseFloat (String.mk a)) := by
  simp only [SiteOptimized.parseNumber, formattedText, splitDot_clean a ha, joinComma,
    groupThousands, removeWhiteSpace_group a ha, replaceFirstComma_clean a ha]

/-- Parsing undoes the grouping and the comma of a text with one point. -/
theorem parseNumber_formattedText_point (a b : List Char) (ha : Clean a) (hb : Clean b) :
    SiteOptimized.parseNumber (formattedText (a ++ '.' :: b)) =
      orZero (parseFloat (String.mk (a ++ '.' :: b))) := by
  have hcomma : isWhiteSpace ',' = false := by decide
  have h1 : removeWhiteSpace (groupThousandsFrom none a ++ ',' :: b) = a ++ ',' :: b := by
    rw [removeWhiteSpace_append, removeWhiteSpace_group a ha]
    congr 1
    have : removeWhiteSpace (',' :: b) = ',' :: removeWhiteSpace b := by
      simp [removeWhiteSpace, List.filter, hcomma]
    rw [this, removeWhiteSpace_clean b hb]
  simp only [SiteOptimized.parseNumber, formattedText, splitDot_point a b ha,
    splitDot_clean b hb, joinComma, groupThousands, h1, replaceFirstComma_comma a b ha]

/-! ## `toFixed` below `10^21` -/

theorem length_fixedWidth (f : ℕ) : ∀ n, (fixedWidth f n).length = f := by
  induction f with
  | zero => intro n; rfl
  | succ k ih => intro n; simp [fixedWidth, ih]

theorem isDigit_of_mem_fixedWidth (f : ℕ) : ∀ n, ∀ c ∈ fixedWidth f n, isDigit c = true := by
  induction f with
  | zero => intro n c hc; simp [fixedWidth] at hc
  | succ k ih =>
    intro n c hc
    simp only [fixedWidth, List.mem_append, List.mem_singleton] at hc
    rcases hc with h | h
    · exact ih _ c h
    · rw [h]; exact isDigit_digitChar _ (Nat.mod_lt _ (by norm_num))

theorem natOfDigits_fixedWidth (f : ℕ) : ∀ n, natOfDigits (fixedWidth f n) = n % 10 ^ f := by
  induction f with
  | zero => intro n; simp [fixedWidth, natOfDigits, Nat.mod_one]
  | succ k ih =>
    intro n
    rw [fixedWidth, natOfDigits_append_singleton, ih,
      toNat_digitChar _ (Nat.mod_lt _ (by norm_num)), pow_succ]
    have h2 : n % (10 ^ k * 10) = n % 10 + 10 * (n / 10 % 10 ^ k) := by
      rw [mul_comm (10 ^ k) 10, Nat.mod_mul]
    omega

theorem fixedWidth_zero (f : ℕ) : fixedWidth f 0 = List.replicate f (Char.ofNat 48) := by
  induction f with
  | zero => rfl
  | succ k ih =>
    rw [fixedWidth, Nat.zero_div, ih, List.replicate_succ']
    rfl

/-- Digits padded to more than `f` places split into the integer part and `f` decimals. -/
theorem padded_decimal (f : ℕ) : ∀ n,
    List.replicate (f + 1 - (decimal n).length) (Char.ofNat 48) ++ decimal n =
      decimal (n / 10 ^ f) ++ fixedWidth f (n % 10 ^ f) := by
  induction f with
  | zero =>
    intro n
    have := length_decimal_pos n
    have h : 0 + 1 - (decimal n).length = 0 := by omega
    simp [h, fixedWidth]
  | succ k ih =>
    intro n
    by_cases hn : n < 10
    · have h1 : n / 10 ^ (k + 1) = 0 := by
        apply Nat.div_eq_of_lt
        calc n < 10 := hn
          _ = 10 ^ 1 := by norm_num
          _ ≤ 10 ^ (k + 1) := Nat.pow_le_pow_right (by norm_num) (by omega)
      have h2 : n % 10 ^ (k + 1) = n := by
        apply Nat.mod_eq_of_lt
        calc n < 10 := hn
          _ = 10 ^ 1 := by norm_num
          _ ≤ 10 ^ (k + 1) := Nat.pow_le_pow_right (by norm_num) (by omega)
      have h3 : n / 10 = 0 := by omega
      rw [h1, h2, decimal_lt_ten n hn, fixedWidth, h3, fixedWidth_zero, decimal_zero,
        Nat.mod_eq_of_lt hn]
      simp [List.replicate_succ]
    · have hstep := decimal_step n (by omega)
      have hlen : (decimal n).length = (decimal (n / 10)).length + 1 := by
        rw [hstep]; simp
      have e1 : k + 1 + 1 - (decimal n).length = k + 1 - (decimal (n / 10)).length := by
        omega
      have e2 : n / 10 / 10 ^ k = n / 10 ^ (k + 1) := by
        rw [Nat.div_div_eq_div_mul, pow_succ, mul_comm]
      have e3 : n % 10 ^ (k + 1) / 10 = n / 10 % 10 ^ k := by
        rw [pow_succ, mul_comm, Nat.mod_mul_right_div_self]
      have e4 : n % 10 ^ (k + 1) % 10 = n % 10 := by
        rw [pow_succ]
        exact Nat.mod_mul_left_mod n (10 ^ k) 10
      rw [e1, fixedWidth, e3, e4, ← List.append_assoc, ← e2, ← ih (n / 10), hstep]
      simp

/-- The text of `toFixed` for a non-negative number below `10^21`: the integer part, a point
and `f` decimals of the rounded number. -/
theorem Number.toFixed_small (x : ℚ) (f : ℕ) (hx : 0 ≤ x) (hsmall : x < 10 ^ 21)
    (hf0 : 0 < f) (hf : f ≤ 100) :
    Number.toFixed (fin x) f =
      some (String.mk (decimal (⌊x * 10 ^ f + 1 / 2⌋.toNat / 10 ^ f) ++
        '.' :: fixedWidth f (⌊x * 10 ^ f + 1 / 2⌋.toNat % 10 ^ f))) := by
  have h1 : ¬ (100 < f) := by omega
  have h2 : ¬ ((10 : ℚ) ^ 21 ≤ |x|) := by rw [abs_of_nonneg hx]; exact not_le.mpr hsmall
  have h3 : ¬ (x < 0) := not_lt.mpr hx
  have h4 : f ≠ 0 := by omega
  have hp := padded_decimal f ⌊x * 10 ^ f + 1 / 2⌋.toNat
  have hl := length_fixedWidth f (⌊x * 10 ^ f + 1 / 2⌋.toNat % 10 ^ f)
  unfold Number.toFixed
  rw [if_neg h1]
  simp only []
  rw [if_neg h2, if_neg h4, Option.map_some', abs_of_nonneg hx, hp]
  simp only [if_neg h3]
  have hlen : (decimal (⌊x * 10 ^ f + 1 / 2⌋.toNat / 10 ^ f) ++
      fixedWidth f (⌊x * 10 ^ f + 1 / 2⌋.toNat % 10 ^ f)).length - f =
      (decimal (⌊x * 10 ^ f + 1 / 2⌋.toNat / 10 ^ f)).length := by
    rw [List.length_append, hl]; omega
  rw [hlen, List.take_left', List.drop_left']
  · rfl
  · rfl

/-! ## Reading back what was printed -/

theorem clean_decimal (n : ℕ) : Clean (decimal n) :=
  clean_of_digits _ (isDigit_of_mem_decimal n)

theorem clean_fixedWidth (f n : ℕ) : Clean (fixedWidth f n) :=
  clean_of_digits _ (isDigit_of_mem_fixedWidth f n)

theorem parseFloat_decimal (n : ℕ) : parseFloat (String.mk (decimal n)) = fin (n : ℚ) := by
  have h := parseFloat_digits (decimal n) [] (isDigit_of_mem_decimal n) (decimal_ne_nil n)
  have h2 := strUnsigned_plain (decimal n) [] (isDigit_of_mem_decimal n) (decimal_ne_nil n) rfl
    (fun t ht => by cases ht)
  rw [List.append_nil] at h h2
  rw [h, h2, exponentPart_nil, natOfDigits_decimal]
  simp

theorem parseFloat_fixed (i f m : ℕ) :
    parseFloat (String.mk (decimal i ++ '.' :: fixedWidth f m)) =
      fin (((i * 10 ^ f + m % 10 ^ f : ℕ) : ℚ) / 10 ^ f) := by
  have h := parseFloat_digits (decimal i) ('.' :: fixedWidth f m) (isDigit_of_mem_decimal i)
    (decimal_ne_nil i)
  have h2 := strUnsigned_point (decimal i) (fixedWidth f m) [] (isDigit_of_mem_decimal i)
    (decimal_ne_nil i) (isDigit_of_mem_fixedWidth f m) rfl
  rw [List.append_nil] at h2
  rw [h, h2, exponentPart_nil, natOfDigits_append, natOfDigits_decimal, natOfDigits_fixedWidth,
    length_fixedWidth, zero_sub, zpow_neg, zpow_natCast]
  rfl

theorem clean_exponent_tail (n : ℕ) : Clean ('e' :: '+' :: decimal n) :=
  Clean.cons (by decide) (Clean.cons (by decide) (clean_decimal n))

/-- Parsing gives back the number printed in exponent layout. -/
theorem parseNumber_exponentLayout (s : ℕ) (e : ℤ) (hs : 0 < s)
    (h : 0 ≤ ((decimal s).length : ℤ) + e - 1) :
    SiteOptimized.parseNumber (formattedText (exponentLayout s e)) =
      fin ((s : ℚ) * 10 ^ e) := by
  have hdig := isDigit_of_mem_decimal s
  have hval := natOfDigits_decimal s
  have hexp : ∀ n, exponentPart ('e' :: '+' :: decimal n) = (n : ℤ) := by
    intro n
    rw [exponentPart_plus _ (isDigit_of_mem_decimal n) (decimal_ne_nil n), natOfDigits_decimal]
  have hsq : (s : ℚ) ≠ 0 := by exact_mod_cast hs.ne.symm
  unfold exponentLayout
  generalize hds : decimal s = ds at hdig hval h
  match ds, hds with
  | [], hds => exact absurd hds (decimal_ne_nil s)
  | [d], hds =>
    have hd : ∀ c ∈ [d], isDigit c = true := hdig
    have hcl : Clean ([d] ++ 'e' :: '+' :: decimal (((1 : ℕ) : ℤ) + e - 1).toNat) :=
      Clean.append (clean_of_digits _ hd) (clean_exponent_tail _)
    have hpf := parseFloat_digits [d] ('e' :: '+' :: decimal (((1 : ℕ) : ℤ) + e - 1).toNat) hd
      (by simp)
    have hsu := strUnsigned_plain [d] ('e' :: '+' :: decimal (((1 : ℕ) : ℤ) + e - 1).toNat) hd
      (by simp) (show isDigit 'e' = false by decide) (fun t ht => by
        simp only [List.cons.injEq] at ht
        exact absurd ht.1 (by decide))
    have he : ((((1 : ℕ) : ℤ) + e - 1).toNat : ℤ) = e := by
      simp only [List.length_singleton] at h
      omega
    simp only [List.length_singleton]
    rw [show d :: 'e' :: '+' :: decimal (((1 : ℕ) : ℤ) + e - 1).toNat =
        [d] ++ 'e' :: '+' :: decimal (((1 : ℕ) : ℤ) + e - 1).toNat from rfl,
      parseNumber_formattedText_plain _ hcl, hpf, hsu, hexp, he, hval]
    rfl
  | d :: d2 :: rest, hds =>
    have hd : ∀ c ∈ [d], isDigit c = true := fun c hc => hdig c (by
      simp only [List.mem_singleton] at hc
      rw [hc]; exact List.mem_cons_self _ _)
    have hrest : ∀ c ∈ d2 :: rest, isDigit c = true :=
      fun c hc => hdig c (List.mem_cons_of_mem _ hc)
    set E := (((d :: d2 :: rest).length : ℤ) + e - 1).toNat with hE
    have hcl : Clean ((d2 :: rest) ++ 'e' :: '+' :: decimal E) :=
      Clean.append (clean_of_digits _ hrest) (clean_exponent_tail _)
    have hpf := parseFloat_digits [d] ('.' :: ((d2 :: rest) ++ 'e' :: '+' :: decimal E)) hd
      (by simp)
    have hsu := strUnsigned_point [d] (d2 :: rest) ('e' :: '+' :: decimal E) hd (by simp) hrest
      (show isDigit 'e' = false by decide)
    have he : (E : ℤ) - ((d2 :: rest).length : ℤ) = e := by
      simp only [List.length_cons] at h hE ⊢
      omega
    show SiteOptimized.parseNumber
      (formattedText (d :: '.' :: (d2 :: rest ++ 'e' :: '+' :: decimal E))) = _
    rw [show d :: '.' :: (d2 :: rest ++ 'e' :: '+' :: decimal E) =
        [d] ++ '.' :: ((d2 :: rest) ++ 'e' :: '+' :: decimal E) from rfl,
      parseNumber_formattedText_point _ _ (clean_of_digits _ hd) hcl, hpf, hsu, hexp, he]
    rw [show [d] ++ d2 :: rest = d :: d2 :: rest from rfl, hval]
    rfl

/-- Round trip of `formatNumber` without decimals on a natural number. -/
theorem roundtrip_natural (n : ℕ) :
    ∃ s, SiteOptimized.formatNumber (fin (n : ℚ)) 0 = some s ∧
      SiteOptimized.parseNumber s = fin (n : ℚ) := by
  have hround : Math.round (fin (n : ℚ)) = fin (n : ℚ) := by
    have : ⌊(n : ℚ) + 1 / 2⌋ = (n : ℤ) := by
      rw [Int.floor_eq_iff]
      constructor <;> push_cast <;> linarith
    show fin ((⌊(n : ℚ) + 1 / 2⌋ : ℤ) : ℚ) = fin (n : ℚ)
    rw [this, Int.cast_natCast]
  rw [SiteOptimized.formatNumber_eq, if_neg (by omega), hround]
  by_cases hsmall : n < 10 ^ 21
  · refine ⟨_, by rw [Number.toString_natCast n hsmall, Option.map_some'], ?_⟩
    rw [parseNumber_formattedText_plain _ (clean_decimal n), parseFloat_decimal]
    rfl
  · have hlarge : (10 : ℚ) ^ 21 ≤ (n : ℚ) := by exact_mod_cast not_lt.mp hsmall
    have hpos : (0 : ℚ) < n := lt_of_lt_of_le (by positivity) hlarge
    have hsig := significand_natCast n
    obtain ⟨h1, h2⟩ := significand_spec _ hpos _ _ hsig
    have hpt := point_of_large _ _ _ h1 hlarge
    refine ⟨_, by rw [Number.toString_large _ hlarge _ _ hsig, Option.map_some'], ?_⟩
    rw [parseNumber_exponentLayout _ _ h2 (by omega), h1]

theorem Math.round_natCast (n : ℕ) : Math.round (fin (n : ℚ)) = fin (n : ℚ) := by
  have : ⌊(n : ℚ) + 1 / 2⌋ = (n : ℤ) := by
    rw [Int.floor_eq_iff]
    constructor <;> push_cast <;> linarith
  show fin ((⌊(n : ℚ) + 1 / 2⌋ : ℤ) : ℚ) = fin (n : ℚ)
  rw [this, Int.cast_natCast]

theorem Math.round_nonneg (x : ℚ) (hx : 0 ≤ x) :
    Math.round (fin x) = fin ((⌊x + 1 / 2⌋.toNat : ℕ) : ℚ) := by
  have h : 0 ≤ ⌊x + 1 / 2⌋ := Int.floor_nonneg.mpr (by linarith)
  show fin ((⌊x + 1 / 2⌋ : ℤ) : ℚ) = _
  congr 1
  rw [← Int.cast_natCast, Int.toNat_of_nonneg h]

/-- Without decimals `formatNumber` only sees the rounded number. -/
theorem SiteOptimized.formatNumber_round (x : ℚ) (hx : 0 ≤ x) :
    SiteOptimized.formatNumber (fin x) 0 =
      SiteOptimized.formatNumber (fin ((⌊x + 1 / 2⌋.toNat : ℕ) : ℚ)) 0 := by
  rw [SiteOptimized.formatNumber_eq, SiteOptimized.formatNumber_eq, if_neg (by omega),
    if_neg (by omega), Math.round_nonneg x hx, Math.round_natCast]

/-- Without decimals a natural number below `10^21` is printed as its grouped digits. -/
theorem SiteOptimized.formatNumber_natural (n : ℕ) (h : n < 10 ^ 21) :
    SiteOptimized.formatNumber (fin (n : ℚ)) 0 =
      some (String.mk (groupThousands (decimal n))) := by
  rw [SiteOptimized.formatNumber_eq, if_neg (by omega), Math.round_natCast,
    Number.toString_natCast n h, Option.map_some']
  simp only [formattedText, splitDot_clean _ (clean_decimal n), joinComma]

/-- With decimals a non-negative number below `10^21` is printed as its grouped integer part,
a comma and the decimals. -/
theorem SiteOptimized.formatNumber_small (x : ℚ) (f : ℕ) (hx : 0 ≤ x) (hsmall : x < 10 ^ 21)
    (hf0 : 0 < f) (hf : f ≤ 100) :
    SiteOptimized.formatNumber (fin x) f =
      some (String.mk (groupThousands (decimal (⌊x * 10 ^ f + 1 / 2⌋.toNat / 10 ^ f)) ++
        ',' :: fixedWidth f (⌊x * 10 ^ f + 1 / 2⌋.toNat % 10 ^ f))) := by
  rw [SiteOptimized.formatNumber_eq, if_pos hf0, Number.toFixed_small x f hx hsmall hf0 hf,
    Option.map_some']
  simp only [formattedText, splitDot_point _ _ (clean_decimal _),
    splitDot_clean _ (clean_fixedWidth _ _), joinComma]

/-- Round trip of `formatNumber` without decimals: the rounded number comes back. -/
theorem roundtrip_round (x : ℚ) (hx : 0 ≤ x) :
    ∃ s, SiteOptimized.formatNumber (fin x) 0 = some s ∧
      SiteOptimized.parseNumber s = Math.round (fin x) := by
  obtain ⟨s, h1, h2⟩ := roundtrip_natural ⌊x + 1 / 2⌋.toNat
  exact ⟨s, by rw [SiteOptimized.formatNumber_round x hx, h1],
    by rw [h2, Math.round_nonneg x hx]⟩

/-- A non-negative number with a whole number of hundredths is that number of hundredths. -/
theorem hundredths (x : ℚ) (hx : 0 ≤ x) (hd : (x * 100).den = 1) :
    ((⌊x * 10 ^ 2 + 1 / 2⌋.toNat : ℕ) : ℚ) = x * 100 := by
  have hnum : ((x * 100).num : ℚ) = x * 100 := by
    have := Rat.num_div_den (x * 100)
    rw [hd] at this
    simpa using this
  have hfl : ⌊x * 10 ^ 2 + 1 / 2⌋ = (x * 100).num := by
    rw [Int.floor_eq_iff, hnum]
    constructor <;> norm_num
  have hnn : 0 ≤ (x * 100).num := Rat.num_nonneg.mpr (by positivity)
  rw [hfl, ← Int.cast_natCast, Int.toNat_of_nonneg hnn, hnum]

/-- Round trip of `formatNumber` with two decimals on a number of at most two decimals. -/
theorem roundtrip_cents (x : ℚ) (hx : 0 ≤ x) (hd : (x * 100).den = 1) :
    ∃ s, SiteOptimized.formatNumber (fin x) 2 = some s ∧
      SiteOptimized.parseNumber s = fin x := by
  by_cases hsmall : x < 10 ^ 21
  · have ht := Number.toFixed_small x 2 hx hsmall (by norm_num) (by norm_num)
    refine ⟨_, by rw [SiteOptimized.formatNumber_eq, if_pos (by norm_num), ht,
      Option.map_some'], ?_⟩
    rw [parseNumber_formattedText_point _ _ (clean_decimal _) (clean_fixedWidth _ _),
      parseFloat_fixed]
    show fin _ = fin x
    congr 1
    have h1 : ⌊x * 10 ^ 2 + 1 / 2⌋.toNat / 10 ^ 2 * 10 ^ 2 +
        ⌊x * 10 ^ 2 + 1 / 2⌋.toNat % 10 ^ 2 % 10 ^ 2 = ⌊x * 10 ^ 2 + 1 / 2⌋.toNat := by
      rw [Nat.mod_mod]
      exact Nat.div_add_mod' _ _
    rw [h1, hundredths x hx hd]
    norm_num
  · have hlarge : (10 : ℚ) ^ 21 ≤ x := not_lt.mp hsmall
    have hpos : (0 : ℚ) < x := lt_of_lt_of_le (by positivity) hlarge
    obtain ⟨⟨s, e⟩, hsig⟩ := significand_isSome x 2 le_rfl (by
      rw [show x * 10 ^ 2 = x * 100 by norm_num]; exact hd)
    obtain ⟨h1, h2⟩ := significand_spec _ hpos _ _ hsig
    have hpt := point_of_large _ _ _ h1 hlarge
    have hts := Number.toString_large _ hlarge _ _ hsig
    have htf : Number.toFixed (fin x) 2 = some (String.mk (exponentLayout s e)) := by
      unfold Number.toFixed
      rw [if_neg (by norm_num)]
      simp only []
      rw [if_pos (by rwa [abs_of_nonneg hx]), abs_of_nonneg hx, hts]
      simp only [Option.map_some', if_neg (not_lt.mpr hx)]
    refine ⟨_, by rw [SiteOptimized.formatNumber_eq, if_pos (by norm_num), htf,
      Option.map_some'], ?_⟩
    rw [parseNumber_exponentLayout _ _ h2 (by omega), h1]

/-! ## Grouping by thousands -/

theorem isWord_of_isDigit {c : Char} (h : isDigit c = true) : isWord c = true := by
  simp [isWord, h]

theorem lookaheadGroups_digits : ∀ l : List Char, (∀ c ∈ l, isDigit c = true) →
    lookaheadGroups l = (decide (l ≠ []) && decide (l.length % 3 = 0))
  | [], _ => rfl
  | [_], _ => rfl
  | [_, _], _ => rfl
  | a :: b :: c :: rest, h => by
    have ha : isDigit a = true := h a (by simp)
    have hb : isDigit b = true := h b (by simp)
    have hc : isDigit c = true := h c (by simp)
    have hrest : ∀ x ∈ rest, isDigit x = true := fun x hx => h x (by simp [hx])
    rw [lookaheadGroups, lookaheadGroups_digits rest hrest, ha, hb, hc]
    cases rest with
    | nil => simp [startsWithDigit]
    | cons d ds =>
      have hd : isDigit d = true := hrest d (by simp)
      simp [startsWithDigit, hd]
      omega

theorem groupThousandsFrom_append_three (init : List Char) (x y z : Char)
    (hinit : ∀ c ∈ init, isDigit c = true) (hne : init ≠ [])
    (hx : isDigit x = true) (hy : isDigit y = true) (hz : isDigit z = true) :
    ∀ prev, groupThousandsFrom prev (init ++ [x, y, z]) =
      groupThousandsFrom prev init ++ ' ' :: [x, y, z] := by
  induction init with
  | nil => exact absurd rfl hne
  | cons c cs ih =>
    intro prev
    have hc : isDigit c = true := hinit c (by simp)
    have hcs : ∀ a ∈ cs, isDigit a = true := fun a ha => hinit a (by simp [ha])
    have hall : ∀ a ∈ c :: cs ++ [x, y, z], isDigit a = true := by
      intro a ha
      simp only [List.cons_append, List.mem_cons, List.mem_append, List.mem_singleton,
        List.not_mem_nil, or_false] at ha
      rcases ha with h | h | h | h | h
      · rw [h]; exact hc
      · exact hcs a h
      · rw [h]; exact hx
      · rw [h]; exact hy
      · rw [h]; exact hz
    have hla : lookaheadGroups (c :: cs ++ [x, y, z]) = lookaheadGroups (c :: cs) := by
      rw [lookaheadGroups_digits _ hall, lookaheadGroups_digits _ hinit]
      simp
      omega
    have hcond : (notWordBoundary prev (c :: (cs ++ [x, y, z])) &&
        lookaheadGroups (c :: (cs ++ [x, y, z]))) =
        (notWordBoundary prev (c :: cs) && lookaheadGroups (c :: cs)) := by
      rw [← List.cons_append, hla]
      rfl
    cases cs with
    | nil =>
      have hwc : isWord c = true := isWord_of_isDigit hc
      have hwx : isWord x = true := isWord_of_isDigit hx
      have hwy : isWord y = true := isWord_of_isDigit hy
      simp [groupThousandsFrom, lookaheadGroups, notWordBoundary, startsWithDigit, hx, hy, hz,
        hc, hwc, hwx, hwy]
    | cons c2 cs2 =>
      have ih' := ih hcs (by simp) (some c)
      have e1 : groupThousandsFrom prev (c :: (c2 :: cs2 ++ [x, y, z])) =
          if notWordBoundary prev (c :: (c2 :: cs2 ++ [x, y, z])) &&
            lookaheadGroups (c :: (c2 :: cs2 ++ [x, y, z])) then
            ' ' :: c :: groupThousandsFrom (some c) (c2 :: cs2 ++ [x, y, z])
          else c :: groupThousandsFrom (some c) (c2 :: cs2 ++ [x, y, z]) := by
        rw [groupThousandsFrom]
      have e2 : groupThousandsFrom prev (c :: c2 :: cs2) =
          if notWordBoundary prev (c :: c2 :: cs2) && lookaheadGroups (c :: c2 :: cs2) then
            ' ' :: c :: groupThousandsFrom (some c) (c2 :: cs2)
          else c :: groupThousandsFrom (some c) (c2 :: cs2) := by
        rw [groupThousandsFrom]
      rw [List.cons_append, e1, e2, hcond, ih']
      split <;> simp

theorem groupThousands_short (l : List Char) (hl : ∀ c ∈ l, isDigit c = true)
    (hlen : l.length ≤ 3) : groupThousands l = l := by
  match l, hl, hlen with
  | [], _, _ => rfl
  | [a], _, _ => simp [groupThousands, groupThousandsFrom, lookaheadGroups]
  | [a, b], _, _ => simp [groupThousands, groupThousandsFrom, lookaheadGroups]
  | [a, b, c], hl, _ =>
    have ha : isWord a = true := isWord_of_isDigit (hl a (by simp))
    simp [groupThousands, groupThousandsFrom, lookaheadGroups, notWordBoundary, ha]
  | a :: b :: c :: d :: rest, _, hlen => simp at hlen

theorem groupFromRight_short (l : List Char) (hlen : l.length ≤ 3) : groupFromRight l = l := by
  match l, hlen with
  | [], _ => rfl
  | [a], _ => rfl
  | [a, b], _ => rfl
  | [a, b, c], _ => rfl
  | a :: b :: c :: d :: rest, hlen => simp at hlen

theorem groupFromRight_append_three (init : List Char) (x y z : Char) (hne : init ≠ []) :
    groupFromRight (init ++ [x, y, z]) = groupFromRight init ++ ' ' :: [x, y, z] := by
  have hr : init.reverse ≠ [] := by simpa using hne
  simp only [groupFromRight, List.reverse_append, List.reverse_cons, List.reverse_nil,
    List.nil_append, List.cons_append, List.singleton_append]
  rw [groupReversed, if_neg hr]
  simp

/-- On a run of digits the regular expression of `formatNumber` groups by three from the
right. -/
theorem groupThousands_eq_groupFromRight (l : List Char) (hl : ∀ c ∈ l, isDigit c = true) :
    groupThousands l = groupFromRight l := by
  generalize h : l.length = n
  induction n using Nat.strong_induction_on generalizing l with
  | _ n ih =>
    by_cases hshort : l.length ≤ 3
    · rw [groupThousands_short l hl hshort, groupFromRight_short l hshort]
    · have hsplit : l = l.take (l.length - 3) ++ l.drop (l.length - 3) :=
        (List.take_append_drop _ _).symm
      have hdl : (l.drop (l.length - 3)).length = 3 := by
        rw [List.length_drop]; omega
      have htl : (l.take (l.length - 3)).length = l.length - 3 := by
        rw [List.length_take]; omega
      obtain ⟨x, y, z, hxyz⟩ : ∃ x y z, l.drop (l.length - 3) = [x, y, z] := by
        match hd : l.drop (l.length - 3), hdl with
        | [x, y, z], _ => exact ⟨x, y, z, rfl⟩
      have hne : l.take (l.length - 3) ≠ [] := by
        intro h0
        rw [h0] at htl
        simp at htl
        omega
      have hinit : ∀ c ∈ l.take (l.length - 3), isDigit c = true :=
        fun c hc => hl c (List.mem_of_mem_take hc)
      have hmem : ∀ c ∈ [x, y, z], isDigit c = true := by
        intro c hc
        rw [← hxyz] at hc
        exact hl c (List.mem_of_mem_drop hc)
      have ih' := ih (l.take (l.length - 3)).length (by rw [htl, ← h]; omega) _ hinit rfl
      rw [hsplit, hxyz]
      unfold groupThousands at ih' ⊢
      rw [groupThousandsFrom_append_three _ x y z hinit hne (hmem x (by simp))
        (hmem y (by simp)) (hmem z (by simp)), groupFromRight_append_three _ x y z hne, ih']

/-- A natural number of magnitude `10^21` or more is printed in exponent layout, with or
without decimals. -/
theorem SiteOptimized.formatNumber_large (n d : ℕ) (hd : d ≤ 100) (h : 10 ^ 21 ≤ n) :
    SiteOptimized.formatNumber (fin (n : ℚ)) d =
      some (formattedText (exponentLayout (stripZeros n n).1 ((stripZeros n n).2 : ℤ))) := by
  have hlarge : (10 : ℚ) ^ 21 ≤ (n : ℚ) := by exact_mod_cast h
  have hts := Number.toString_large _ hlarge _ _ (significand_natCast n)
  have hnn : (0 : ℚ) ≤ n := Nat.cast_nonneg n
  rw [SiteOptimized.formatNumber_eq]
  by_cases hd0 : 0 < d
  · have htf : Number.toFixed (fin (n : ℚ)) d =
        some (String.mk (exponentLayout (stripZeros n n).1 ((stripZeros n n).2 : ℤ))) := by
      unfold Number.toFixed
      rw [if_neg (by omega)]
      simp only []
      rw [if_pos (by rwa [abs_of_nonneg hnn]), abs_of_nonneg hnn, hts]
      simp only [Option.map_some', if_neg (not_lt.mpr hnn)]
    rw [if_pos hd0, htf, Option.map_some']
  · rw [if_neg hd0, Math.round_natCast, hts, Option.map_some']

theorem setTextWith_some (el : Option String) (t : String) :
    setTextWith el (some t) = some (setText el t) := by
  cases el <;> rfl

/-- The groups of a grouped run of digits: the first has one to three digits, the others
three, and the grouped text is the groups joined by single spaces. -/
theorem groupFromRight_groups (l : List Char) (hne : l ≠ []) :
    ∃ first : List Char, ∃ others : List (List Char),
      l = first ++ others.flatten ∧
      groupFromRight l = first ++ (others.map fun g => ' ' :: g).flatten ∧
      1 ≤ first.length ∧ first.length ≤ 3 ∧ ∀ g ∈ others, g.length = 3 := by
  generalize h : l.length = n
  induction n using Nat.strong_induction_on generalizing l with
  | _ n ih =>
    by_cases hshort : l.length ≤ 3
    · refine ⟨l, [], by simp, by simp [groupFromRight_short l hshort], ?_, hshort, by simp⟩
      exact List.length_pos.mpr hne
    · have hsplit : l = l.take (l.length - 3) ++ l.drop (l.length - 3) :=
        (List.take_append_drop _ _).symm
      have hdl : (l.drop (l.length - 3)).length = 3 := by
        rw [List.length_drop]; omega
      have htl : (l.take (l.length - 3)).length = l.length - 3 := by
        rw [List.length_take]; omega
      obtain ⟨x, y, z, hxyz⟩ : ∃ x y z, l.drop (l.length - 3) = [x, y, z] := by
        match hd : l.drop (l.length - 3), hdl with
        | [x, y, z], _ => exact ⟨x, y, z, rfl⟩
      have hne' : l.take (l.length - 3) ≠ [] := by
        intro h0
        rw [h0] at htl
        simp at htl
        omega
      obtain ⟨first, others, h1, h2, h3, h4, h5⟩ :=
        ih (l.take (l.length - 3)).length (by rw [htl, ← h]; omega) _ hne' rfl
      refine ⟨first, others ++ [[x, y, z]], ?_, ?_, h3, h4, ?_⟩
      · conv_lhs => rw [hsplit, hxyz, h1]
        simp
      · rw [hsplit, hxyz, groupFromRight_append_three _ x y z hne', h2]
        simp
      · intro g hg
        rcases List.mem_append.mp hg with hg | hg
        · exact h5 g hg
        · simp only [List.mem_singleton] at hg
          rw [hg]; rfl

/-- With decimals a non-negative number below `10^21` is printed as the specification's
amount text. -/
theorem SiteOptimized.formatNumber_spec (x : ℚ) (d : ℕ) (hx : 0 ≤ x) (hxs : x < 10 ^ 21)
    (hd0 : 0 < d) (hd : d ≤ 100) :
    SiteOptimized.formatNumber (fin x) d = some (specAmountText x d) := by
  rw [SiteOptimized.formatNumber_small x d hx hxs hd0 hd,
    groupThousands_eq_groupFromRight _ (isDigit_of_mem_decimal _)]
  rfl

/-- Without decimals `formatNumber` prints every non-negative number, as its grouped rounded
value when that is below `10^21`. -/
theorem SiteOptimized.formatNumber_whole (x : ℚ) (hx : 0 ≤ x) :
    ∃ a, SiteOptimized.formatNumber (fin x) = some a ∧
      (x + 1 / 2 < 10 ^ 21 →
        a = String.mk (groupFromRight (decimal ⌊x + 1 / 2⌋.toNat))) := by
  obtain ⟨s, h1, _⟩ := roundtrip_natural ⌊x + 1 / 2⌋.toNat
  refine ⟨s, by rw [SiteOptimized.formatNumber_round x hx, h1], ?_⟩
  intro hlt
  have hnn : 0 ≤ ⌊x + 1 / 2⌋ := Int.floor_nonneg.mpr (by linarith)
  have hfl : ((⌊x + 1 / 2⌋ : ℤ) : ℚ) < 10 ^ 21 := lt_of_le_of_lt (Int.floor_le _) hlt
  have hN : ⌊x + 1 / 2⌋.toNat < 10 ^ 21 := by
    have h3 : ((⌊x + 1 / 2⌋.toNat : ℕ) : ℚ) < ((10 ^ 21 : ℕ) : ℚ) := by
      rw [← Int.cast_natCast, Int.toNat_of_nonneg hnn]
      push_cast
      exact hfl
    exact_mod_cast h3
  rw [SiteOptimized.formatNumber_natural _ hN,
    groupThousands_eq_groupFromRight _ (isDigit_of_mem_decimal _)] at h1
  exact (Option.some.inj h1).symm

theorem specMonthlyPayment_le_total (p r : ℚ) (n : ℕ) (hp : 0 < p) (hr : 0 < r)
    (hn : 0 < n) : specMonthlyPayment p r n ≤ specTotalPayment p r n := by
  have hM := specMonthlyPayment_pos p r n hp hr hn
  have h1 : (1 : ℚ) ≤ n := by exact_mod_cast hn
  unfold specTotalPayment
  nlinarith

theorem specTotalInterest_nonneg (p r : ℚ) (n : ℕ) (hp : 0 < p) (hr : 0 < r) (hn : 0 < n) :
    0 ≤ specTotalInterest p r n := by
  have := specTotalPayment_ge p r n hp hr hn
  unfold specTotalInterest
  linarith

/-- The frame of `calculate` on figures below `10^21`. -/
theorem SiteOptimized.calculateFrame_spec (p r : ℚ) (n : ℕ) (d : SiteOptimized.Displays)
    (hp : 0 < p) (hr : 0 < r) (hn : 0 < n) (hT : specTotalPayment p r n < 10 ^ 21) :
    SiteOptimized.calculateFrame (specFigures p r n) d =
      some { monthly := setText d.monthly (specAmountText (specMonthlyPayment p r n) 2 ++ " kr"),
             total := setText d.total (specAmountText (specTotalPayment p r n) 2 ++ " kr"),
             interest :=
               setText d.interest (specAmountText (specTotalInterest p r n) 2 ++ " kr") } := by
  have hM0 := specMonthlyPayment_pos p r n hp hr hn
  have hMT := specMonthlyPayment_le_total p r n hp hr hn
  have hI0 := specTotalInterest_nonneg p r n hp hr hn
  have hIT : specTotalInterest p r n < 10 ^ 21 := by
    unfold specTotalInterest; linarith
  have hm := SiteOptimized.formatNumber_spec _ 2 hM0.le (lt_of_le_of_lt hMT hT) (by norm_num)
    (by norm_num)
  have ht := SiteOptimized.formatNumber_spec _ 2 (le_trans hM0.le hMT) hT (by norm_num)
    (by norm_num)
  have hi := SiteOptimized.formatNumber_spec _ 2 hI0 hIT (by norm_num) (by norm_num)
  simp only [SiteOptimized.calculateFrame, specFigures, hm, ht, hi, Option.map_some',
    setTextWith_some, Option.some_bind]

/-- The frame of `calculateLoan` on figures below `10^21`. -/
theorem BusinessLoans.calculateLoanFrame_spec (p r : ℚ) (n : ℕ) (a : String)
    (hp : 0 < p) (hr : 0 < r) (hn : 0 < n) (hT : specTotalPayment p r n < 10 ^ 21)
    (ha : BusinessLoans.formatNumber (fin p) = some a) :
    BusinessLoans.calculateLoanFrame (specFigures p r n) (fin p) =
      some { monthlyPayment := some (specAmountText (specMonthlyPayment p r n) 2 ++ " kr"),
             totalLoanAmount := some (a ++ " kr"),
             totalInterest := some (specAmountText (specTotalInterest p r n) 2 ++ " kr"),
             totalPayment := some (specAmountText (specTotalPayment p r n) 2 ++ " kr") } := by
  have hM0 := specMonthlyPayment_pos p r n hp hr hn
  have hMT := specMonthlyPayment_le_total p r n hp hr hn
  have hI0 := specTotalInterest_nonneg p r n hp hr hn
  have hIT : specTotalInterest p r n < 10 ^ 21 := by
    unfold specTotalInterest; linarith
  have hm := SiteOptimized.formatNumber_spec _ 2 hM0.le (lt_of_le_of_lt hMT hT) (by norm_num)
    (by norm_num)
  have ht := SiteOptimized.formatNumber_spec _ 2 (le_trans hM0.le hMT) hT (by norm_num)
    (by norm_num)
  have hi := SiteOptimized.formatNumber_spec _ 2 hI0 hIT (by norm_num) (by norm_num)
  rw [← BusinessLoans.formatNumber_eq_site] at hm ht hi
  simp only [BusinessLoans.calculateLoanFrame, specFigures, hm, ht, hi, ha, Option.map_some',
    Option.some_bind]

/-! ## The calculators in exact real arithmetic -/

/-- The lines of `calculate` compute the formulas of the specification, in every field and for
every power function. -/
theorem SiteOptimized.calculateFiguresOver_eq_spec {K : Type} [Field K] (pow : K → K → K)
    (p r t : K) :
    SiteOptimized.calculateFiguresOver pow p r t = specFiguresOver pow p r t := by
  simp only [SiteOptimized.calculateFiguresOver, specFiguresOver, mul_assoc]

/-- The lines of `calculateLoan` compute the formulas of the specification. -/
theorem BusinessLoans.calculateLoanFiguresOver_eq_spec {K : Type} [Field K]
    (pow : K → K → K) (p r t : K) :
    BusinessLoans.calculateLoanFiguresOver pow p r t = specFiguresOver pow p r t := by
  simp only [BusinessLoans.calculateLoanFiguresOver, specFiguresOver, mul_assoc]

/-- For a whole number of months the real figures of the specification are the rational
ones. -/
theorem specFiguresOver_natCast (p r : ℚ) (n : ℕ) :
    ((specMonthlyRate r : ℚ) : ℝ) =
      (specFiguresOver (fun b e : ℝ => b ^ e) (p : ℝ) (r : ℝ) ((n : ℚ) : ℝ)).monthlyRate ∧
    ((specMonthlyPayment p r n : ℚ) : ℝ) =
      (specFiguresOver (fun b e : ℝ => b ^ e) (p : ℝ) (r : ℝ) ((n : ℚ) : ℝ)).monthlyPayment ∧
    ((specTotalPayment p r n : ℚ) : ℝ) =
      (specFiguresOver (fun b e : ℝ => b ^ e) (p : ℝ) (r : ℝ) ((n : ℚ) : ℝ)).totalPayment ∧
    ((specTotalInterest p r n : ℚ) : ℝ) =
      (specFiguresOver (fun b e : ℝ => b ^ e) (p : ℝ) (r : ℝ) ((n : ℚ) : ℝ)).totalInterest := by
  simp only [specFiguresOver, specTotalInterest, specTotalPayment, specMonthlyPayment,
    specMonthlyRate, Rat.cast_natCast, Real.rpow_natCast]
  refine ⟨?_, ?_, ?_, ?_⟩ <;> push_cast <;> rfl

/-- Positive inputs pass the guard of `calculate`: the figures are computed and handed to
the callback that formats them. -/
theorem SiteOptimized.calculate_of_pos (amount rate term : String) (p r t : ℚ)
    (d : SiteOptimized.Displays)
    (ha : SiteOptimized.parseNumber amount = fin p)
    (hr : SiteOptimized.parseNumber rate = fin r)
    (ht : SiteOptimized.parseNumber term = fin t)
    (hp0 : 0 < p) (hr0 : 0 < r) (ht0 : 0 < t) :
    SiteOptimized.calculate amount rate term d =
      (SiteOptimized.calculateFigures (fin p) (fin r) (fin t)).bind fun v =>
        SiteOptimized.calculateFrame v d := by
  simp only [SiteOptimized.calculate, ha, hr, ht, orZero_fin_pos, le_zero_false hp0,
    le_zero_false hr0, le_zero_false ht0, Bool.or_self, Bool.false_eq_true, if_false]

/-- Positive inputs pass the guard of `calculateLoan`. -/
theorem BusinessLoans.calculateLoan_of_pos (amount rate term : String) (p r t : ℚ)
    (d : BusinessLoans.LoanDisplays)
    (ha : BusinessLoans.parseNumber amount = fin p)
    (hr : BusinessLoans.parseNumber rate = fin r)
    (ht : BusinessLoans.parseNumber term = fin t)
    (hp0 : 0 < p) (hr0 : 0 < r) (ht0 : 0 < t) :
    BusinessLoans.calculateLoan amount rate term d =
      if d.complete then
        (BusinessLoans.calculateLoanFigures (fin p) (fin r) (fin t)).bind fun v =>
          BusinessLoans.calculateLoanFrame v (fin p)
      else some d := by
  simp only [BusinessLoans.calculateLoan, ha, hr, ht, orZero_fin_pos, le_zero_false hp0,
    le_zero_false hr0, le_zero_false ht0, Bool.or_self, Bool.false_eq_true, if_false]
  cases d.complete <;> simp

theorem parseNumber_12_5 : SiteOptimized.parseNumber "12.5" = fin (25 / 2) := by
  rw [show SiteOptimized.parseNumber "12.5" =
    fin (((125 : ℕ) : ℚ) * 10 ^ ((0 : ℤ) - ((1 : ℕ) : ℤ))) from rfl]
  norm_num

/-! ## Concrete inputs -/

theorem parseNumber_100000 : SiteOptimized.parseNumber "100000" = fin 100000 := by
  rw [show SiteOptimized.parseNumber "100000" =
    fin (((100000 : ℕ) : ℚ) * 10 ^ ((0 : ℤ) - ((0 : ℕ) : ℤ))) from rfl]
  norm_num

theorem parseNumber_5 : SiteOptimized.parseNumber "5" = fin 5 := by
  rw [show SiteOptimized.parseNumber "5" =
    fin (((5 : ℕ) : ℚ) * 10 ^ ((0 : ℤ) - ((0 : ℕ) : ℤ))) from rfl]
  norm_num

theorem parseNumber_12 : SiteOptimized.parseNumber "12" = fin ((12 : ℕ) : ℚ) := by
  rw [show SiteOptimized.parseNumber "12" =
    fin (((12 : ℕ) : ℚ) * 10 ^ ((0 : ℤ) - ((0 : ℕ) : ℤ))) from rfl]
  norm_num

theorem parseNumber_0 : SiteOptimized.parseNumber "0" = fin 0 := by
  rw [show SiteOptimized.parseNumber "0" =
    fin (((0 : ℕ) : ℚ) * 10 ^ ((0 : ℤ) - ((0 : ℕ) : ℤ))) from rfl]
  norm_num

/-! ## The claims -/

/-- C1: for every principal `> 0`, annual rate (percent) `> 0` and term `> 0`, whole or
fractional, the lines of both calculators compute in exact real arithmetic
`monthlyRate = annualRate/100/12`, the monthly payment
`principal * monthlyRate * (1+monthlyRate)^months / ((1+monthlyRate)^months - 1)`, the total
payment `monthlyPayment * months` and the total interest `totalPayment - principal`; such
inputs pass the guard, and the figures computed are what the animation-frame callbacks hand
to `formatNumber`.  For a whole number of months the figures are the rational numbers of
`specFigures`, the same as the real ones. -/
theorem calculator_computes_spec_formulas (amount rate term : String) (p r t : ℚ)
    (d : SiteOptimized.Displays) (ld : BusinessLoans.LoanDisplays)
    (ha : SiteOptimized.parseNumber amount = fin p)
    (hr : SiteOptimized.parseNumber rate = fin r)
    (ht : SiteOptimized.parseNumber term = fin t)
    (hla : BusinessLoans.parseNumber amount = fin p)
    (hlr : BusinessLoans.parseNumber rate = fin r)
    (hlt : BusinessLoans.parseNumber term = fin t)
    (hp0 : 0 < p) (hr0 : 0 < r) (ht0 : 0 < t) :
    SiteOptimized.calculateFiguresOver (fun b e : ℝ => b ^ e) (p : ℝ) (r : ℝ) (t : ℝ) =
      specFiguresOver (fun b e : ℝ => b ^ e) (p : ℝ) (r : ℝ) (t : ℝ) ∧
    BusinessLoans.calculateLoanFiguresOver (fun b e : ℝ => b ^ e) (p : ℝ) (r : ℝ) (t : ℝ) =
      specFiguresOver (fun b e : ℝ => b ^ e) (p : ℝ) (r : ℝ) (t : ℝ) ∧
    SiteOptimized.calculate amount rate term d =
      ((SiteOptimized.calculateFigures (fin p) (fin r) (fin t)).bind fun v =>
        SiteOptimized.calculateFrame v d) ∧
    BusinessLoans.calculateLoan amount rate term ld =
      (if ld.complete then
        (BusinessLoans.calculateLoanFigures (fin p) (fin r) (fin t)).bind fun v =>
          BusinessLoans.calculateLoanFrame v (fin p)
      else some ld) ∧
    ∀ n : ℕ, t = n →
      SiteOptimized.calculateFigures (fin p) (fin r) (fin t) = some (specFigures p r n) ∧
      BusinessLoans.calculateLoanFigures (fin p) (fin r) (fin t) = some (specFigures p r n) ∧
      ((specMonthlyPayment p r n : ℚ) : ℝ) =
        (specFiguresOver (fun b e : ℝ => b ^ e) (p : ℝ) (r : ℝ) (t : ℝ)).monthlyPayment ∧
      ((specTotalPayment p r n : ℚ) : ℝ) =
        (specFiguresOver (fun b e : ℝ => b ^ e) (p : ℝ) (r : ℝ) (t : ℝ)).totalPayment ∧
      ((specTotalInterest p r n : ℚ) : ℝ) =
        (specFiguresOver (fun b e : ℝ => b ^ e) (p : ℝ) (r : ℝ) (t : ℝ)).totalInterest := by
  refine ⟨SiteOptimized.calculateFiguresOver_eq_spec _ _ _ _,
    BusinessLoans.calculateLoanFiguresOver_eq_spec _ _ _ _,
    SiteOptimized.calculate_of_pos amount rate term p r t d ha hr ht hp0 hr0 ht0,
    BusinessLoans.calculateLoan_of_pos amount rate term p r t ld hla hlr hlt hp0 hr0 ht0, ?_⟩
  intro n hn
  subst hn
  have hn0 : 0 < n := by exact_mod_cast ht0
  have h := specFiguresOver_natCast p r n
  exact ⟨SiteOptimized.calculateFigures_fin p r n hr0 hn0,
    BusinessLoans.calculateLoanFigures_fin p r n hr0 hn0, h.2.1, h.2.2.1, h.2.2.2⟩

/-- Witness of C1 at the inputs `100000`, `5` and `12.5`, a fractional number of months. -/
theorem calculator_computes_spec_formulas_witness :
    (SiteOptimized.parseNumber "100000" = fin 100000 ∧
      SiteOptimized.parseNumber "5" = fin 5 ∧
      SiteOptimized.parseNumber "12.5" = fin (25 / 2)) ∧
    SiteOptimized.calculateFiguresOver (fun b e : ℝ => b ^ e) ((100000 : ℚ) : ℝ) ((5 : ℚ) : ℝ)
        ((25 / 2 : ℚ) : ℝ) =
      specFiguresOver (fun b e : ℝ => b ^ e) ((100000 : ℚ) : ℝ) ((5 : ℚ) : ℝ)
        ((25 / 2 : ℚ) : ℝ) ∧
    BusinessLoans.calculateLoanFiguresOver (fun b e : ℝ => b ^ e) ((100000 : ℚ) : ℝ)
        ((5 : ℚ) : ℝ) ((25 / 2 : ℚ) : ℝ) =
      specFiguresOver (fun b e : ℝ => b ^ e) ((100000 : ℚ) : ℝ) ((5 : ℚ) : ℝ)
        ((25 / 2 : ℚ) : ℝ) :=
  have h := calculator_computes_spec_formulas "100000" "5" "12.5" 100000 5 (25 / 2)
    ⟨some "", some "", some ""⟩ ⟨some "", some "", some "", some ""⟩
    parseNumber_100000 parseNumber_5 parseNumber_12_5
    parseNumber_100000 parseNumber_5 parseNumber_12_5 (by norm_num) (by norm_num)
    (by norm_num)
  ⟨⟨parseNumber_100000, parseNumber_5, parseNumber_12_5⟩, h.1, h.2.1⟩

/-- C2: whenever the parsed principal, annual rate or number of months is `<= 0`, the
calculators raise no error and write the zero text `0 kr` to every output element (`calculate`
to each of its output elements, `calculateLoan` to its four output elements; it writes
nothing when one of the four is missing).  This covers `compute(0, r, m)`, `compute(p, 0, m)`
and `compute(p, r, 0)`. -/
theorem degenerate_inputs_display_zero (amount rate term : String)
    (d : SiteOptimized.Displays) (ld : BusinessLoans.LoanDisplays)
    (h : le (SiteOptimized.parseNumber amount) (fin 0) = true ∨
      le (SiteOptimized.parseNumber rate) (fin 0) = true ∨
      le (SiteOptimized.parseNumber term) (fin 0) = true)
    (hl : le (BusinessLoans.parseNumber amount) (fin 0) = true ∨
      le (BusinessLoans.parseNumber rate) (fin 0) = true ∨
      le (BusinessLoans.parseNumber term) (fin 0) = true) :
    SiteOptimized.calculate amount rate term d =
      some { monthly := setText d.monthly "0 kr", total := setText d.total "0 kr",
             interest := setText d.interest "0 kr" } ∧
    BusinessLoans.calculateLoan amount rate term ld =
      some (if ld.complete then
        { monthlyPayment := some "0 kr", totalLoanAmount := some "0 kr",
          totalInterest := some "0 kr", totalPayment := some "0 kr" }
        else ld) :=
  ⟨SiteOptimized.calculate_zero amount rate term d h,
    BusinessLoans.calculateLoan_zero amount rate term ld hl⟩

/-- Witness of C2 at the inputs `0`, `5` and `12`. -/
theorem degenerate_inputs_display_zero_witness :
    le (SiteOptimized.parseNumber "0") (fin 0) = true ∧
    SiteOptimized.calculate "0" "5" "12" ⟨some "8 560,75 kr", some "", none⟩ =
      some ⟨some "0 kr", some "0 kr", none⟩ ∧
    BusinessLoans.calculateLoan "0" "5" "12" ⟨some "a", some "b", some "c", some "d"⟩ =
      some ⟨some "0 kr", some "0 kr", some "0 kr", some "0 kr"⟩ :=
  ⟨by rw [parseNumber_0]; decide,
    degenerate_inputs_display_zero "0" "5" "12" ⟨some "8 560,75 kr", some "", none⟩
      ⟨some "a", some "b", some "c", some "d"⟩
      (Or.inl (by rw [parseNumber_0]; decide))
      (Or.inl (by rw [BusinessLoans.parseNumber_eq_site, parseNumber_0]; decide))⟩

/-- C3: the monthly payment computed by the calculators amortises the loan: with
`r = annualRate/100/12` and `M` the computed payment, the balances `B_0 = principal`,
`B_(k+1) = B_k * (1 + r) - M` reach `B_n = 0` after the `n` months of the term. -/
theorem monthly_payment_amortises (p r : ℚ) (n : ℕ) (_hp0 : 0 < p) (hr0 : 0 < r)
    (hn0 : 0 < n) :
    ∃ M : ℚ,
      (SiteOptimized.calculateFigures (fin p) (fin r) (fin (n : ℚ))).map
        LoanFigures.monthlyPayment = some (fin M) ∧
      (BusinessLoans.calculateLoanFigures (fin p) (fin r) (fin (n : ℚ))).map
        LoanFigures.monthlyPayment = some (fin M) ∧
      balance p (r / 100 / 12) M n = 0 := by
  refine ⟨specMonthlyPayment p r n, ?_, ?_, ?_⟩
  · rw [SiteOptimized.calculateFigures_fin p r n hr0 hn0]; rfl
  · rw [BusinessLoans.calculateLoanFigures_fin p r n hr0 hn0]; rfl
  · exact balance_specMonthlyPayment p r n hr0 hn0

/-- Witness of C3 for a loan of 100000 at 5 % over 12 months. -/
theorem monthly_payment_amortises_witness :
    (0 : ℚ) < 100000 ∧ (0 : ℚ) < 5 ∧ 0 < 12 ∧
    ∃ M : ℚ,
      (SiteOptimized.calculateFigures (fin 100000) (fin 5) (fin ((12 : ℕ) : ℚ))).map
        LoanFigures.monthlyPayment = some (fin M) ∧
      (BusinessLoans.calculateLoanFigures (fin 100000) (fin 5) (fin ((12 : ℕ) : ℚ))).map
        LoanFigures.monthlyPayment = some (fin M) ∧
      balance 100000 (5 / 100 / 12) M 12 = 0 :=
  ⟨by norm_num, by norm_num, by norm_num,
    monthly_payment_amortises 100000 5 12 (by norm_num) (by norm_num) (by norm_num)⟩

/-- C4: the results are never negative.  For a positive principal, a positive annual rate and
a positive whole number of months the calculators compute a monthly payment `> 0`, a total
payment `>= principal` and a total interest `>= 0`; for degenerate inputs (one parsed value
`<= 0`) what they display is the zero text `0 kr`. -/
theorem results_are_nonnegative (p r : ℚ) (n : ℕ) (amount rate term : String)
    (d : SiteOptimized.Displays) (ld : BusinessLoans.LoanDisplays)
    (hp0 : 0 < p) (hr0 : 0 < r) (hn0 : 0 < n)
    (h : le (SiteOptimized.parseNumber amount) (fin 0) = true ∨
      le (SiteOptimized.parseNumber rate) (fin 0) = true ∨
      le (SiteOptimized.parseNumber term) (fin 0) = true)
    (hl : le (BusinessLoans.parseNumber amount) (fin 0) = true ∨
      le (BusinessLoans.parseNumber rate) (fin 0) = true ∨
      le (BusinessLoans.parseNumber term) (fin 0) = true) :
    (∃ M T I : ℚ,
      SiteOptimized.calculateFigures (fin p) (fin r) (fin (n : ℚ)) =
        some ⟨fin M, fin T, fin I⟩ ∧
      BusinessLoans.calculateLoanFigures (fin p) (fin r) (fin (n : ℚ)) =
        some ⟨fin M, fin T, fin I⟩ ∧
      0 < M ∧ p ≤ T ∧ 0 ≤ I) ∧
    SiteOptimized.calculate amount rate term d =
      some { monthly := setText d.monthly "0 kr", total := setText d.total "0 kr",
             interest := setText d.interest "0 kr" } ∧
    BusinessLoans.calculateLoan amount rate term ld =
      some (if ld.complete then
        { monthlyPayment := some "0 kr", totalLoanAmount := some "0 kr",
          totalInterest := some "0 kr", totalPayment := some "0 kr" }
        else ld) := by
  refine ⟨⟨specMonthlyPayment p r n, specTotalPayment p r n, specTotalInterest p r n,
    SiteOptimized.calculateFigures_fin p r n hr0 hn0,
    BusinessLoans.calculateLoanFigures_fin p r n hr0 hn0,
    specMonthlyPayment_pos p r n hp0 hr0 hn0, specTotalPayment_ge p r n hp0 hr0 hn0, ?_⟩,
    SiteOptimized.calculate_zero amount rate term d h,
    BusinessLoans.calculateLoan_zero amount rate term ld hl⟩
  have := specTotalPayment_ge p r n hp0 hr0 hn0
  unfold specTotalInterest
  linarith

/-- Witness of C4: a loan of 100000 at 5 % over 12 months, and the degenerate term `0`. -/
theorem results_are_nonnegative_witness :
    le (SiteOptimized.parseNumber "0") (fin 0) = true ∧
    (∃ M T I : ℚ,
      SiteOptimized.calculateFigures (fin 100000) (fin 5) (fin ((12 : ℕ) : ℚ)) =
        some ⟨fin M, fin T, fin I⟩ ∧
      BusinessLoans.calculateLoanFigures (fin 100000) (fin 5) (fin ((12 : ℕ) : ℚ)) =
        some ⟨fin M, fin T, fin I⟩ ∧
      0 < M ∧ (100000 : ℚ) ≤ T ∧ 0 ≤ I) ∧
    SiteOptimized.calculate "100000" "5" "0" ⟨some "", some "", some ""⟩ =
      some ⟨some "0 kr", some "0 kr", some "0 kr"⟩ ∧
    BusinessLoans.calculateLoan "100000" "5" "0" ⟨some "", some "", some "", some ""⟩ =
      some ⟨some "0 kr", some "0 kr", some "0 kr", some "0 kr"⟩ :=
  ⟨by rw [parseNumber_0]; decide,
    results_are_nonnegative 100000 5 12 "100000" "5" "0" ⟨some "", some "", some ""⟩
      ⟨some "", some "", some "", some ""⟩ (by norm_num) (by norm_num) (by norm_num)
      (Or.inr (Or.inr (by rw [parseNumber_0]; decide)))
      (Or.inr (Or.inr (by rw [BusinessLoans.parseNumber_eq_site, parseNumber_0]; decide)))⟩

/-- Evaluation of `formatNumber` with two decimals from the rounded number of hundredths. -/
theorem SiteOptimized.formatNumber_two (x : ℚ) (N : ℕ) (hN : ⌊x * 10 ^ 2 + 1 / 2⌋ = (N : ℤ))
    (hx : 0 ≤ x) (hsmall : x < 10 ^ 21) :
    SiteOptimized.formatNumber (fin x) 2 =
      some (String.mk (groupThousands (decimal (N / 10 ^ 2)) ++
        ',' :: fixedWidth 2 (N % 10 ^ 2))) := by
  rw [SiteOptimized.formatNumber_small x 2 hx hsmall (by norm_num) (by norm_num), hN,
    Int.toNat_natCast]

theorem example_monthly : specMonthlyPayment 100000 5 12 =
    47985997152731898831326355601250 / 5605350858386829195183253443 := by
  norm_num [specMonthlyPayment, specMonthlyRate]

theorem example_total : specTotalPayment 100000 5 12 =
    47985997152731898831326355601250 / 5605350858386829195183253443 * 12 := by
  rw [specTotalPayment, example_monthly]
  norm_num

theorem example_interest : specTotalInterest 100000 5 12 =
    47985997152731898831326355601250 / 5605350858386829195183253443 * 12 - 100000 := by
  rw [specTotalInterest, example_total]

theorem example_monthly_hundredths :
    ⌊specMonthlyPayment 100000 5 12 * 10 ^ 2 + 1 / 2⌋ = ((856075 : ℕ) : ℤ) := by
  rw [example_monthly, Int.floor_eq_iff]
  constructor <;> norm_num

theorem example_total_hundredths :
    ⌊specTotalPayment 100000 5 12 * 10 ^ 2 + 1 / 2⌋ = ((10272898 : ℕ) : ℤ) := by
  rw [example_total, Int.floor_eq_iff]
  constructor <;> norm_num

theorem example_interest_hundredths :
    ⌊specTotalInterest 100000 5 12 * 10 ^ 2 + 1 / 2⌋ = ((272898 : ℕ) : ℤ) := by
  rw [example_interest, Int.floor_eq_iff]
  constructor <;> norm_num

/-- The texts `calculate` displays for 100000 at 5 % over 12 months. -/
theorem example_displays :
    SiteOptimized.calculate "100000" "5" "12" ⟨some "", some "", some ""⟩ =
      some ⟨some "8 560,75 kr", some "102 728,98 kr", some "2 728,98 kr"⟩ := by
  rw [SiteOptimized.calculate_pos "100000" "5" "12" 100000 5 12 _ parseNumber_100000
    parseNumber_5 parseNumber_12 (by norm_num) (by norm_num) (by norm_num)]
  have hm := SiteOptimized.formatNumber_two _ _ example_monthly_hundredths
    (by rw [example_monthly]; norm_num) (by rw [example_monthly]; norm_num)
  have ht := SiteOptimized.formatNumber_two _ _ example_total_hundredths
    (by rw [example_total]; norm_num) (by rw [example_total]; norm_num)
  have hi := SiteOptimized.formatNumber_two _ _ example_interest_hundredths
    (by rw [example_interest]; norm_num) (by rw [example_interest]; norm_num)
  simp only [SiteOptimized.calculateFrame, specFigures, hm, ht, hi]
  decide

theorem roundTo_of_floor (x : ℚ) (N : ℕ) (h : ⌊x * 10 ^ 2 + 1 / 2⌋ = (N : ℤ)) :
    roundTo 2 x = (N : ℚ) / 100 := by
  rw [roundTo, h]
  norm_num

theorem example_figures :
    SiteOptimized.calculateFigures (fin 100000) (fin 5) (fin 12) =
      some (specFigures 100000 5 12) := by
  have := SiteOptimized.calculateFigures_fin 100000 5 12 (by norm_num) (by norm_num)
  rwa [Nat.cast_ofNat] at this

/-- C5: for principal 100000, annual rate 5 % and 12 months the monthly payment computed by
`calculate`, rounded to 2 decimals, is 8560.75, and it is displayed as `8 560,75 kr`. -/
theorem example_monthly_payment_is_8560_75 :
    (∃ M : ℚ,
      (SiteOptimized.calculateFigures (fin 100000) (fin 5) (fin 12)).map
        LoanFigures.monthlyPayment = some (fin M) ∧
      roundTo 2 M = 8560.75) ∧
    (SiteOptimized.calculate "100000" "5" "12" ⟨some "", some "", some ""⟩).map
      SiteOptimized.Displays.monthly = some (some "8 560,75 kr") := by
  refine ⟨⟨specMonthlyPayment 100000 5 12, by rw [example_figures]; rfl, ?_⟩, ?_⟩
  · rw [roundTo_of_floor _ _ example_monthly_hundredths]
    norm_num
  · rw [example_displays]
    rfl

/-- C6, refuted as stated: for principal 100000, annual rate 5 % and 12 months the total
payment computed by `calculate`, rounded to 2 decimals, is not 102729.00 and the total
interest is not 2729.00. -/
theorem example_total_payment_is_not_102729 :
    ∃ T I : ℚ,
      (SiteOptimized.calculateFigures (fin 100000) (fin 5) (fin 12)).map
        LoanFigures.totalPayment = some (fin T) ∧
      (SiteOptimized.calculateFigures (fin 100000) (fin 5) (fin 12)).map
        LoanFigures.totalInterest = some (fin I) ∧
      roundTo 2 T ≠ 102729 ∧ roundTo 2 I ≠ 2729 := by
  refine ⟨specTotalPayment 100000 5 12, specTotalInterest 100000 5 12,
    by rw [example_figures]; rfl, by rw [example_figures]; rfl, ?_, ?_⟩
  · rw [roundTo_of_floor _ _ example_total_hundredths]
    norm_num
  · rw [roundTo_of_floor _ _ example_interest_hundredths]
    norm_num

/-- C6, amended: for principal 100000, annual rate 5 % and 12 months the total payment
computed by `calculate`, rounded to 2 decimals, is 102728.98 and the total interest is
2728.98; they are displayed as `102 728,98 kr` and `2 728,98 kr`. -/
theorem example_total_payment_is_102728_98 :
    (∃ T I : ℚ,
      (SiteOptimized.calculateFigures (fin 100000) (fin 5) (fin 12)).map
        LoanFigures.totalPayment = some (fin T) ∧
      (SiteOptimized.calculateFigures (fin 100000) (fin 5) (fin 12)).map
        LoanFigures.totalInterest = some (fin I) ∧
      roundTo 2 T = 102728.98 ∧ roundTo 2 I = 2728.98) ∧
    (SiteOptimized.calculate "100000" "5" "12" ⟨some "", some "", some ""⟩).map
      SiteOptimized.Displays.total = some (some "102 728,98 kr") ∧
    (SiteOptimized.calculate "100000" "5" "12" ⟨some "", some "", some ""⟩).map
      SiteOptimized.Displays.interest = some (some "2 728,98 kr") := by
  refine ⟨⟨specTotalPayment 100000 5 12, specTotalInterest 100000 5 12,
    by rw [example_figures]; rfl, by rw [example_figures]; rfl, ?_, ?_⟩, ?_, ?_⟩
  · rw [roundTo_of_floor _ _ example_total_hundredths]
    norm_num
  · rw [roundTo_of_floor _ _ example_interest_hundredths]
    norm_num
  · rw [example_displays]
    rfl
  · rw [example_displays]
    rfl

/-- C7, refuted as stated: `formatNumber(0.5)` is `1`, which `parseNumber` reads as 1, not
as 0.5. -/
theorem roundtrip_fails_at_one_half :
    SiteOptimized.formatNumber (fin (1 / 2)) = some "1" ∧
    SiteOptimized.parseNumber "1" = fin 1 ∧
    SiteOptimized.parseNumber "1" ≠ fin (1 / 2) := by
  have hfl : ⌊(1 / 2 : ℚ) + 1 / 2⌋.toNat = 1 := by norm_num
  have hp : SiteOptimized.parseNumber "1" = fin 1 := by
    rw [show SiteOptimized.parseNumber "1" =
      fin (((1 : ℕ) : ℚ) * 10 ^ ((0 : ℤ) - ((0 : ℕ) : ℤ))) from rfl]
    norm_num
  refine ⟨?_, hp, ?_⟩
  · rw [SiteOptimized.formatNumber_round _ (by norm_num), hfl,
      SiteOptimized.formatNumber_natural 1 (by norm_num)]
    decide
  · rw [hp]
    intro h
    injection h with h
    norm_num at h

/-- C7, amended: for every non-negative `x`, parsing the text `formatNumber(x)` (default
decimals) gives `Math.round(x)`, the integer nearest to `x` (a tie going up). -/
theorem roundtrip_returns_rounded (x : ℚ) (hx : 0 ≤ x) :
    ∃ s, SiteOptimized.formatNumber (fin x) = some s ∧
      SiteOptimized.parseNumber s = Math.round (fin x) ∧
      Math.round (fin x) = fin ((⌊x + 1 / 2⌋ : ℤ) : ℚ) := by
  obtain ⟨s, h1, h2⟩ := roundtrip_round x hx
  exact ⟨s, h1, h2, rfl⟩

/-- Witness of C7 (amended) at `x = 1/2`. -/
theorem roundtrip_returns_rounded_witness :
    (0 : ℚ) ≤ 1 / 2 ∧
    ∃ s, SiteOptimized.formatNumber (fin (1 / 2)) = some s ∧
      SiteOptimized.parseNumber s = Math.round (fin (1 / 2)) ∧
      Math.round (fin (1 / 2)) = fin ((⌊(1 / 2 : ℚ) + 1 / 2⌋ : ℤ) : ℚ) :=
  ⟨by norm_num, roundtrip_returns_rounded (1 / 2) (by norm_num)⟩

/-- C8: exact round trip on representable values.  Without decimals every non-negative
integer, and with two decimals every non-negative number with at most two decimal digits,
is read back exactly by `parseNumber` from the text `formatNumber` makes of it, in both
scripts and whatever the number of digit groups. -/
theorem roundtrip_exact_on_representable (n : ℕ) (x : ℚ) (hx : 0 ≤ x)
    (hd : (x * 100).den = 1) :
    (∃ s, SiteOptimized.formatNumber (fin (n : ℚ)) 0 = some s ∧
      SiteOptimized.parseNumber s = fin (n : ℚ)) ∧
    (∃ s, SiteOptimized.formatNumber (fin x) 2 = some s ∧
      SiteOptimized.parseNumber s = fin x) ∧
    (∃ s, BusinessLoans.formatNumber (fin (n : ℚ)) 0 = some s ∧
      BusinessLoans.parseNumber s = fin (n : ℚ)) ∧
    (∃ s, BusinessLoans.formatNumber (fin x) 2 = some s ∧
      BusinessLoans.parseNumber s = fin x) :=
  ⟨roundtrip_natural n, roundtrip_cents x hx hd, roundtrip_natural n, roundtrip_cents x hx hd⟩

/-- Witness of C8 at `1234567` and `1234567.89`. -/
theorem roundtrip_exact_on_representable_witness :
    ((0 : ℚ) ≤ 123456789 / 100 ∧ ((123456789 / 100 : ℚ) * 100).den = 1) ∧
    (∃ s, SiteOptimized.formatNumber (fin ((1234567 : ℕ) : ℚ)) 0 = some s ∧
      SiteOptimized.parseNumber s = fin ((1234567 : ℕ) : ℚ)) ∧
    (∃ s, SiteOptimized.formatNumber (fin (123456789 / 100)) 2 = some s ∧
      SiteOptimized.parseNumber s = fin (123456789 / 100)) ∧
    (∃ s, BusinessLoans.formatNumber (fin ((1234567 : ℕ) : ℚ)) 0 = some s ∧
      BusinessLoans.parseNumber s = fin ((1234567 : ℕ) : ℚ)) ∧
    (∃ s, BusinessLoans.formatNumber (fin (123456789 / 100)) 2 = some s ∧
      BusinessLoans.parseNumber s = fin (123456789 / 100)) :=
  ⟨⟨by norm_num, by norm_num⟩,
    roundtrip_exact_on_representable 1234567 (123456789 / 100) (by norm_num) (by norm_num)⟩

/-- C9, the code at a failing input: `formatNumber(10^21)` is the text `1e+21`, not the
grouped decimal digits of `10^21`. -/
theorem formatNumber_at_1e21_is_exponent_text :
    SiteOptimized.formatNumber (fin (10 ^ 21)) = some "1e+21" ∧
    SiteOptimized.formatNumber (fin (10 ^ 21)) ≠
      some (String.mk (groupFromRight (decimal (10 ^ 21)))) := by
  have h : SiteOptimized.formatNumber (fin (10 ^ 21)) = some "1e+21" := by
    have := SiteOptimized.formatNumber_large (10 ^ 21) 0 (by norm_num) le_rfl
    rw [show ((10 ^ 21 : ℕ) : ℚ) = 10 ^ 21 by norm_num] at this
    rw [this]
    decide
  refine ⟨h, ?_⟩
  rw [h]
  decide

/-- C9, where the code does what the claim says: for every non-negative integer `n < 2^53`
(the integers a Number holds exactly and prints digit by digit), `formatNumber(n)` is the
decimal digit string of `n` with single spaces between groups of digits, the groups having
three digits each except the first, which has one to three; for `0 < decimals <= 100` and a
Number `0 <= x < 10^21` the integer part of `x` rounded to that many decimals is grouped in
this way and followed by a comma and the decimals. -/
theorem formatNumber_groups_by_three (n : ℕ) (x : ℚ) (d : ℕ) (hn : n < 2 ^ 53)
    (hx : 0 ≤ x) (hxs : x < 10 ^ 21) (hd0 : 0 < d) (hd : d ≤ 100) :
    decimal n = (if n = 0 then ['0'] else (Nat.digits 10 n).reverse.map Nat.digitChar) ∧
    SiteOptimized.formatNumber (fin (n : ℚ)) = some (String.mk (groupFromRight (decimal n))) ∧
    BusinessLoans.formatNumber (fin (n : ℚ)) = some (String.mk (groupFromRight (decimal n))) ∧
    (∃ first : List Char, ∃ others : List (List Char),
      decimal n = first ++ others.flatten ∧
      groupFromRight (decimal n) = first ++ (others.map fun g => ' ' :: g).flatten ∧
      1 ≤ first.length ∧ first.length ≤ 3 ∧ ∀ g ∈ others, g.length = 3) ∧
    SiteOptimized.formatNumber (fin x) d = some (specAmountText x d) ∧
    BusinessLoans.formatNumber (fin x) d = some (specAmountText x d) := by
  have hn21 : n < 10 ^ 21 := lt_trans hn (by norm_num)
  have h1 : SiteOptimized.formatNumber (fin (n : ℚ)) =
      some (String.mk (groupFromRight (decimal n))) := by
    rw [SiteOptimized.formatNumber_natural n hn21,
      groupThousands_eq_groupFromRight _ (isDigit_of_mem_decimal n)]
  have h2 : SiteOptimized.formatNumber (fin x) d = some (specAmountText x d) := by
    rw [SiteOptimized.formatNumber_small x d hx hxs hd0 hd,
      groupThousands_eq_groupFromRight _ (isDigit_of_mem_decimal _)]
    rfl
  refine ⟨?_, h1, h1, groupFromRight_groups _ (decimal_ne_nil n), h2, h2⟩
  by_cases h0 : n = 0
  · subst h0; rfl
  · rw [if_neg h0, decimal_eq n h0]

/-- Witness of C9: `1234567` gives `1 234 567` and `1234567.891` with two decimals
gives `1 234 567,89`. -/
theorem formatNumber_groups_by_three_witness :
    SiteOptimized.formatNumber (fin ((1234567 : ℕ) : ℚ)) = some "1 234 567" ∧
    SiteOptimized.formatNumber (fin (1234567891 / 1000)) 2 = some "1 234 567,89" := by
  have h := formatNumber_groups_by_three 1234567 (1234567891 / 1000) 2 (by norm_num)
    (by norm_num) (by norm_num) (by norm_num) (by norm_num)
  have hfl : ⌊(1234567891 / 1000 : ℚ) * 10 ^ 2 + 1 / 2⌋ = ((123456789 : ℕ) : ℤ) := by
    rw [Int.floor_eq_iff]
    constructor <;> norm_num
  refine ⟨?_, ?_⟩
  · rw [h.2.1]
    decide
  · rw [h.2.2.2.2.1, specAmountText, hfl, Int.toNat_natCast]
    decide

theorem parseNumber_1e21 : SiteOptimized.parseNumber "1e21" = fin (((10 : ℕ) ^ 21 : ℕ) : ℚ) := by
  rw [show SiteOptimized.parseNumber "1e21" =
    fin (((1 : ℕ) : ℚ) * 10 ^ ((21 : ℤ) - ((0 : ℕ) : ℤ))) from rfl]
  norm_num

theorem parseNumber_1200 : SiteOptimized.parseNumber "1200" = fin 1200 := by
  rw [show SiteOptimized.parseNumber "1200" =
    fin (((1200 : ℕ) : ℚ) * 10 ^ ((0 : ℤ) - ((0 : ℕ) : ℤ))) from rfl]
  norm_num

theorem parseNumber_1 : SiteOptimized.parseNumber "1" = fin ((1 : ℕ) : ℚ) := by
  rw [show SiteOptimized.parseNumber "1" =
    fin (((1 : ℕ) : ℚ) * 10 ^ ((0 : ℤ) - ((0 : ℕ) : ℤ))) from rfl]
  norm_num

theorem parseNumber_Infinity : SiteOptimized.parseNumber "Infinity" = posInf := rfl

/-- The callback of `calculate` on finite figures from 0 up to `10^21`, whatever they are. -/
theorem SiteOptimized.calculateFrame_fin (m t i : ℚ) (d : SiteOptimized.Displays)
    (hm : 0 ≤ m ∧ m < 10 ^ 21) (ht : 0 ≤ t ∧ t < 10 ^ 21) (hi : 0 ≤ i ∧ i < 10 ^ 21) :
    SiteOptimized.calculateFrame ⟨fin m, fin t, fin i⟩ d =
      some { monthly := setText d.monthly (specAmountText m 2 ++ " kr"),
             total := setText d.total (specAmountText t 2 ++ " kr"),
             interest := setText d.interest (specAmountText i 2 ++ " kr") } := by
  have h1 := SiteOptimized.formatNumber_spec m 2 hm.1 hm.2 (by norm_num) (by norm_num)
  have h2 := SiteOptimized.formatNumber_spec t 2 ht.1 ht.2 (by norm_num) (by norm_num)
  have h3 := SiteOptimized.formatNumber_spec i 2 hi.1 hi.2 (by norm_num) (by norm_num)
  simp only [SiteOptimized.calculateFrame, h1, h2, h3, Option.map_some', setTextWith_some,
    Option.some_bind]

/-- The callback of `calculateLoan` on finite figures from 0 up to `10^21` and a principal
whose rounded value is below `2^53`. -/
theorem BusinessLoans.calculateLoanFrame_fin (m t i p : ℚ)
    (hm : 0 ≤ m ∧ m < 10 ^ 21) (ht : 0 ≤ t ∧ t < 10 ^ 21) (hi : 0 ≤ i ∧ i < 10 ^ 21)
    (hp : 0 ≤ p ∧ p + 1 / 2 < 2 ^ 53) :
    BusinessLoans.calculateLoanFrame ⟨fin m, fin t, fin i⟩ (fin p) =
      some { monthlyPayment := some (specAmountText m 2 ++ " kr"),
             totalLoanAmount :=
               some (String.mk (groupFromRight (decimal ⌊p + 1 / 2⌋.toNat)) ++ " kr"),
             totalInterest := some (specAmountText i 2 ++ " kr"),
             totalPayment := some (specAmountText t 2 ++ " kr") } := by
  have h1 := SiteOptimized.formatNumber_spec m 2 hm.1 hm.2 (by norm_num) (by norm_num)
  have h2 := SiteOptimized.formatNumber_spec t 2 ht.1 ht.2 (by norm_num) (by norm_num)
  have h3 := SiteOptimized.formatNumber_spec i 2 hi.1 hi.2 (by norm_num) (by norm_num)
  obtain ⟨a, ha, hrep⟩ := SiteOptimized.formatNumber_whole p hp.1
  have ha2 := hrep (lt_trans hp.2 (by norm_num))
  rw [← BusinessLoans.formatNumber_eq_site] at h1 h2 h3 ha
  simp only [BusinessLoans.calculateLoanFrame, h1, h2, h3, ha, ha2, Option.map_some',
    Option.some_bind]

/-- What `calculate` writes is the zero text or what its callback makes of the figures. -/
theorem SiteOptimized.calculate_eq (amount rate term : String) (d : SiteOptimized.Displays) :
    SiteOptimized.calculate amount rate term d =
      if (le (SiteOptimized.parseNumber amount) (fin 0) ||
          le (SiteOptimized.parseNumber rate) (fin 0) ||
          le (SiteOptimized.parseNumber term) (fin 0)) = true then
        some { monthly := setText d.monthly "0 kr", total := setText d.total "0 kr",
               interest := setText d.interest "0 kr" }
      else
        (SiteOptimized.calculateFigures (SiteOptimized.parseNumber amount)
          (SiteOptimized.parseNumber rate) (SiteOptimized.parseNumber term)).bind fun v =>
            SiteOptimized.calculateFrame v d := by
  simp only [SiteOptimized.calculate, SiteOptimized.orZero_parseNumber]

/-- What `calculateLoan` writes is nothing, the zero text or what its callback makes of the
figures and the principal. -/
theorem BusinessLoans.calculateLoan_eq (amount rate term : String)
    (d : BusinessLoans.LoanDisplays) :
    BusinessLoans.calculateLoan amount rate term d =
      if d.complete = false then some d
      else if (le (BusinessLoans.parseNumber amount) (fin 0) ||
          le (BusinessLoans.parseNumber rate) (fin 0) ||
          le (BusinessLoans.parseNumber term) (fin 0)) = true then
        some { monthlyPayment := some "0 kr", totalLoanAmount := some "0 kr",
               totalInterest := some "0 kr", totalPayment := some "0 kr" }
      else
        (BusinessLoans.calculateLoanFigures (BusinessLoans.parseNumber amount)
          (BusinessLoans.parseNumber rate) (BusinessLoans.parseNumber term)).bind fun v =>
            BusinessLoans.calculateLoanFrame v (BusinessLoans.parseNumber amount) := by
  simp only [BusinessLoans.calculateLoan, BusinessLoans.orZero_parseNumber_loan]
  cases d.complete <;> simp

/-- The figures for an infinite principal at 5 % over 12 months. -/
theorem SiteOptimized.calculateFigures_posInf :
    SiteOptimized.calculateFigures posInf (fin 5) (fin ((12 : ℕ) : ℚ)) =
      some ⟨posInf, posInf, nan⟩ := by
  have hpw : Math.pow (add (fin 1) (div (div (fin 5) (fin 100)) (fin 12)))
      (fin ((12 : ℕ) : ℚ)) = some (fin ((1 + 5 / 100 / 12) ^ 12)) := by
    rw [div_fin _ _ (by norm_num), div_fin _ _ (by norm_num), add_fin,
      pow_fin_nat _ _ (by norm_num) (by norm_num)]
  rw [SiteOptimized.calculateFigures, hpw, Option.map_some', div_fin _ _ (by norm_num),
    div_fin _ _ (by norm_num), mul_fin, sub_fin]
  have h1 : mul posInf (fin ((5 : ℚ) / 100 / 12 * (1 + 5 / 100 / 12) ^ 12)) = posInf := by
    have hx : (0 : ℚ) < 5 / 100 / 12 * (1 + 5 / 100 / 12) ^ 12 := by positivity
    simp only [mul, hx.ne.symm, if_false, inf, not_lt.mpr hx.le, decide_False]
    rfl
  have h2 : div posInf (fin (((1 : ℚ) + 5 / 100 / 12) ^ 12 - 1)) = posInf := by
    have hx : (0 : ℚ) < (1 + 5 / 100 / 12) ^ 12 - 1 := by norm_num
    simp only [div, inf, not_lt.mpr hx.le, decide_False]
    rfl
  rw [h1, h2]
  have h3 : mul posInf (fin ((12 : ℕ) : ℚ)) = posInf := by
    simp [mul, inf]
  simp only [h3]
  rfl

/-- C10, refuted as stated: for the positive amount `Infinity` at 5 % over 12 months the
calculator writes `Infinity kr`, `Infinity kr` and `NaN kr`, and for the valid inputs `1e21`,
`1200` and `1` it writes `2e+21 kr`: texts without grouped digits, comma or decimals. -/
theorem calculate_writes_texts_without_digits :
    SiteOptimized.calculate "Infinity" "5" "12" ⟨some "", some "", some ""⟩ =
      some ⟨some "Infinity kr", some "Infinity kr", some "NaN kr"⟩ ∧
    SiteOptimized.calculate "1e21" "1200" "1" ⟨some "", some "", some ""⟩ =
      some ⟨some "2e+21 kr", some "2e+21 kr", some "1e+21 kr"⟩ ∧
    ',' ∉ "2e+21 kr".data := by
  refine ⟨?_, ?_, by decide⟩
  · rw [SiteOptimized.calculate_eq, parseNumber_Infinity, parseNumber_5, parseNumber_12,
      if_neg, SiteOptimized.calculateFigures_posInf]
    · decide
    · simp only [le_fin]
      norm_num [le]
  · rw [SiteOptimized.calculate_pos "1e21" "1200" "1" _ 1200 1 _ parseNumber_1e21
      parseNumber_1200 parseNumber_1 (by norm_num) (by norm_num) (by norm_num)]
    have hM : specMonthlyPayment (((10 : ℕ) ^ 21 : ℕ) : ℚ) 1200 1 = ((2 * 10 ^ 21 : ℕ) : ℚ) := by
      norm_num [specMonthlyPayment, specMonthlyRate]
    have hT : specTotalPayment (((10 : ℕ) ^ 21 : ℕ) : ℚ) 1200 1 = ((2 * 10 ^ 21 : ℕ) : ℚ) := by
      rw [specTotalPayment, hM]
      norm_num
    have hI : specTotalInterest (((10 : ℕ) ^ 21 : ℕ) : ℚ) 1200 1 = ((10 ^ 21 : ℕ) : ℚ) := by
      rw [specTotalInterest, hT]
      norm_num
    simp only [SiteOptimized.calculateFrame, specFigures, hM, hT, hI]
    rw [SiteOptimized.formatNumber_large (2 * 10 ^ 21) 2 (by norm_num) (by norm_num),
      SiteOptimized.formatNumber_large (10 ^ 21) 2 (by norm_num) (by norm_num)]
    decide

/-- C10, amended: what the calculators write is the zero text `0 kr` (for degenerate inputs)
or the text their callbacks make of the computed figures.  A computed monthly payment, total
payment or total interest that is a finite number from 0 up to `10^21` is written as its
value rounded to 2 decimals: a space-grouped integer part, a comma, two digits and the
suffix ` kr`; `calculateLoan` also writes the principal rounded to a whole number, grouped,
with the suffix ` kr` (stated for a rounded principal below `2^53`).  A figure that is `NaN`
or infinite is written as `NaN` or `Infinity`. -/
theorem displayed_texts_have_currency_form (amount rate term zamount zrate zterm : String)
    (m t i p : ℚ) (d : SiteOptimized.Displays) (ld : BusinessLoans.LoanDisplays)
    (hm : 0 ≤ m ∧ m < 10 ^ 21) (ht : 0 ≤ t ∧ t < 10 ^ 21) (hi : 0 ≤ i ∧ i < 10 ^ 21)
    (hp : 0 ≤ p ∧ p + 1 / 2 < 2 ^ 53)
    (hz : le (SiteOptimized.parseNumber zamount) (fin 0) = true ∨
      le (SiteOptimized.parseNumber zrate) (fin 0) = true ∨
      le (SiteOptimized.parseNumber zterm) (fin 0) = true)
    (hzl : le (BusinessLoans.parseNumber zamount) (fin 0) = true ∨
      le (BusinessLoans.parseNumber zrate) (fin 0) = true ∨
      le (BusinessLoans.parseNumber zterm) (fin 0) = true) :
    SiteOptimized.calculateFrame ⟨fin m, fin t, fin i⟩ d =
      some { monthly := setText d.monthly (specAmountText m 2 ++ " kr"),
             total := setText d.total (specAmountText t 2 ++ " kr"),
             interest := setText d.interest (specAmountText i 2 ++ " kr") } ∧
    BusinessLoans.calculateLoanFrame ⟨fin m, fin t, fin i⟩ (fin p) =
      some { monthlyPayment := some (specAmountText m 2 ++ " kr"),
             totalLoanAmount :=
               some (String.mk (groupFromRight (decimal ⌊p + 1 / 2⌋.toNat)) ++ " kr"),
             totalInterest := some (specAmountText i 2 ++ " kr"),
             totalPayment := some (specAmountText t 2 ++ " kr") } ∧
    SiteOptimized.calculate amount rate term d =
      (if (le (SiteOptimized.parseNumber amount) (fin 0) ||
          le (SiteOptimized.parseNumber rate) (fin 0) ||
          le (SiteOptimized.parseNumber term) (fin 0)) = true then
        some { monthly := setText d.monthly "0 kr", total := setText d.total "0 kr",
               interest := setText d.interest "0 kr" }
      else
        (SiteOptimized.calculateFigures (SiteOptimized.parseNumber amount)
          (SiteOptimized.parseNumber rate) (SiteOptimized.parseNumber term)).bind fun v =>
            SiteOptimized.calculateFrame v d) ∧
    BusinessLoans.calculateLoan amount rate term ld =
      (if ld.complete = false then some ld
      else if (le (BusinessLoans.parseNumber amount) (fin 0) ||
          le (BusinessLoans.parseNumber rate) (fin 0) ||
          le (BusinessLoans.parseNumber term) (fin 0)) = true then
        some { monthlyPayment := some "0 kr", totalLoanAmount := some "0 kr",
               totalInterest := some "0 kr", totalPayment := some "0 kr" }
      else
        (BusinessLoans.calculateLoanFigures (BusinessLoans.parseNumber amount)
          (BusinessLoans.parseNumber rate) (BusinessLoans.parseNumber term)).bind fun v =>
            BusinessLoans.calculateLoanFrame v (BusinessLoans.parseNumber amount)) ∧
    SiteOptimized.calculate zamount zrate zterm d =
      some { monthly := setText d.monthly "0 kr", total := setText d.total "0 kr",
             interest := setText d.interest "0 kr" } ∧
    BusinessLoans.calculateLoan zamount zrate zterm ld =
      some (if ld.complete then
        { monthlyPayment := some "0 kr", totalLoanAmount := some "0 kr",
          totalInterest := some "0 kr", totalPayment := some "0 kr" }
        else ld) ∧
    SiteOptimized.formatNumber nan 2 = some "NaN" ∧
    SiteOptimized.formatNumber posInf 2 = some "Infinity" :=
  ⟨SiteOptimized.calculateFrame_fin m t i d hm ht hi,
    BusinessLoans.calculateLoanFrame_fin m t i p hm ht hi hp,
    SiteOptimized.calculate_eq amount rate term d,
    BusinessLoans.calculateLoan_eq amount rate term ld,
    SiteOptimized.calculate_zero zamount zrate zterm d hz,
    BusinessLoans.calculateLoan_zero zamount zrate zterm ld hzl, by decide, by decide⟩

/-- Witness of C10 (amended): the texts written for the figures 8560.75, 102728.98 and
2728.98 and the principal 100000, and for the degenerate term `0`. -/
theorem displayed_texts_have_currency_form_witness :
    SiteOptimized.calculateFrame ⟨fin (856075 / 100), fin (10272898 / 100), fin (272898 / 100)⟩
        ⟨some "", some "", some ""⟩ =
      some ⟨some "8 560,75 kr", some "102 728,98 kr", some "2 728,98 kr"⟩ ∧
    BusinessLoans.calculateLoanFrame
        ⟨fin (856075 / 100), fin (10272898 / 100), fin (272898 / 100)⟩ (fin 100000) =
      some ⟨some "8 560,75 kr", some "100 000 kr", some "2 728,98 kr",
        some "102 728,98 kr"⟩ ∧
    SiteOptimized.calculate "100000" "5" "0" ⟨some "", some "", some ""⟩ =
      some ⟨some "0 kr", some "0 kr", some "0 kr"⟩ ∧
    BusinessLoans.calculateLoan "100000" "5" "0" ⟨some "", some "", some "", some ""⟩ =
      some ⟨some "0 kr", some "0 kr", some "0 kr", some "0 kr"⟩ := by
  have h := displayed_texts_have_currency_form "100000" "5" "12" "100000" "5" "0"
    (856075 / 100) (10272898 / 100) (272898 / 100) 100000
    ⟨some "", some "", some ""⟩ ⟨some "", some "", some "", some ""⟩
    (by norm_num) (by norm_num) (by norm_num) (by norm_num)
    (Or.inr (Or.inr (by rw [parseNumber_0]; decide)))
    (Or.inr (Or.inr (by rw [BusinessLoans.parseNumber_eq_site, parseNumber_0]; decide)))
  have hm : ⌊(856075 / 100 : ℚ) * 10 ^ 2 + 1 / 2⌋ = ((856075 : ℕ) : ℤ) := by
    rw [Int.floor_eq_iff]
    constructor <;> norm_num
  have ht : ⌊(10272898 / 100 : ℚ) * 10 ^ 2 + 1 / 2⌋ = ((10272898 : ℕ) : ℤ) := by
    rw [Int.floor_eq_iff]
    constructor <;> norm_num
  have hi : ⌊(272898 / 100 : ℚ) * 10 ^ 2 + 1 / 2⌋ = ((272898 : ℕ) : ℤ) := by
    rw [Int.floor_eq_iff]
    constructor <;> norm_num
  have hp : ⌊(100000 : ℚ) + 1 / 2⌋ = ((100000 : ℕ) : ℤ) := by
    rw [Int.floor_eq_iff]
    constructor <;> norm_num
  refine ⟨?_, ?_, h.2.2.2.2.1, h.2.2.2.2.2.1⟩
  · rw [h.1]
    simp only [specAmountText, hm, ht, hi, Int.toNat_natCast]
    decide
  · rw [h.2.1]
    simp only [specAmountText, hm, ht, hi, hp, Int.toNat_natCast]
    decide

/-! ## `parseNumber` on arbitrary texts -/

theorem takeWhile_eq_nil_of_not_digit (cs : List Char) (h : startsWithDigit cs = false) :
    cs.takeWhile isDigit = [] := by
  cases cs with
  | nil => rfl
  | cons c t =>
    simp only [startsWithDigit] at h
    simp [List.takeWhile, h]

theorem dropWhile_eq_self_of_not_digit (cs : List Char) (h : startsWithDigit cs = false) :
    cs.dropWhile isDigit = cs := by
  cases cs with
  | nil => rfl
  | cons c t =>
    simp only [startsWithDigit] at h
    simp [List.dropWhile, h]

theorem takeWhile_ne_nil_of_digit (cs : List Char) (h : startsWithDigit cs = true) :
    cs.takeWhile isDigit ≠ [] := by
  cases cs with
  | nil => simp [startsWithDigit] at h
  | cons c t =>
    simp only [startsWithDigit] at h
    simp [List.takeWhile, h]

/-- The unsigned literal is `NaN` exactly when the text does not start like a number. -/
theorem strUnsigned_eq_nan_iff (cs : List Char) :
    strUnsignedDecimalLiteral cs = nan ↔ startsUnsignedNumber cs = false := by
  unfold strUnsignedDecimalLiteral startsUnsignedNumber
  by_cases hinf : startsWith "Infinity".data cs = true
  · simp [hinf]
  · simp only [hinf, Bool.false_eq_true, if_false, Bool.false_or]
    by_cases hd : startsWithDigit cs = true
    · have := takeWhile_ne_nil_of_digit cs hd
      simp [hd, this]
    · have hd' : startsWithDigit cs = false := by simpa using hd
      rw [takeWhile_eq_nil_of_not_digit cs hd', dropWhile_eq_self_of_not_digit cs hd', hd']
      cases hap : afterPoint cs with
      | none => simp
      | some t =>
        by_cases ht : startsWithDigit t = true
        · have := takeWhile_ne_nil_of_digit t ht
          simp [ht, this]
        · have ht' : startsWithDigit t = false := by simpa using ht
          simp [ht', takeWhile_eq_nil_of_not_digit t ht']

theorem neg_eq_nan_iff (x : JSNumber) : neg x = nan ↔ x = nan := by
  cases x <;> simp [neg]

/-- The function `parseFloat` gives `NaN` exactly on the texts that do not start like a
number. -/
theorem parseFloat_eq_nan_iff (s : String) :
    parseFloat s = nan ↔ startsNumber s.data = false := by
  unfold parseFloat startsNumber
  cases h : s.data.dropWhile isWhiteSpace with
  | nil =>
    have := (strUnsigned_eq_nan_iff []).mpr rfl
    simp [this]
  | cons c t =>
    by_cases hp : c = '+'
    · subst hp
      simp only [true_or, if_true]
      exact strUnsigned_eq_nan_iff t
    · by_cases hm : c = '-'
      · subst hm
        simp only [or_true, if_true]
        rw [neg_eq_nan_iff]
        exact strUnsigned_eq_nan_iff t
      · simp only [hp, hm, or_self, if_false]
        have : (match c :: t with
            | '+' :: t => strUnsignedDecimalLiteral t
            | '-' :: t => neg (strUnsignedDecimalLiteral t)
            | cs => strUnsignedDecimalLiteral cs) = strUnsignedDecimalLiteral (c :: t) := by
          split
          · rename_i heq; simp only [List.cons.injEq] at heq; exact absurd heq.1 hp
          · rename_i heq; simp only [List.cons.injEq] at heq; exact absurd heq.1 hm
          · rfl
        rw [this]
        exact strUnsigned_eq_nan_iff (c :: t)

theorem orZero_ne_nan (x : JSNumber) : orZero x ≠ nan := by
  cases x <;> simp [orZero]

theorem orZero_of_ne_nan (x : JSNumber) (h : x ≠ nan) : orZero x = x := by
  cases x <;> simp [orZero] at h ⊢

theorem parseNumber_12abc : SiteOptimized.parseNumber "12abc" = fin 12 := by
  rw [show SiteOptimized.parseNumber "12abc" =
    fin (((12 : ℕ) : ℚ) * 10 ^ ((0 : ℤ) - ((0 : ℕ) : ℤ))) from rfl]
  norm_num

/-- C11, refuted as stated: the malformed text `12abc` is not read as 0 but as 12, the value
of its numeric prefix. -/
theorem parseNumber_reads_numeric_start_of_malformed_text :
    SiteOptimized.parseNumber "12abc" = fin 12 ∧
    SiteOptimized.parseNumber "12abc" ≠ fin 0 ∧
    BusinessLoans.parseNumber "12abc" ≠ fin 0 := by
  have h : SiteOptimized.parseNumber "12abc" ≠ fin 0 := by
    rw [parseNumber_12abc]
    intro h
    injection h with h
    norm_num at h
  exact ⟨parseNumber_12abc, h, h⟩

/-- C11, amended: `parseNumber` never returns `NaN`, and it returns 0 for every text that,
once its white space is removed and its first comma replaced by a point, does not start
like a number (an optional sign, then a digit, a point followed by a digit, or `Infinity`);
a text that starts like a number is read as `parseFloat` reads it, up to the end of its
longest numeric prefix. -/
theorem parseNumber_never_nan_and_zero_without_numeric_start (s t u : String)
    (ht : startsNumber (cleanedText t) = false) (hu : startsNumber (cleanedText u) = true) :
    SiteOptimized.parseNumber s ≠ nan ∧ BusinessLoans.parseNumber s ≠ nan ∧
    SiteOptimized.parseNumber t = fin 0 ∧ BusinessLoans.parseNumber t = fin 0 ∧
    parseFloat (String.mk (cleanedText u)) ≠ nan ∧
    SiteOptimized.parseNumber u = parseFloat (String.mk (cleanedText u)) ∧
    BusinessLoans.parseNumber u = parseFloat (String.mk (cleanedText u)) := by
  have h0 : SiteOptimized.parseNumber t = fin 0 := by
    have : parseFloat (String.mk (cleanedText t)) = nan :=
      (parseFloat_eq_nan_iff _).mpr ht
    show orZero (parseFloat (String.mk (cleanedText t))) = fin 0
    rw [this]
    rfl
  have h1 : parseFloat (String.mk (cleanedText u)) ≠ nan := by
    intro h
    have := (parseFloat_eq_nan_iff _).mp h
    rw [hu] at this
    cases this
  have h2 : SiteOptimized.parseNumber u = parseFloat (String.mk (cleanedText u)) :=
    orZero_of_ne_nan _ h1
  exact ⟨orZero_ne_nan _, orZero_ne_nan _, h0, h0, h1, h2, h2⟩

/-- Witness of C11 (amended): `abc` is read as 0, `12abc` starts like a number. -/
theorem parseNumber_never_nan_and_zero_without_numeric_start_witness :
    startsNumber (cleanedText "abc") = false ∧ startsNumber (cleanedText "12abc") = true ∧
    SiteOptimized.parseNumber "1 234,5" ≠ nan ∧ BusinessLoans.parseNumber "1 234,5" ≠ nan ∧
    SiteOptimized.parseNumber "abc" = fin 0 ∧ BusinessLoans.parseNumber "abc" = fin 0 ∧
    parseFloat (String.mk (cleanedText "12abc")) ≠ nan ∧
    SiteOptimized.parseNumber "12abc" = parseFloat (String.mk (cleanedText "12abc")) ∧
    BusinessLoans.parseNumber "12abc" = parseFloat (String.mk (cleanedText "12abc")) :=
  ⟨by decide, by decide,
    parseNumber_never_nan_and_zero_without_numeric_start "1 234,5" "abc" "12abc"
      (by decide) (by decide)⟩


/-! ## `debounce` -/

namespace Debounce

theorem runTimers_armed_early {α σ : Type} (func : PageFunction α σ) (fuel now id due : ℕ)
    (args : α) (w : σ) (h : now < due) :
    runTimers func fuel (some now) (armed id due args w) = armed id due args w := by
  cases fuel with
  | zero => rfl
  | succ k =>
    have hw : within (some now) due = false := by
      simp only [within, decide_eq_false_iff_not]
      omega
    simp only [runTimers, armed, earliest, hw, Bool.false_eq_true, if_false]

theorem executedFunction_armed {α σ : Type} (wait now id due : ℕ) (this : Receiver)
    (args next : α) (w : σ) :
    executedFunction wait now this next (armed id due args w) =
      armed (id + 1) (now + wait) next w := by
  simp [executedFunction, clearTimeout, setTimeout, armed]

theorem executedFunction_init {α σ : Type} (wait now : ℕ) (this : Receiver) (args : α)
    (w : σ) : executedFunction wait now this args (init w) = armed 1 (now + wait) args w := by
  simp [executedFunction, clearTimeout, setTimeout, armed, init]

/-- Calls that each come before the pending timer is due leave one timer pending, that of
the last call. -/
theorem handleCalls_armed {α σ : Type} (func : PageFunction α σ) (wait : ℕ) (w : σ) :
    ∀ (calls : List (ℕ × Receiver × α)) (first : ℕ × Receiver × α) (id : ℕ),
      List.Chain' (fun c d => c.1 ≤ d.1 ∧ d.1 < c.1 + wait) (first :: calls) →
      handleCalls func wait calls (armed id (first.1 + wait) first.2.2 w) =
        armed (id + calls.length)
          (((first :: calls).getLast (List.cons_ne_nil _ _)).1 + wait)
          ((first :: calls).getLast (List.cons_ne_nil _ _)).2.2 w := by
  intro calls
  induction calls with
  | nil => intro first id _; rfl
  | cons c rest ih =>
    intro first id hc
    obtain ⟨now, this, args⟩ := c
    have hgap : now < first.1 + wait := (List.chain'_cons.mp hc).1.2
    have htail := (List.chain'_cons.mp hc).2
    have hlen : (armed id (first.1 + wait) first.2.2 w : State α σ).timers.length = 1 := rfl
    rw [handleCalls, hlen, runTimers_armed_early func 1 now id _ _ w hgap,
      executedFunction_armed, ih (now, this, args) (id + 1) htail,
      List.getLast_cons (List.cons_ne_nil _ _)]
    congr 1
    simp only [List.length_cons]
    omega

theorem settle_armed {α σ : Type} (func : PageFunction α σ) (id due : ℕ) (args : α) (w : σ) :
    (settle func (armed id due args w)).invoked = [(due, args)] ∧
    (settle func (armed id due args w)).timers = [] ∧
    (settle func (armed id due args w)).world =
      (match func Receiver.undefined args w with
        | Except.ok w1 => w1
        | Except.error _ => w) ∧
    (settle func (armed id due args w)).errors =
      (match func Receiver.undefined args w with
        | Except.ok _ => []
        | Except.error e => [(due, e)]) := by
  simp only [settle, armed, List.length_singleton, runTimers, earliest, within, if_true, later,
    clearTimeout]
  cases func Receiver.undefined args w <;> simp [runTimers]

end Debounce

/-- C12: on the clock-and-timer model, when the function returned by `debounce(func, wait)`
is called `N >= 1` times, each call coming less than `wait` after the previous one, `func`
is invoked exactly once, at the time of the last call plus `wait` and with the arguments of
the last call; until then nothing is invoked and a single timer, that of the last call, is
pending, the earlier ones having been cancelled. -/
theorem debounce_invokes_once_after_last_call {α σ : Type} (func : PageFunction α σ)
    (wait : ℕ) (first : ℕ × Receiver × α) (calls : List (ℕ × Receiver × α)) (world : σ)
    (hgap : List.Chain' (fun c d => c.1 ≤ d.1 ∧ d.1 < c.1 + wait) (first :: calls)) :
    (debounce func wait (first :: calls) world).invoked =
      [(((first :: calls).getLast (List.cons_ne_nil _ _)).1 + wait,
        ((first :: calls).getLast (List.cons_ne_nil _ _)).2.2)] ∧
    (debounce func wait (first :: calls) world).timers = [] ∧
    (Debounce.handleCalls func wait (first :: calls) (Debounce.init world)).invoked = [] ∧
    (Debounce.handleCalls func wait (first :: calls) (Debounce.init world)).timers.map
        (fun tm => (tm.due, tm.args)) =
      [(((first :: calls).getLast (List.cons_ne_nil _ _)).1 + wait,
        ((first :: calls).getLast (List.cons_ne_nil _ _)).2.2)] := by
  obtain ⟨now, this, args⟩ := first
  have h : Debounce.handleCalls func wait ((now, this, args) :: calls) (Debounce.init world) =
      Debounce.armed (1 + calls.length)
        ((((now, this, args) :: calls).getLast (List.cons_ne_nil _ _)).1 + wait)
        (((now, this, args) :: calls).getLast (List.cons_ne_nil _ _)).2.2 world := by
    have h0 : (Debounce.init world : Debounce.State α σ).timers.length = 0 := rfl
    rw [Debounce.handleCalls, h0]
    simp only [Debounce.runTimers]
    rw [Debounce.executedFunction_init,
      Debounce.handleCalls_armed func wait world calls (now, this, args) 1 hgap]
  have hs := Debounce.settle_armed func (1 + calls.length)
    ((((now, this, args) :: calls).getLast (List.cons_ne_nil _ _)).1 + wait)
    (((now, this, args) :: calls).getLast (List.cons_ne_nil _ _)).2.2 world
  refine ⟨?_, ?_, ?_, ?_⟩
  · rw [debounce, h]; exact hs.1
  · rw [debounce, h]; exact hs.2.1
  · rw [h]; rfl
  · rw [h]; rfl

/-- Witness of C12: calls at 0, 100 and 399 ms with `wait = 300` give one invocation, at
699 ms, with the arguments of the third call. -/
theorem debounce_invokes_once_after_last_call_witness :
    List.Chain' (fun c d => c.1 ≤ d.1 ∧ d.1 < c.1 + 300)
      [((0 : ℕ), Receiver.undefined, (1 : ℕ)), (100, Receiver.undefined, 2),
        (399, Receiver.undefined, 3)] ∧
    (debounce (fun _ (a : ℕ) (w : ℕ) => Except.ok (w + a)) 300
      [(0, Receiver.undefined, 1), (100, Receiver.undefined, 2), (399, Receiver.undefined, 3)]
      0).invoked = [(699, 3)] :=
  ⟨by simp,
    (debounce_invokes_once_after_last_call (fun _ (a : ℕ) (w : ℕ) => Except.ok (w + a)) 300
      (0, Receiver.undefined, 1) [(100, Receiver.undefined, 2), (399, Receiver.undefined, 3)] 0
      (by simp)).1⟩


/-! ## Listeners called through `debounce` -/

namespace Debounce

theorem later_of_throwing {α σ : Type} (func : PageFunction α σ) (e : JSError)
    (hf : ∀ a w, func Receiver.undefined a w = Except.error e) (now : ℕ) (args : α)
    (s : State α σ) :
    later func now args s =
      { clearTimeout s.timeout s with invoked := s.invoked ++ [(now, args)],
                                      errors := s.errors ++ [(now, e)] } := by
  simp only [later, hf]

theorem throwing_later {α σ : Type} (func : PageFunction α σ) (e : JSError)
    (hf : ∀ a w, func Receiver.undefined a w = Except.error e) (now : ℕ) (args : α) (w : σ)
    (s : State α σ) (timers : List (Timer α)) (h : Throwing e w s) :
    Throwing e w (later func now args { s with timers := timers }) := by
  obtain ⟨h1, h2, h3⟩ := h
  rw [later_of_throwing func e hf]
  refine ⟨h1, ?_, ?_⟩
  · simp only [clearTimeout, List.map_append, List.map_cons, List.map_nil]
    rw [h2]
  · intro x hx
    simp only [clearTimeout, List.mem_append, List.mem_singleton] at hx
    rcases hx with hx | hx
    · exact h3 x hx
    · rw [hx]

theorem throwing_runTimers {α σ : Type} (func : PageFunction α σ) (e : JSError)
    (hf : ∀ a w, func Receiver.undefined a w = Except.error e) (w : σ) (limit : Option ℕ) :
    ∀ (fuel : ℕ) (s : State α σ), Throwing e w s → Throwing e w (runTimers func fuel limit s) := by
  intro fuel
  induction fuel with
  | zero => intro s h; exact h
  | succ k ih =>
    intro s h
    rw [runTimers]
    cases earliest s.timers with
    | none => exact h
    | some tm =>
      simp only
      split
      · exact ih _ (throwing_later func e hf tm.due tm.args w s _ h)
      · exact h

theorem throwing_handleCalls {α σ : Type} (func : PageFunction α σ) (e : JSError)
    (hf : ∀ a w, func Receiver.undefined a w = Except.error e) (w : σ) (wait : ℕ) :
    ∀ (calls : List (ℕ × Receiver × α)) (s : State α σ),
      Throwing e w s → Throwing e w (handleCalls func wait calls s) := by
  intro calls
  induction calls with
  | nil => intro s h; exact h
  | cons c rest ih =>
    intro s h
    obtain ⟨now, this, args⟩ := c
    rw [handleCalls]
    apply ih
    have h' := throwing_runTimers func e hf w (some now) s.timers.length s h
    exact h'

end Debounce

/-- The function returned by `debounce` only ever calls `func` without a receiver: two
functions that agree when called without a receiver are debounced alike. -/
theorem debounce_congr_undefined {α σ : Type} (func other : PageFunction α σ)
    (h : ∀ a w, func Receiver.undefined a w = other Receiver.undefined a w) (wait : ℕ)
    (calls : List (ℕ × Receiver × α)) (w : σ) :
    debounce func wait calls w = debounce other wait calls w := by
  have hl : ∀ now args (s : Debounce.State α σ),
      Debounce.later func now args s = Debounce.later other now args s := by
    intro now args s
    simp only [Debounce.later, h]
  have hr : ∀ fuel limit (s : Debounce.State α σ),
      Debounce.runTimers func fuel limit s = Debounce.runTimers other fuel limit s := by
    intro fuel
    induction fuel with
    | zero => intro limit s; rfl
    | succ k ih =>
      intro limit s
      rw [Debounce.runTimers, Debounce.runTimers]
      cases Debounce.earliest s.timers with
      | none => rfl
      | some tm =>
        simp only [hl, ih]
  have hc : ∀ (cs : List (ℕ × Receiver × α)) (s : Debounce.State α σ),
      Debounce.handleCalls func wait cs s = Debounce.handleCalls other wait cs s := by
    intro cs
    induction cs with
    | nil => intro s; rfl
    | cons c rest ih =>
      intro s
      obtain ⟨now, this, args⟩ := c
      rw [Debounce.handleCalls, Debounce.handleCalls, hr, ih]
  rw [debounce, debounce, Debounce.settle, Debounce.settle, hc, hr]

/-- A function that throws whenever it is called without a receiver never changes the page
when it is called through `debounce`, and each of its calls throws. -/
theorem debounce_of_throwing {α σ : Type} (func : PageFunction α σ) (e : JSError)
    (hf : ∀ a w, func Receiver.undefined a w = Except.error e) (wait : ℕ)
    (calls : List (ℕ × Receiver × α)) (w : σ) :
    (debounce func wait calls w).world = w ∧
    (debounce func wait calls w).errors.map Prod.fst =
      (debounce func wait calls w).invoked.map Prod.fst ∧
    ∀ x ∈ (debounce func wait calls w).errors, x.2 = e := by
  have h0 : Debounce.Throwing e w (Debounce.init w : Debounce.State α σ) :=
    ⟨rfl, rfl, fun x hx => by simp [Debounce.init] at hx⟩
  exact Debounce.throwing_runTimers func e hf w none _ _
    (Debounce.throwing_handleCalls func e hf w wait calls _ h0)

/-- One call through `debounce` of a function that throws without a receiver. -/
theorem debounce_single_of_throwing {α σ : Type} (func : PageFunction α σ) (e : JSError)
    (hf : ∀ a w, func Receiver.undefined a w = Except.error e) (wait t : ℕ) (this : Receiver)
    (args : α) (w : σ) :
    (debounce func wait [(t, this, args)] w).errors = [(t + wait, e)] ∧
    (debounce func wait [(t, this, args)] w).world = w := by
  have h : Debounce.handleCalls func wait [(t, this, args)] (Debounce.init w) =
      Debounce.armed 1 (t + wait) args w := by
    have h0 : (Debounce.init w : Debounce.State α σ).timers.length = 0 := rfl
    rw [Debounce.handleCalls, h0]
    simp only [Debounce.runTimers]
    rw [Debounce.executedFunction_init]
    rfl
  have hs := Debounce.settle_armed func 1 (t + wait) args w
  rw [hf] at hs
  rw [debounce, h]
  exact ⟨hs.2.2.2, hs.2.2.1⟩

theorem SiteOptimized.displayInput_undefined (setValue : String → String → JSNumber → String)
    (a : Unit) (s : SliderPair) :
    SiteOptimized.displayInput setValue Receiver.undefined a s =
      Except.error JSError.typeError := rfl

theorem BusinessLoans.displayInput_undefined_loan
    (setValue : String → String → JSNumber → String) (a : Unit) (s : SliderPair) :
    BusinessLoans.displayInput setValue Receiver.undefined a s =
      Except.error JSError.typeError := rfl

/-- C18: `debounce` calls `func` as `func(...args)`, without a receiver, so in the strict-mode
scripts `this` is `undefined` in the display listeners of `initRangeSliders` and
`initLoanSlider`; reading `this.value` they throw a `TypeError` each time the timer fires
and never assign `slider.value` (nor anything else), whatever texts were edited. -/
theorem display_listeners_throw_type_error (setValue : String → String → JSNumber → String)
    (calls : List (ℕ × Receiver × Unit)) (s : SliderPair) (t : ℕ) (text : String) :
    (∀ func other : PageFunction Unit SliderPair,
      (∀ a w, func Receiver.undefined a w = other Receiver.undefined a w) →
      debounce func 300 calls s = debounce other 300 calls s) ∧
    SiteOptimized.displayInput setValue Receiver.undefined () s =
      Except.error JSError.typeError ∧
    BusinessLoans.displayInput setValue Receiver.undefined () s =
      Except.error JSError.typeError ∧
    (debounce (SiteOptimized.displayInput setValue) 300 calls s).world = s ∧
    (debounce (BusinessLoans.displayInput setValue) 300 calls s).world = s ∧
    (debounce (SiteOptimized.displayInput setValue) 300 calls s).errors.map Prod.fst =
      (debounce (SiteOptimized.displayInput setValue) 300 calls s).invoked.map Prod.fst ∧
    (debounce (BusinessLoans.displayInput setValue) 300 calls s).errors.map Prod.fst =
      (debounce (BusinessLoans.displayInput setValue) 300 calls s).invoked.map Prod.fst ∧
    (∀ x ∈ (debounce (SiteOptimized.displayInput setValue) 300 calls s).errors,
      x.2 = JSError.typeError) ∧
    (∀ x ∈ (debounce (BusinessLoans.displayInput setValue) 300 calls s).errors,
      x.2 = JSError.typeError) ∧
    (debounce (SiteOptimized.displayInput setValue) 300 [(t, Receiver.element text, ())]
      s).errors = [(t + 300, JSError.typeError)] ∧
    (debounce (BusinessLoans.displayInput setValue) 300 [(t, Receiver.element text, ())]
      s).errors = [(t + 300, JSError.typeError)] := by
  have hs := debounce_of_throwing (SiteOptimized.displayInput setValue) JSError.typeError
    (fun a w => SiteOptimized.displayInput_undefined setValue a w) 300 calls s
  have hl := debounce_of_throwing (BusinessLoans.displayInput setValue) JSError.typeError
    (fun a w => BusinessLoans.displayInput_undefined_loan setValue a w) 300 calls s
  exact ⟨fun func other h => debounce_congr_undefined func other h 300 calls s, rfl, rfl, hs.1, hl.1, hs.2.1, hl.2.1, hs.2.2, hl.2.2,
    (debounce_single_of_throwing _ _
      (fun a w => SiteOptimized.displayInput_undefined setValue a w) 300 t _ () s).1,
    (debounce_single_of_throwing _ _
      (fun a w => BusinessLoans.displayInput_undefined_loan setValue a w) 300 t _ () s).1⟩


/-! ## Edits of the display text -/

theorem parseNumber_50 : SiteOptimized.parseNumber "50" = fin 50 := by
  rw [show SiteOptimized.parseNumber "50" =
    fin (((50 : ℕ) : ℚ) * 10 ^ ((0 : ℤ) - ((0 : ℕ) : ℤ))) from rfl]
  norm_num

theorem parseNumber_500 : SiteOptimized.parseNumber "500" = fin 500 := by
  rw [show SiteOptimized.parseNumber "500" =
    fin (((500 : ℕ) : ℚ) * 10 ^ ((0 : ℤ) - ((0 : ℕ) : ℤ))) from rfl]
  norm_num

theorem parseFloat_0 : parseFloat "0" = fin 0 := by
  rw [show parseFloat "0" = fin (((0 : ℕ) : ℚ) * 10 ^ ((0 : ℤ) - ((0 : ℕ) : ℤ))) from rfl]
  norm_num

theorem parseFloat_100 : parseFloat "100" = fin 100 := by
  rw [show parseFloat "100" = fin (((100 : ℕ) : ℚ) * 10 ^ ((0 : ℤ) - ((0 : ℕ) : ℤ))) from rfl]
  norm_num

theorem parseInt_50 : parseInt "50" = fin 50 := by
  rw [show parseInt "50" = fin ((50 : ℕ) : ℚ) from rfl]
  norm_num

theorem parseInt_20000 : parseInt "20000" = fin 20000 := by
  rw [show parseInt "20000" = fin ((20000 : ℕ) : ℚ) from rfl]
  norm_num

theorem ge_fin (a b : ℚ) : ge (fin a) (fin b) = decide (b ≤ a) := rfl

/-- The listener of `initRangeSliders` called with the display as receiver, on the text
`50` and a control from 0 to 100: the value is assigned and `updateSlider` is called. -/
theorem SiteOptimized.displayInput_50 (setValue : String → String → JSNumber → String) :
    SiteOptimized.displayInput setValue (Receiver.element "50") ()
        ⟨"10", "0", "100", "10%", "10", 0, 0⟩ =
      Except.ok ⟨setValue "0" "100" (fin 50), "0", "100", "10%", "10", 0, 1⟩ := by
  simp only [SiteOptimized.displayInput, parseNumber_50, parseFloat_0, parseFloat_100, ge_fin,
    le_fin]
  norm_num

/-- C13, the code at a failing input: the control goes from 0 to 100 and the display text is
edited to `50`, a value within the range.  When the timer fires the listener is called
without a receiver and throws a `TypeError`; the value of the control stays `10` and
`updateSlider` is not called, although the listener called on the display would assign the
value and call `updateSlider`. -/
theorem range_display_edit_within_range_is_lost
    (setValue : String → String → JSNumber → String) :
    ge (SiteOptimized.parseNumber "50") (parseFloat "0") = true ∧
    le (SiteOptimized.parseNumber "50") (parseFloat "100") = true ∧
    (debounce (SiteOptimized.displayInput setValue) 300 [(0, Receiver.element "50", ())]
      ⟨"10", "0", "100", "10%", "10", 0, 0⟩).world = ⟨"10", "0", "100", "10%", "10", 0, 0⟩ ∧
    (debounce (SiteOptimized.displayInput setValue) 300 [(0, Receiver.element "50", ())]
      ⟨"10", "0", "100", "10%", "10", 0, 0⟩).errors = [(300, JSError.typeError)] ∧
    SiteOptimized.displayInput setValue (Receiver.element "50") ()
        ⟨"10", "0", "100", "10%", "10", 0, 0⟩ =
      Except.ok ⟨setValue "0" "100" (fin 50), "0", "100", "10%", "10", 0, 1⟩ := by
  have h := debounce_single_of_throwing (SiteOptimized.displayInput setValue)
    JSError.typeError (fun a w => SiteOptimized.displayInput_undefined setValue a w) 300 0
    (Receiver.element "50") () ⟨"10", "0", "100", "10%", "10", 0, 0⟩
  refine ⟨?_, ?_, h.2, h.1, SiteOptimized.displayInput_50 setValue⟩
  · rw [parseNumber_50, parseFloat_0, ge_fin]
    norm_num
  · rw [parseNumber_50, parseFloat_100, le_fin]
    norm_num

/-- C14, the code at a failing input: the control goes from 0 to 100 and the display text is
edited to `500`, a value outside the range.  The control, the fill, the display and the
events are left as they were, but when the timer fires a `TypeError` is thrown, in both
scripts. -/
theorem range_display_edit_outside_range_throws
    (setValue : String → String → JSNumber → String) :
    le (SiteOptimized.parseNumber "500") (parseFloat "100") = false ∧
    (debounce (SiteOptimized.displayInput setValue) 300 [(0, Receiver.element "500", ())]
      ⟨"10", "0", "100", "10%", "10", 0, 0⟩).world = ⟨"10", "0", "100", "10%", "10", 0, 0⟩ ∧
    (debounce (SiteOptimized.displayInput setValue) 300 [(0, Receiver.element "500", ())]
      ⟨"10", "0", "100", "10%", "10", 0, 0⟩).errors = [(300, JSError.typeError)] ∧
    (debounce (BusinessLoans.displayInput setValue) 300 [(0, Receiver.element "500", ())]
      ⟨"10", "0", "100", "10%", "10", 0, 0⟩).world = ⟨"10", "0", "100", "10%", "10", 0, 0⟩ ∧
    (debounce (BusinessLoans.displayInput setValue) 300 [(0, Receiver.element "500", ())]
      ⟨"10", "0", "100", "10%", "10", 0, 0⟩).errors = [(300, JSError.typeError)] := by
  have h := debounce_single_of_throwing (SiteOptimized.displayInput setValue)
    JSError.typeError (fun a w => SiteOptimized.displayInput_undefined setValue a w) 300 0
    (Receiver.element "500") () ⟨"10", "0", "100", "10%", "10", 0, 0⟩
  have hl := debounce_single_of_throwing (BusinessLoans.displayInput setValue)
    JSError.typeError (fun a w => BusinessLoans.displayInput_undefined_loan setValue a w) 300 0
    (Receiver.element "500") () ⟨"10", "0", "100", "10%", "10", 0, 0⟩
  refine ⟨?_, h.2, h.1, hl.2, hl.1⟩
  rw [parseNumber_500, parseFloat_100, le_fin]
  norm_num

/-- The value the listener of `initLoanSlider` reads from a text. -/
theorem BusinessLoans.displayInput_eq (setValue : String → String → JSNumber → String)
    (text : String) (s : SliderPair) :
    BusinessLoans.displayInput setValue (Receiver.element text) () s =
      if ge (orZero (parseInt (String.mk (removeWhiteSpace text.data)))) (fin 10000) &&
          le (orZero (parseInt (String.mk (removeWhiteSpace text.data)))) (fin 30000000) then
        Except.ok { s with
          value := setValue s.min s.max
            (orZero (parseInt (String.mk (removeWhiteSpace text.data)))),
          updateCalls := s.updateCalls + 1 }
      else Except.ok s := rfl

/-- With a control from 0 to 100 the listener of `initLoanSlider` does not accept the text
`50`, whatever the setter of the control does. -/
theorem BusinessLoans.displayInput_rejects_50
    (setValue : String → String → JSNumber → String) :
    orZero (parseInt (String.mk (removeWhiteSpace "50".data))) = fin 50 ∧
    ge (fin 50) (parseFloat "0") = true ∧ le (fin 50) (parseFloat "100") = true ∧
    BusinessLoans.displayInput setValue (Receiver.element "50") ()
        ⟨"10", "0", "100", "10%", "10", 0, 0⟩ =
      Except.ok ⟨"10", "0", "100", "10%", "10", 0, 0⟩ ∧
    (debounce (BusinessLoans.displayInput setValue) 300 [(0, Receiver.element "50", ())]
      ⟨"10", "0", "100", "10%", "10", 0, 0⟩).world = ⟨"10", "0", "100", "10%", "10", 0, 0⟩ := by
  have hv : orZero (parseInt (String.mk (removeWhiteSpace "50".data))) = fin 50 := by
    rw [show String.mk (removeWhiteSpace "50".data) = "50" from by decide, parseInt_50]
    rfl
  have hl := debounce_single_of_throwing (BusinessLoans.displayInput setValue)
    JSError.typeError (fun a w => BusinessLoans.displayInput_undefined_loan setValue a w) 300 0
    (Receiver.element "50") () ⟨"10", "0", "100", "10%", "10", 0, 0⟩
  refine ⟨hv, ?_, ?_, ?_, hl.2⟩
  · rw [parseFloat_0, ge_fin]; norm_num
  · rw [parseFloat_100, le_fin]; norm_num
  · rw [BusinessLoans.displayInput_eq, hv, ge_fin, le_fin]
    norm_num

/-- C16, amended: the listener of `initLoanSlider`, called on the display, does not consult
`min` and `max` of the control: it accepts the edit exactly when the value read by
`parseInt` from the text without white space (0 when that is `NaN`) lies between the fixed
bounds 10000 and 30000000; an accepted value is assigned to the control and `updateSlider`
is called. -/
theorem loan_display_edit_accepted_within_fixed_bounds
    (setValue : String → String → JSNumber → String) (text : String) (s : SliderPair) :
    (BusinessLoans.displayInput setValue (Receiver.element text) () s ≠ Except.ok s ↔
      ∃ q : ℚ, orZero (parseInt (String.mk (removeWhiteSpace text.data))) = fin q ∧
        10000 ≤ q ∧ q ≤ 30000000) ∧
    (BusinessLoans.displayInput setValue (Receiver.element text) () s ≠ Except.ok s →
      BusinessLoans.displayInput setValue (Receiver.element text) () s =
        Except.ok { s with
          value := setValue s.min s.max
            (orZero (parseInt (String.mk (removeWhiteSpace text.data)))),
          updateCalls := s.updateCalls + 1 }) := by
  rw [BusinessLoans.displayInput_eq]
  generalize orZero (parseInt (String.mk (removeWhiteSpace text.data))) = v
  have hne : ∀ val : String,
      (Except.ok { s with value := val, updateCalls := s.updateCalls + 1 } :
        Except JSError SliderPair) ≠ Except.ok s := by
    intro val h
    have := congrArg (fun r => match r with
      | Except.ok (x : SliderPair) => x.updateCalls
      | Except.error _ => 0) h
    simp at this
  by_cases hc : (ge v (fin 10000) && le v (fin 30000000)) = true
  · rw [if_pos hc]
    refine ⟨⟨fun _ => ?_, fun _ => hne _⟩, fun _ => rfl⟩
    cases v with
    | nan => simp [ge, le] at hc
    | negInf => simp [ge, le] at hc
    | posInf => simp [ge, le] at hc
    | fin q =>
      simp only [ge_fin, le_fin, Bool.and_eq_true, decide_eq_true_eq] at hc
      exact ⟨q, rfl, hc.1, hc.2⟩
  · rw [if_neg hc]
    refine ⟨⟨fun h => absurd rfl h, fun ⟨q, hq, h1, h2⟩ => ?_⟩, fun h => absurd rfl h⟩
    rw [hq] at hc
    simp only [ge_fin, le_fin, Bool.and_eq_true, decide_eq_true_eq, not_and] at hc
    exact absurd h2 (hc h1)

/-- C16, refuted as stated: with a control from 0 to 100 the text `50` lies within the range
of the control, yet the listener of `initLoanSlider` does not accept it, neither when it is
called on the display nor when it is called through `debounce` (the setter of the control,
here one that would store the text `50`, is never reached). -/
theorem loan_display_edit_within_control_range_is_rejected :
    orZero (parseInt (String.mk (removeWhiteSpace "50".data))) = fin 50 ∧
    ge (fin 50) (parseFloat "0") = true ∧ le (fin 50) (parseFloat "100") = true ∧
    BusinessLoans.displayInput (fun _ _ _ => "50") (Receiver.element "50") ()
        ⟨"10", "0", "100", "10%", "10", 0, 0⟩ =
      Except.ok ⟨"10", "0", "100", "10%", "10", 0, 0⟩ ∧
    (debounce (BusinessLoans.displayInput (fun _ _ _ => "50")) 300
      [(0, Receiver.element "50", ())]
      ⟨"10", "0", "100", "10%", "10", 0, 0⟩).world = ⟨"10", "0", "100", "10%", "10", 0, 0⟩ :=
  BusinessLoans.displayInput_rejects_50 (fun _ _ _ => "50")

/-- Witness of C16 (amended): the text `20 000` is accepted whatever the range of the
control (the setter of the control here stores the text `20000`). -/
theorem loan_display_edit_accepted_within_fixed_bounds_witness :
    (∃ q : ℚ, orZero (parseInt (String.mk (removeWhiteSpace "20 000".data))) = fin q ∧
        10000 ≤ q ∧ q ≤ 30000000) ∧
    BusinessLoans.displayInput (fun _ _ _ => "20000") (Receiver.element "20 000") ()
        ⟨"10", "0", "100", "10%", "10", 0, 0⟩ =
      Except.ok ⟨"20000", "0", "100", "10%", "10", 0, 1⟩ := by
  have hq : ∃ q : ℚ, orZero (parseInt (String.mk (removeWhiteSpace "20 000".data))) = fin q ∧
      10000 ≤ q ∧ q ≤ 30000000 := by
    refine ⟨20000, ?_, by norm_num, by norm_num⟩
    rw [show String.mk (removeWhiteSpace "20 000".data) = "20000" from by decide,
      parseInt_20000]
    rfl
  have h := loan_display_edit_accepted_within_fixed_bounds (fun _ _ _ => "20000") "20 000"
    ⟨"10", "0", "100", "10%", "10", 0, 0⟩
  exact ⟨hq, h.2 (h.1.mpr hq)⟩


/-! ## The two calculators compared; runs compared -/

/-- Without decimals `formatNumber` prints every Number. -/
theorem SiteOptimized.formatNumber_zero_isSome (x : JSNumber) :
    ∃ s, SiteOptimized.formatNumber x 0 = some s := by
  rw [SiteOptimized.formatNumber_eq, if_neg (by omega)]
  have h : ∃ t, Number.toString (Math.round x) = some t := by
    cases x with
    | nan => exact ⟨_, rfl⟩
    | negInf => exact ⟨_, rfl⟩
    | posInf => exact ⟨_, rfl⟩
    | fin q =>
      show ∃ t, Number.toString (fin ((⌊q + 1 / 2⌋ : ℤ) : ℚ)) = some t
      generalize ⌊q + 1 / 2⌋ = z
      have hsig : ∀ y : ℤ, ∃ se, significand ((y : ℤ) : ℚ) = some se :=
        fun y => significand_isSome _ 0 (by omega) (by simp)
      unfold Number.toString
      dsimp only
      by_cases h0 : ((z : ℤ) : ℚ) = 0
      · exact ⟨_, by rw [if_pos h0]⟩
      · rw [if_neg h0]
        by_cases hneg : ((z : ℤ) : ℚ) < 0
        · obtain ⟨se, hse⟩ := hsig (-z)
          rw [if_pos hneg]
          rw [Int.cast_neg] at hse
          exact ⟨_, by rw [hse, Option.map_some']⟩
        · obtain ⟨se, hse⟩ := hsig z
          rw [if_neg hneg]
          exact ⟨_, by rw [hse, Option.map_some']⟩
  obtain ⟨t, ht⟩ := h
  exact ⟨_, by rw [ht, Option.map_some']⟩

theorem setText_of_isSome (el : Option String) (t : String) (h : el.isSome = true) :
    setText el t = some t := by
  cases el with
  | none => cases h
  | some _ => rfl

theorem setTextWith_of_isSome (el : Option String) (t : Option String)
    (h : el.isSome = true) : setTextWith el t = t.map some := by
  cases el with
  | none => cases h
  | some _ => rfl

theorem setText_congr (a b : Option String) (t : String) (h : a.isSome = b.isSome) :
    setText a t = setText b t := by
  cases a <;> cases b <;> simp_all [setText]

theorem setTextWith_congr (a b : Option String) (t : Option String)
    (h : a.isSome = b.isSome) : setTextWith a t = setTextWith b t := by
  cases a <;> cases b <;> simp_all [setTextWith]

/-- C15: the two calculators are equivalent.  For every triple of input texts `calculate`
(on a block with its three output elements) and `calculateLoan` (on a page with its four
output elements) write the same monthly-payment, total-payment and total-interest texts,
and the `formatNumber` and `parseNumber` local to `initLoanCalculator` agree with the
site-wide ones on every argument. -/
theorem calculators_are_equivalent (amount rate term : String)
    (d : SiteOptimized.Displays) (ld : BusinessLoans.LoanDisplays) (num : JSNumber)
    (decimals : ℕ) (str : String)
    (hm : d.monthly.isSome = true) (ht : d.total.isSome = true)
    (hi : d.interest.isSome = true) (hld : ld.complete = true) :
    (SiteOptimized.calculate amount rate term d).map
        (fun o => (o.monthly, o.total, o.interest)) =
      (BusinessLoans.calculateLoan amount rate term ld).map
        (fun o => (o.monthlyPayment, o.totalPayment, o.totalInterest)) ∧
    BusinessLoans.formatNumber num decimals = SiteOptimized.formatNumber num decimals ∧
    BusinessLoans.parseNumber str = SiteOptimized.parseNumber str := by
  refine ⟨?_, rfl, rfl⟩
  unfold SiteOptimized.calculate BusinessLoans.calculateLoan
  simp only [BusinessLoans.parseNumber_eq_site, hld, Bool.not_true, Bool.false_eq_true,
    if_false]
  split
  · simp only [Option.map_some', setText_of_isSome _ _ hm, setText_of_isSome _ _ ht,
      setText_of_isSome _ _ hi]
  · show (Option.bind (SiteOptimized.calculateFigures _ _ _) _).map _ =
      (Option.bind (SiteOptimized.calculateFigures _ _ _) _).map _
    cases SiteOptimized.calculateFigures (orZero (SiteOptimized.parseNumber amount))
      (orZero (SiteOptimized.parseNumber rate)) (orZero (SiteOptimized.parseNumber term)) with
    | none => rfl
    | some v =>
      obtain ⟨a, ha⟩ := SiteOptimized.formatNumber_zero_isSome
        (orZero (SiteOptimized.parseNumber amount))
      simp only [Option.some_bind, SiteOptimized.calculateFrame,
        BusinessLoans.calculateLoanFrame, BusinessLoans.formatNumber_eq_site,
        setTextWith_of_isSome _ _ hm, setTextWith_of_isSome _ _ ht,
        setTextWith_of_isSome _ _ hi, ha]
      cases SiteOptimized.formatNumber v.monthlyPayment 2 <;>
        cases SiteOptimized.formatNumber v.totalPayment 2 <;>
        cases SiteOptimized.formatNumber v.totalInterest 2 <;> rfl

/-- Witness of C15 at the inputs `100000`, `5` and `12`. -/
theorem calculators_are_equivalent_witness :
    (SiteOptimized.calculate "100000" "5" "12" ⟨some "", some "", some ""⟩).map
        (fun o => (o.monthly, o.total, o.interest)) =
      (BusinessLoans.calculateLoan "100000" "5" "12" ⟨some "", some "", some "", some ""⟩).map
        (fun o => (o.monthlyPayment, o.totalPayment, o.totalInterest)) ∧
    BusinessLoans.formatNumber (fin 1234567) 0 = SiteOptimized.formatNumber (fin 1234567) 0 ∧
    BusinessLoans.parseNumber "1 234,5" = SiteOptimized.parseNumber "1 234,5" :=
  calculators_are_equivalent "100000" "5" "12" ⟨some "", some "", some ""⟩
    ⟨some "", some "", some "", some ""⟩ (fin 1234567) 0 "1 234,5" rfl rfl rfl rfl

/-- C17: a calculator run is a function of the three input texts: two runs on the same
texts write the same output texts whatever the output elements showed before (on pages with
the same output elements; `calculateLoan` with its four output elements). -/
theorem calculation_is_pure (amount rate term : String)
    (d₁ d₂ : SiteOptimized.Displays) (ld₁ ld₂ : BusinessLoans.LoanDisplays)
    (hm : d₁.monthly.isSome = d₂.monthly.isSome) (ht : d₁.total.isSome = d₂.total.isSome)
    (hi : d₁.interest.isSome = d₂.interest.isSome)
    (h₁ : ld₁.complete = true) (h₂ : ld₂.complete = true) :
    SiteOptimized.calculate amount rate term d₁ = SiteOptimized.calculate amount rate term d₂ ∧
    BusinessLoans.calculateLoan amount rate term ld₁ =
      BusinessLoans.calculateLoan amount rate term ld₂ := by
  constructor
  · simp only [SiteOptimized.calculate, SiteOptimized.calculateFrame,
      setText_congr _ _ _ hm, setText_congr _ _ _ ht, setText_congr _ _ _ hi,
      setTextWith_congr _ _ _ hm, setTextWith_congr _ _ _ ht, setTextWith_congr _ _ _ hi]
  · simp only [BusinessLoans.calculateLoan, h₁, h₂, Bool.not_true, Bool.false_eq_true,
      if_false]

/-- Witness of C17: the same inputs over two different previous displays. -/
theorem calculation_is_pure_witness :
    SiteOptimized.calculate "100000" "5" "12" ⟨some "", some "1 kr", none⟩ =
      SiteOptimized.calculate "100000" "5" "12" ⟨some "0 kr", some "", none⟩ ∧
    BusinessLoans.calculateLoan "100000" "5" "12" ⟨some "", some "", some "", some ""⟩ =
      BusinessLoans.calculateLoan "100000" "5" "12"
        ⟨some "0 kr", some "7", some "x", some "y"⟩ :=
  calculation_is_pure "100000" "5" "12" ⟨some "", some "1 kr", none⟩
    ⟨some "0 kr", some "", none⟩ ⟨some "", some "", some "", some ""⟩
    ⟨some "0 kr", some "7", some "x", some "y"⟩ rfl rfl rfl rfl rfl

/-! ## The divisor of the payment formula -/

theorem le_zero_eq_false_iff (x : JSNumber) (hx : x ≠ nan) (h : le x (fin 0) = false) :
    x = posInf ∨ ∃ q : ℚ, x = fin q ∧ 0 < q := by
  cases x with
  | nan => exact absurd rfl hx
  | negInf => simp [le] at h
  | posInf => exact Or.inl rfl
  | fin q =>
    simp only [le_fin, decide_eq_false_iff_not, not_le] at h
    exact Or.inr ⟨q, rfl, h⟩

theorem monthlyRate_cases (annualRate : JSNumber) (hx : annualRate ≠ nan)
    (h : le annualRate (fin 0) = false) :
    add (fin 1) (div (div annualRate (fin 100)) (fin 12)) = posInf ∨
    ∃ b : ℚ, add (fin 1) (div (div annualRate (fin 100)) (fin 12)) = fin b ∧ 1 < b := by
  rcases le_zero_eq_false_iff annualRate hx h with h | ⟨r, hr, hr0⟩
  · left
    rw [h]
    norm_num [div, inf, add]
  · right
    refine ⟨1 + r / 100 / 12, ?_, ?_⟩
    · rw [hr, div_fin _ _ (by norm_num), div_fin _ _ (by norm_num), add_fin]
    · have : 0 < r / 100 / 12 := by positivity
      linarith

/-- In exact real arithmetic the divisor is positive for a positive rate and a positive
number of months, whole or fractional. -/
theorem specDivisorOver_pos (r t : ℝ) (hr : 0 < r) (ht : 0 < t) :
    0 < specDivisorOver (fun b e : ℝ => b ^ e) r t := by
  have hb : (1 : ℝ) < 1 + r / 100 / 12 := by
    have : 0 < r / 100 / 12 := by positivity
    linarith
  have h := Real.one_lt_rpow hb ht
  simp only [specDivisorOver]
  linarith

/-- With an infinite rate or an infinite number of months past the guard, the power and the
divisor are `Infinity`. -/
theorem divisor_of_infinite (annualRate months : JSNumber) (hr : annualRate ≠ nan)
    (hm : months ≠ nan) (hgr : le annualRate (fin 0) = false)
    (hgm : le months (fin 0) = false) (hinf : annualRate = posInf ∨ months = posInf) :
    ∃ pw, Math.pow (add (fin 1) (div (div annualRate (fin 100)) (fin 12))) months = some pw ∧
      sub pw (fin 1) = posInf := by
  rcases le_zero_eq_false_iff months hm hgm with hmonths | ⟨m, hmonths, hm0⟩
  · rcases monthlyRate_cases annualRate hr hgr with hb | ⟨b, hb, hb1⟩
    · rw [hb, hmonths]
      exact ⟨posInf, rfl, rfl⟩
    · rw [hb, hmonths]
      have hb0 : b ≠ 0 := by linarith
      have habs : 1 < |b| := by rw [abs_of_pos (by linarith)]; exact hb1
      refine ⟨posInf, ?_, rfl⟩
      simp only [Math.pow, hb0, habs, if_false, if_true]
  · rcases hinf with hinf | hinf
    · rw [hinf, hmonths]
      refine ⟨posInf, ?_, rfl⟩
      have hbase : add (fin 1) (div (div posInf (fin 100)) (fin 12)) = posInf := by
        norm_num [div, inf, add]
      rw [hbase]
      simp only [Math.pow, hm0.ne.symm, hm0, if_false, if_true]
    · rw [hmonths] at hinf
      cases hinf

/-- C19: the division of the payment formula is guarded.  Whenever the inputs pass the check
(none of principal, annual rate and months is `<= 0`), the rate and the months are positive
numbers or `Infinity`.  For a positive rate and positive months, whole or fractional, the
divisor `(1 + monthlyRate)^months - 1` by which both calculators divide is strictly positive
in exact real arithmetic (for whole months it is the positive rational that `Math.pow`
gives, less one); with an infinite rate or infinite months the divisor is `Infinity`.  So the
payment is never a division by zero. -/
theorem payment_divisor_is_positive (principal annualRate months : JSNumber)
    (hp : principal ≠ nan) (hr : annualRate ≠ nan) (hm : months ≠ nan)
    (hguard : (le principal (fin 0) || le annualRate (fin 0) || le months (fin 0)) = false) :
    ((∃ r : ℚ, annualRate = fin r ∧ 0 < r) ∨ annualRate = posInf) ∧
    ((∃ t : ℚ, months = fin t ∧ 0 < t) ∨ months = posInf) ∧
    (∀ r t : ℚ, annualRate = fin r → months = fin t →
      (0 : ℝ) < specDivisorOver (fun b e : ℝ => b ^ e) (r : ℝ) (t : ℝ) ∧
      (∀ p : ℝ,
        (SiteOptimized.calculateFiguresOver (fun b e : ℝ => b ^ e) p r t).monthlyPayment =
          p * ((r : ℝ) / 100 / 12 * (1 + (r : ℝ) / 100 / 12) ^ (t : ℝ)) /
            specDivisorOver (fun b e : ℝ => b ^ e) (r : ℝ) (t : ℝ) ∧
        (BusinessLoans.calculateLoanFiguresOver (fun b e : ℝ => b ^ e) p r t).monthlyPayment =
          p * ((r : ℝ) / 100 / 12 * (1 + (r : ℝ) / 100 / 12) ^ (t : ℝ)) /
            specDivisorOver (fun b e : ℝ => b ^ e) (r : ℝ) (t : ℝ)) ∧
      ∀ n : ℕ, t = n →
        Math.pow (add (fin 1) (div (div annualRate (fin 100)) (fin 12))) months =
          some (fin ((1 + r / 100 / 12) ^ n)) ∧
        (0 : ℚ) < (1 + r / 100 / 12) ^ n - 1) ∧
    (annualRate = posInf ∨ months = posInf →
      ∃ pw, Math.pow (add (fin 1) (div (div annualRate (fin 100)) (fin 12))) months = some pw ∧
        sub pw (fin 1) = posInf) := by
  have := hp
  simp only [Bool.or_eq_false_iff] at hguard
  obtain ⟨⟨_, hgr⟩, hgm⟩ := hguard
  have hrate := le_zero_eq_false_iff annualRate hr hgr
  have hmonths := le_zero_eq_false_iff months hm hgm
  refine ⟨?_, ?_, ?_, divisor_of_infinite annualRate months hr hm hgr hgm⟩
  · rcases hrate with h | ⟨q, hq, hq0⟩
    · exact Or.inr h
    · exact Or.inl ⟨q, hq, hq0⟩
  · rcases hmonths with h | ⟨q, hq, hq0⟩
    · exact Or.inr h
    · exact Or.inl ⟨q, hq, hq0⟩
  · intro r t hrq htq
    have hr0 : 0 < r := by
      rcases hrate with h | ⟨q, hq, hq0⟩
      · rw [hrq] at h; cases h
      · rw [hrq] at hq; injection hq with hq; rw [hq]; exact hq0
    have ht0 : 0 < t := by
      rcases hmonths with h | ⟨q, hq, hq0⟩
      · rw [htq] at h; cases h
      · rw [htq] at hq; injection hq with hq; rw [hq]; exact hq0
    refine ⟨specDivisorOver_pos r t (by exact_mod_cast hr0) (by exact_mod_cast ht0),
      fun p => ⟨rfl, rfl⟩, ?_⟩
    intro n hn
    subst hn
    have hn0 : 0 < n := by exact_mod_cast ht0
    have hb : (1 + r / 100 / 12) ≠ 0 := by
      have : 0 < r / 100 / 12 := by positivity
      linarith
    refine ⟨?_, growth_sub_one_pos r n hr0 hn0⟩
    rw [hrq, htq, div_fin _ _ (by norm_num), div_fin _ _ (by norm_num), add_fin,
      pow_fin_nat _ _ hb hn0]

/-- Witness of C19 for 100000 at 5 % over 12.5 months. -/
theorem payment_divisor_is_positive_witness :
    (le (fin 100000) (fin 0) || le (fin 5) (fin 0) || le (fin (25 / 2)) (fin 0)) = false ∧
    (0 : ℝ) < specDivisorOver (fun b e : ℝ => b ^ e) ((5 : ℚ) : ℝ) ((25 / 2 : ℚ) : ℝ) := by
  have hg : (le (fin 100000) (fin 0) || le (fin 5) (fin 0) ||
      le (fin (25 / 2)) (fin 0)) = false := by
    simp only [le_fin]
    norm_num
  exact ⟨hg, ((payment_divisor_is_positive (fin 100000) (fin 5) (fin (25 / 2))
    (by simp) (by simp) (by simp) hg).2.2.1 5 (25 / 2) rfl rfl).1⟩

/-! ## Sorting the rows of a table -/

theorem orderedInsert_perm {α : Type} (before : α → α → Bool) (x : α) (l : List α) :
    (orderedInsert before x l).Perm (x :: l) := by
  induction l with
  | nil => exact List.Perm.refl _
  | cons y ys ih =>
    rw [orderedInsert]
    split
    · exact List.Perm.refl _
    · exact (List.Perm.cons y ih).trans (List.Perm.swap x y ys)

theorem arraySort_perm {α : Type} (comparefn : α → α → JSNumber) (l : List α) :
    (arraySort comparefn l).Perm l := by
  induction l with
  | nil => exact List.Perm.refl _
  | cons x xs ih =>
    rw [arraySort]
    exact (orderedInsert_perm _ x _).trans (List.Perm.cons x ih)

/-- Putting an element into a sorted list keeps it sorted, when `before` decides a total
and transitive order on the elements at hand. -/
theorem orderedInsert_pairwise {α : Type} (before : α → α → Bool) (r : α → α → Prop)
    (p : α → Prop) (hbefore : ∀ a b, p a → p b → (before a b = true ↔ r a b))
    (htotal : ∀ a b, p a → p b → r a b ∨ r b a) (htrans : ∀ a b c, r a b → r b c → r a c)
    (x : α) (hx : p x) :
    ∀ l : List α, (∀ y ∈ l, p y) → l.Pairwise r → (orderedInsert before x l).Pairwise r := by
  intro l
  induction l with
  | nil => intro _ _; exact List.pairwise_singleton r x
  | cons y ys ih =>
    intro hl hs
    have hy : p y := hl y (List.mem_cons_self y ys)
    have hys : ∀ z ∈ ys, p z := fun z hz => hl z (List.mem_cons_of_mem y hz)
    rw [List.pairwise_cons] at hs
    rw [orderedInsert]
    split
    next hb =>
      have hxy : r x y := (hbefore x y hx hy).mp hb
      refine List.pairwise_cons.mpr ⟨?_, List.pairwise_cons.mpr hs⟩
      intro z hz
      rcases List.mem_cons.mp hz with hz | hz
      · rw [hz]; exact hxy
      · exact htrans x y z hxy (hs.1 z hz)
    next hb =>
      have hyx : r y x := by
        rcases htotal x y hx hy with h | h
        · exact absurd ((hbefore x y hx hy).mpr h) hb
        · exact h
      refine List.pairwise_cons.mpr ⟨?_, ih hys hs.2⟩
      intro z hz
      rcases List.mem_cons.mp ((orderedInsert_perm before x ys).mem_iff.mp hz) with hz | hz
      · rw [hz]; exact hyx
      · exact hs.1 z hz

theorem arraySort_pairwise {α : Type} (comparefn : α → α → JSNumber) (r : α → α → Prop)
    (p : α → Prop)
    (hbefore : ∀ a b, p a → p b → (notPositive (comparefn a b) = true ↔ r a b))
    (htotal : ∀ a b, p a → p b → r a b ∨ r b a) (htrans : ∀ a b c, r a b → r b c → r a c) :
    ∀ l : List α, (∀ y ∈ l, p y) → (arraySort comparefn l).Pairwise r := by
  intro l
  induction l with
  | nil => intro _; exact List.Pairwise.nil
  | cons x xs ih =>
    intro hl
    rw [arraySort]
    refine orderedInsert_pairwise _ r p hbefore htotal htrans x
      (hl x (List.mem_cons_self x xs)) _ ?_
      (ih fun y hy => hl y (List.mem_cons_of_mem x hy))
    intro y hy
    exact hl y (List.mem_cons_of_mem x ((arraySort_perm comparefn xs).mem_iff.mp hy))

/-- A difference of two numbers is not positive exactly when the first is `<=` the second;
the `NaN` that two equal infinities give counts as zero. -/
theorem notPositive_sub (a b : JSNumber) (ha : a ≠ nan) (hb : b ≠ nan) :
    notPositive (sub a b) = le a b := by
  cases a <;> cases b <;> first
    | exact absurd rfl ha
    | exact absurd rfl hb
    | rfl
    | (simp only [sub_fin, notPositive, le_fin, sub_nonpos])

theorem le_total_of_ne_nan (a b : JSNumber) (ha : a ≠ nan) (hb : b ≠ nan) :
    le a b = true ∨ le b a = true := by
  cases a <;> cases b <;> first
    | exact absurd rfl ha
    | exact absurd rfl hb
    | exact Or.inl rfl
    | exact Or.inr rfl
    | (simp only [le_fin, decide_eq_true_eq]; exact le_total _ _)

theorem le_trans_number (a b c : JSNumber) (hab : le a b = true) (hbc : le b c = true) :
    le a c = true := by
  cases a <;> cases b <;> cases c <;> simp_all [le]
  exact le_trans hab hbc

namespace SiteOptimized

/-- The comparison of two rows that both show a number at `index`. -/
theorem compareRows_numeric (localeCompare : String → String → JSNumber) (isAscending : Bool)
    (index : ℕ) (a b : List Cell) (ha : columnKey index a ≠ nan) (hb : columnKey index b ≠ nan) :
    compareRows localeCompare isAscending index a b =
      if isAscending then sub (columnKey index b) (columnKey index a)
      else sub (columnKey index a) (columnKey index b) := by
  unfold columnKey at ha hb
  simp only [compareRows, columnKey]
  rw [if_pos ⟨ha, hb⟩]

/-- The body of a table after `sortTable`. -/
theorem sortTable_tbody (localeCompare : String → String → JSNumber) (index : ℕ) (t : Table)
    (rows : List (List Cell)) (header : Header) (htb : t.tbody = some rows)
    (hh : t.headers.get? index = some header) :
    (sortTable localeCompare index t).tbody =
      some (arraySort (compareRows localeCompare header.sortedAsc index) rows) := by
  simp only [sortTable, htb, hh]

/-- The headers of a table after `sortTable`. -/
theorem sortTable_headers (localeCompare : String → String → JSNumber) (index : ℕ) (t : Table)
    (rows : List (List Cell)) (header : Header) (htb : t.tbody = some rows)
    (hh : t.headers.get? index = some header) :
    (sortTable localeCompare index t).headers =
      (t.headers.map fun h => { h with sortedAsc := false, sortedDesc := false }).set index
        { header with sortedAsc := !header.sortedAsc, sortedDesc := header.sortedAsc } := by
  simp only [sortTable, htb, hh]

/-- The rows after `sortTable` are the previous rows, ordered by the numbers at `index`:
upwards when the header was not marked `sorted-asc`, downwards when it was. -/
theorem sortTable_rows (localeCompare : String → String → JSNumber) (index : ℕ) (t : Table)
    (rows : List (List Cell)) (header : Header) (htb : t.tbody = some rows)
    (hh : t.headers.get? index = some header)
    (hnum : ∀ row ∈ rows, columnKey index row ≠ nan) :
    ∃ sorted : List (List Cell),
      (sortTable localeCompare index t).tbody = some sorted ∧ sorted.Perm rows ∧
      (header.sortedAsc = false →
        sorted.Pairwise fun a b => le (columnKey index a) (columnKey index b) = true) ∧
      (header.sortedAsc = true →
        sorted.Pairwise fun a b => le (columnKey index b) (columnKey index a) = true) := by
  refine ⟨_, sortTable_tbody localeCompare index t rows header htb hh, arraySort_perm _ _,
    ?_, ?_⟩
  · intro hasc
    rw [hasc]
    refine arraySort_pairwise _ _ (fun row => columnKey index row ≠ nan) ?_ ?_ ?_ rows hnum
    · intro a b ha hb
      rw [compareRows_numeric localeCompare false index a b ha hb]
      simp only [Bool.false_eq_true, if_false]
      rw [notPositive_sub _ _ ha hb]
    · intro a b ha hb
      exact le_total_of_ne_nan _ _ ha hb
    · intro a b c hab hbc
      exact le_trans_number _ _ _ hab hbc
  · intro hasc
    rw [hasc]
    refine arraySort_pairwise _ _ (fun row => columnKey index row ≠ nan) ?_ ?_ ?_ rows hnum
    · intro a b ha hb
      rw [compareRows_numeric localeCompare true index a b ha hb]
      simp only [if_true]
      rw [notPositive_sub _ _ hb ha]
    · intro a b ha hb
      exact le_total_of_ne_nan _ _ hb ha
    · intro a b c hab hbc
      exact le_trans_number _ _ _ hbc hab

/-- The marks after `sortTable`: the header at `index` carries `sorted-asc` when it did not
before and `sorted-desc` when it did, and no other header carries a mark. -/
theorem sortTable_marks (localeCompare : String → String → JSNumber) (index : ℕ) (t : Table)
    (rows : List (List Cell)) (header : Header) (htb : t.tbody = some rows)
    (hh : t.headers.get? index = some header) :
    (sortTable localeCompare index t).headers.length = t.headers.length ∧
    (sortTable localeCompare index t).headers.get? index =
      some { header with sortedAsc := !header.sortedAsc, sortedDesc := header.sortedAsc } ∧
    ∀ (j : ℕ) (other : Header), j ≠ index →
      (sortTable localeCompare index t).headers.get? j = some other →
      other.sortedAsc = false ∧ other.sortedDesc = false := by
  rw [sortTable_headers localeCompare index t rows header htb hh]
  have hlt : index < t.headers.length := by
    rw [List.get?_eq_getElem?] at hh
    exact (List.getElem?_eq_some_iff.mp hh).1
  refine ⟨by simp, ?_, ?_⟩
  · rw [List.get?_eq_getElem?, List.getElem?_set_self (by simpa using hlt)]
  · intro j other hj hget
    rw [List.get?_eq_getElem?, List.getElem?_set_ne (Ne.symm hj), List.getElem?_map] at hget
    cases hk : t.headers[j]? with
    | none => rw [hk] at hget; cases hget
    | some h =>
      rw [hk] at hget
      simp only [Option.map_some', Option.some.injEq] at hget
      rw [← hget]
      exact ⟨rfl, rfl⟩

end SiteOptimized


theorem parseFloat_1 : parseFloat "1" = fin 1 := by
  rw [show parseFloat "1" = fin (((1 : ℕ) : ℚ) * 10 ^ ((0 : ℤ) - ((0 : ℕ) : ℤ))) from rfl]
  norm_num

theorem parseFloat_2 : parseFloat "2" = fin 2 := by
  rw [show parseFloat "2" = fin (((2 : ℕ) : ℚ) * 10 ^ ((0 : ℤ) - ((0 : ℕ) : ℤ))) from rfl]
  norm_num

theorem parseFloat_10 : parseFloat "10" = fin 10 := by
  rw [show parseFloat "10" = fin (((10 : ℕ) : ℚ) * 10 ^ ((0 : ℤ) - ((0 : ℕ) : ℤ))) from rfl]
  norm_num

theorem parseFloat_20 : parseFloat "20" = fin 20 := by
  rw [show parseFloat "20" = fin (((20 : ℕ) : ℚ) * 10 ^ ((0 : ℤ) - ((0 : ℕ) : ℤ))) from rfl]
  norm_num

theorem parseFloat_30 : parseFloat "30" = fin 30 := by
  rw [show parseFloat "30" = fin (((30 : ℕ) : ℚ) * 10 ^ ((0 : ℤ) - ((0 : ℕ) : ℤ))) from rfl]
  norm_num

/-- C20, where the header stands at its own position among the cells: for a table with a
`tbody` in which the header `th[data-sort]` at position `index` among such headers is also
the cell at position `index` of its row, and in which every body row shows a number in the
column of that header, a click leaves the body rows a permutation of the previous rows, in
non-decreasing numeric order of that column when the header was not marked `sorted-asc` and
in non-increasing order when it was; the header is then marked `sorted-asc` only,
respectively `sorted-desc` only, and no other header carries either mark. -/
theorem header_click_sorts_rows_of_aligned_column
    (localeCompare : String → String → JSNumber) (index : ℕ) (t : Table)
    (rows : List (List Cell)) (header : Header) (htb : t.tbody = some rows)
    (hh : t.headers.get? index = some header) (hcol : header.cellIndex = index)
    (hnum : ∀ row ∈ rows, columnKey header.cellIndex row ≠ nan) :
    (∃ sorted : List (List Cell),
      (SiteOptimized.sortTable localeCompare index t).tbody = some sorted ∧
      sorted.Perm rows ∧
      (header.sortedAsc = false → sorted.Pairwise fun a b =>
        le (columnKey header.cellIndex a) (columnKey header.cellIndex b) = true) ∧
      (header.sortedAsc = true → sorted.Pairwise fun a b =>
        le (columnKey header.cellIndex b) (columnKey header.cellIndex a) = true)) ∧
    (SiteOptimized.sortTable localeCompare index t).headers.length = t.headers.length ∧
    (SiteOptimized.sortTable localeCompare index t).headers.get? index =
      some { header with sortedAsc := !header.sortedAsc, sortedDesc := header.sortedAsc } ∧
    ∀ (j : ℕ) (other : Header), j ≠ index →
      (SiteOptimized.sortTable localeCompare index t).headers.get? j = some other →
      other.sortedAsc = false ∧ other.sortedDesc = false := by
  subst hcol
  exact ⟨SiteOptimized.sortTable_rows localeCompare _ t rows header htb hh hnum,
    SiteOptimized.sortTable_marks localeCompare _ t rows header htb hh⟩

/-- Witness of C20: a table of two columns, both headers sortable, the second marked
`sorted-desc`; a click on the second header. -/
theorem header_click_sorts_rows_of_aligned_column_witness :
    (∀ row ∈ [[(⟨none, "b"⟩ : Cell), ⟨none, "30"⟩], [⟨none, "a"⟩, ⟨some "10", "ten"⟩],
        [⟨none, "c"⟩, ⟨none, "20"⟩]], columnKey 1 row ≠ nan) ∧
    ∃ sorted : List (List Cell),
      (SiteOptimized.sortTable (fun _ _ => fin 0) 1
        ⟨[⟨0, false, false⟩, ⟨1, false, true⟩],
          some [[⟨none, "b"⟩, ⟨none, "30"⟩], [⟨none, "a"⟩, ⟨some "10", "ten"⟩],
            [⟨none, "c"⟩, ⟨none, "20"⟩]]⟩).tbody = some sorted ∧
      sorted.Perm [[⟨none, "b"⟩, ⟨none, "30"⟩], [⟨none, "a"⟩, ⟨some "10", "ten"⟩],
        [⟨none, "c"⟩, ⟨none, "20"⟩]] ∧
      sorted.Pairwise fun a b => le (columnKey 1 a) (columnKey 1 b) = true := by
  have hnum : ∀ row ∈ [[(⟨none, "b"⟩ : Cell), ⟨none, "30"⟩], [⟨none, "a"⟩, ⟨some "10", "ten"⟩],
      [⟨none, "c"⟩, ⟨none, "20"⟩]], columnKey 1 row ≠ nan := by
    intro row hrow
    simp only [List.mem_cons, List.mem_singleton, List.not_mem_nil, or_false] at hrow
    rcases hrow with h | h | h
    · rw [h, show columnKey 1 [⟨none, "b"⟩, ⟨none, "30"⟩] = parseFloat "30" from rfl,
        parseFloat_30]
      simp
    · rw [h, show columnKey 1 [⟨none, "a"⟩, ⟨some "10", "ten"⟩] = parseFloat "10" from rfl,
        parseFloat_10]
      simp
    · rw [h, show columnKey 1 [⟨none, "c"⟩, ⟨none, "20"⟩] = parseFloat "20" from rfl,
        parseFloat_20]
      simp
  obtain ⟨⟨sorted, h1, h2, h3, _⟩, _⟩ := header_click_sorts_rows_of_aligned_column
    (fun _ _ => fin 0) 1
    ⟨[⟨0, false, false⟩, ⟨1, false, true⟩],
      some [[⟨none, "b"⟩, ⟨none, "30"⟩], [⟨none, "a"⟩, ⟨some "10", "ten"⟩],
        [⟨none, "c"⟩, ⟨none, "20"⟩]]⟩
    [[⟨none, "b"⟩, ⟨none, "30"⟩], [⟨none, "a"⟩, ⟨some "10", "ten"⟩],
      [⟨none, "c"⟩, ⟨none, "20"⟩]] ⟨1, false, true⟩ rfl rfl rfl hnum
  exact ⟨hnum, sorted, h1, h2, h3 rfl⟩

/-- C20, the code at a failing input: the header row is `#` (not sortable) and `Points`
(`th[data-sort]`), the body rows are `1, 30` and `2, 10`.  The header `Points` is the first
of the sortable headers, so a click on it orders the rows by their first cells: the rows
stay as they are, and the column `Points` reads 30, 10, which is not non-decreasing, while
the header is marked `sorted-asc`. -/
theorem header_click_after_unsortable_header_sorts_by_another_column :
    columnKey 1 [⟨none, "1"⟩, ⟨none, "30"⟩] = fin 30 ∧
    columnKey 1 [⟨none, "2"⟩, ⟨none, "10"⟩] = fin 10 ∧
    SiteOptimized.sortTable (fun _ _ => fin 0) 0
        ⟨[⟨1, false, false⟩],
          some [[⟨none, "1"⟩, ⟨none, "30"⟩], [⟨none, "2"⟩, ⟨none, "10"⟩]]⟩ =
      ⟨[⟨1, true, false⟩],
        some [[⟨none, "1"⟩, ⟨none, "30"⟩], [⟨none, "2"⟩, ⟨none, "10"⟩]]⟩ ∧
    le (columnKey 1 [⟨none, "1"⟩, ⟨none, "30"⟩]) (columnKey 1 [⟨none, "2"⟩, ⟨none, "10"⟩]) =
      false := by
  have h30 : columnKey 1 [⟨none, "1"⟩, ⟨none, "30"⟩] = fin 30 := by
    rw [show columnKey 1 [⟨none, "1"⟩, ⟨none, "30"⟩] = parseFloat "30" from rfl, parseFloat_30]
  have h10 : columnKey 1 [⟨none, "2"⟩, ⟨none, "10"⟩] = fin 10 := by
    rw [show columnKey 1 [⟨none, "2"⟩, ⟨none, "10"⟩] = parseFloat "10" from rfl, parseFloat_10]
  have h1 : columnKey 0 [⟨none, "1"⟩, ⟨none, "30"⟩] = fin 1 := by
    rw [show columnKey 0 [⟨none, "1"⟩, ⟨none, "30"⟩] = parseFloat "1" from rfl, parseFloat_1]
  have h2 : columnKey 0 [⟨none, "2"⟩, ⟨none, "10"⟩] = fin 2 := by
    rw [show columnKey 0 [⟨none, "2"⟩, ⟨none, "10"⟩] = parseFloat "2" from rfl, parseFloat_2]
  refine ⟨h30, h10, ?_, ?_⟩
  · have hc : SiteOptimized.compareRows (fun _ _ => fin 0) false 0
        [⟨none, "1"⟩, ⟨none, "30"⟩] [⟨none, "2"⟩, ⟨none, "10"⟩] = fin (1 - 2) := by
      rw [SiteOptimized.compareRows_numeric _ _ _ _ _ (by rw [h1]; simp) (by rw [h2]; simp),
        h1, h2]
      simp only [Bool.false_eq_true, if_false, sub_fin]
    have hn : notPositive (fin ((1 : ℚ) - 2)) = true := by
      simp only [notPositive, decide_eq_true_eq]
      norm_num
    simp only [SiteOptimized.sortTable, List.get?, arraySort, orderedInsert, hc, hn, if_true,
      List.map, List.set, Bool.not_false]
  · rw [h30, h10, le_fin]
    norm_num


/-! ## Cookies -/

theorem splitSemicolon_ne_nil (cs : List Char) : splitSemicolon cs ≠ [] := by
  cases cs with
  | nil => simp [splitSemicolon]
  | cons c cs =>
    rw [splitSemicolon]
    split
    · simp
    · split <;> simp

theorem splitSemicolon_of_not_mem (e : List Char) (h : ';' ∉ e) : splitSemicolon e = [e] := by
  induction e with
  | nil => rfl
  | cons c cs ih =>
    have hc : c ≠ ';' := fun hc => h (by rw [hc]; exact List.mem_cons_self _ _)
    rw [splitSemicolon, if_neg hc, ih fun hm => h (List.mem_cons_of_mem _ hm)]

theorem splitSemicolon_append (e : List Char) (h : ';' ∉ e) (cs : List Char) :
    splitSemicolon (e ++ ';' :: cs) = e :: splitSemicolon cs := by
  induction e with
  | nil => simp [splitSemicolon]
  | cons c rest ih =>
    have hc : c ≠ ';' := fun hc => h (by rw [hc]; exact List.mem_cons_self _ _)
    rw [List.cons_append, splitSemicolon, if_neg hc, ih fun hm => h (List.mem_cons_of_mem _ hm)]

theorem intercalate_cons_cons (e e2 : List Char) (es : List (List Char)) :
    [';'].intercalate (e :: e2 :: es) = e ++ ';' :: [';'].intercalate (e2 :: es) := by
  simp [List.intercalate, List.intersperse]

/-- Splitting at the semicolons gives back the entries that were joined by semicolons. -/
theorem splitSemicolon_intercalate :
    ∀ entries : List (List Char), entries ≠ [] → (∀ e ∈ entries, ';' ∉ e) →
      splitSemicolon ([';'].intercalate entries) = entries := by
  intro entries
  induction entries with
  | nil => intro h; exact absurd rfl h
  | cons e es ih =>
    intro _ hsep
    cases es with
    | nil =>
      have : [';'].intercalate [e] = e := by simp [List.intercalate, List.intersperse]
      rw [this]
      exact splitSemicolon_of_not_mem e (hsep e (List.mem_cons_self _ _))
    | cons e2 es =>
      rw [intercalate_cons_cons, splitSemicolon_append e (hsep e (List.mem_cons_self _ _)),
        ih (List.cons_ne_nil _ _) fun x hx => hsep x (List.mem_cons_of_mem _ hx)]

/-- The test `cookie.substring(0, name.length + 1) === (name + '=')` asks whether the entry
starts with the name and an equals sign. -/
theorem take_eq_iff_starts (name cookie : List Char) :
    cookie.take (name.length + 1) = name ++ ['='] ↔ (name ++ ['=']) <+: cookie := by
  rw [List.prefix_iff_eq_take, List.length_append, List.length_singleton]
  exact eq_comm

theorem getCookieLoop_skip (name : List Char) (rest : List (List Char)) :
    ∀ before : List (List Char), (∀ e ∈ before, ¬ (name ++ ['=']) <+: trim e) →
      getCookieLoop name (before ++ rest) = getCookieLoop name rest := by
  intro before
  induction before with
  | nil => intro _; rfl
  | cons e es ih =>
    intro h
    rw [List.cons_append, getCookieLoop,
      if_neg fun hm => h e (List.mem_cons_self _ _) ((take_eq_iff_starts name (trim e)).mp hm)]
    exact ih fun x hx => h x (List.mem_cons_of_mem _ hx)

theorem getCookieLoop_match (name : List Char) (entry value : List Char)
    (after : List (List Char)) (h : trim entry = name ++ '=' :: value) :
    getCookieLoop name (entry :: after) = (decodeURIComponent (String.mk value)).map some := by
  have htake : (trim entry).take (name.length + 1) = name ++ ['='] := by
    rw [take_eq_iff_starts, h]
    exact ⟨value, by simp⟩
  have hdrop : (trim entry).drop (name.length + 1) = value := by
    rw [h, show name ++ '=' :: value = (name ++ ['=']) ++ value from by simp,
      List.drop_left' (by simp)]
  rw [getCookieLoop, if_pos htake, hdrop]

theorem Utils.getCSRFTokenLoop_eq (entries : List (List Char)) :
    Utils.getCSRFTokenLoop entries = getCookieLoop "csrftoken".data entries := by
  induction entries with
  | nil => rfl
  | cons e es ih =>
    rw [Utils.getCSRFTokenLoop, getCookieLoop, ih]
    rfl

theorem Utils.getCSRFToken_eq (documentCookie : String) :
    Utils.getCSRFToken documentCookie = getCookie documentCookie "csrftoken" := by
  rw [Utils.getCSRFToken, getCookie, Utils.getCSRFTokenLoop_eq]

/-- A character other than the percent sign stands for itself. -/
theorem decodeFrom_cons_plain (octets : List ℕ) (need : ℕ) (c : Char) (rest : List Char)
    (hc : c ≠ '%') :
    decodeFrom octets need (c :: rest) =
      if need = 0 then (decodeFrom [] 0 rest).map fun cs => c :: cs
      else Except.error JSError.uriError := by
  rcases rest with _ | ⟨a, _ | ⟨b, rest2⟩⟩ <;> simp only [decodeFrom, if_neg hc]

/-- A text without a percent sign is decoded to itself. -/
theorem decodeFrom_plain (cs : List Char) (h : '%' ∉ cs) :
    decodeFrom [] 0 cs = Except.ok cs := by
  induction cs with
  | nil => rfl
  | cons c rest ih =>
    have hc : c ≠ '%' := fun hc => h (by rw [hc]; exact List.mem_cons_self _ _)
    rw [decodeFrom_cons_plain _ _ _ _ hc, if_pos rfl,
      ih fun hm => h (List.mem_cons_of_mem _ hm)]
    rfl

theorem decodeURIComponent_plain (cs : List Char) (h : '%' ∉ cs) :
    decodeURIComponent (String.mk cs) = Except.ok (String.mk cs) := by
  rw [decodeURIComponent, decodeFrom_plain cs h]
  rfl

theorem getCookie_intercalate (name : String) (entries : List (List Char))
    (hne : entries ≠ []) (hsep : ∀ e ∈ entries, ';' ∉ e) :
    getCookie (String.mk ([';'].intercalate entries)) name =
      if [';'].intercalate entries = [] then Except.ok none
      else getCookieLoop name.data entries := by
  rw [getCookie]
  by_cases h : [';'].intercalate entries = []
  · rw [if_pos h, h, if_neg (by decide)]
  · rw [if_neg h, if_pos, splitSemicolon_intercalate entries hne hsep]
    intro hs
    exact h (congrArg String.data hs)

theorem trim_nil : trim [] = [] := rfl


theorem map_ne_typeError {α β : Type} (f : α → β) (x : Except JSError α)
    (h : x ≠ Except.error JSError.typeError) :
    x.map f ≠ Except.error JSError.typeError := by
  cases x with
  | ok a => intro hx; cases hx
  | error e =>
    intro hx
    apply h
    cases e with
    | typeError => rfl
    | uriError => cases hx

/-- The only error of `Decode` is the `URIError`. -/
theorem decodeFrom_ne_typeError :
    ∀ (n : ℕ) (cs : List Char), cs.length ≤ n → ∀ (octets : List ℕ) (need : ℕ),
      decodeFrom octets need cs ≠ Except.error JSError.typeError := by
  intro n
  induction n with
  | zero =>
    intro cs hcs octets need
    have : cs = [] := List.length_eq_zero.mp (Nat.le_zero.mp hcs)
    rw [this, decodeFrom]
    split <;> intro h <;> cases h
  | succ k ih =>
    intro cs hcs octets need
    rcases cs with _ | ⟨c, _ | ⟨a, _ | ⟨b, rest2⟩⟩⟩
    · rw [decodeFrom]
      split <;> intro h <;> cases h
    · have h0 := ih [] (by simp) [] 0
      simp only [decodeFrom]
      split_ifs <;> first
        | exact map_ne_typeError _ _ h0
        | (intro h; cases h)
    · have h0 := ih [a] (by simp at hcs ⊢; omega) [] 0
      simp only [decodeFrom]
      split_ifs <;> first
        | exact map_ne_typeError _ _ h0
        | (intro h; cases h)
    · have h0 := ih (a :: b :: rest2) (by simp at hcs ⊢; omega)
      have h2 := ih rest2 (by simp at hcs ⊢; omega)
      simp only [decodeFrom]
      split_ifs
      all_goals first
        | exact map_ne_typeError _ _ (h0 _ _)
        | exact map_ne_typeError _ _ (h2 _ _)
        | exact h2 _ _
        | (intro h; cases h)
        | (split <;> first
            | exact map_ne_typeError _ _ (h2 _ _)
            | (intro h; cases h))

theorem decodeURIComponent_error (encoded : String) (e : JSError)
    (h : decodeURIComponent encoded = Except.error e) : e = JSError.uriError := by
  cases e with
  | uriError => rfl
  | typeError =>
    exact absurd h (map_ne_typeError _ _
      (decodeFrom_ne_typeError encoded.data.length encoded.data (Nat.le_refl _) [] 0))


/-- C21, refuted as stated: the only entry of the cookie string `a=%` starts with `a=`, but
its value is not a percent-encoding, and `getCookie('a')` does not return: it throws a
`URIError`, as `Utils.getCSRFToken()` does on `csrftoken=%E0%A4%A`; a later entry with a
well-formed value is not looked at. -/
theorem getCookie_throws_on_malformed_value :
    trim "a=%".data = "a".data ++ '=' :: "%".data ∧
    getCookie "a=%" "a" = Except.error JSError.uriError ∧
    getCookie "a=%; a=1" "a" = Except.error JSError.uriError ∧
    Utils.getCSRFToken "csrftoken=%E0%A4%A" = Except.error JSError.uriError :=
  ⟨rfl, rfl, rfl, rfl⟩

/-- C21, amended: let the cookie string be entries joined by semicolons.  If `entry` is the
first entry which, after trimming, starts with `name` and `=`, then `getCookie(name)` is the
outcome of `decodeURIComponent` on the rest of the trimmed entry, whatever entries follow:
the decoded value, which is the rest itself when it holds no `%`, or else a `URIError`, the
only error there is.  If no entry starts so after trimming, or the cookie string is empty,
`getCookie(name)` is `null`; the entry `csrftoken2=x` does not match the name `csrftoken`;
and `Utils.getCSRFToken()` has the outcome of `getCookie('csrftoken')` on every cookie
string. -/
theorem getCookie_decodes_first_matching_entry (name documentCookie : String)
    (before : List (List Char)) (entry : List Char) (after : List (List Char))
    (value : List Char) (others : List (List Char))
    (hsep : ∀ e ∈ before ++ entry :: after, ';' ∉ e)
    (hbefore : ∀ e ∈ before, ¬ (name.data ++ ['=']) <+: trim e)
    (hentry : trim entry = name.data ++ '=' :: value)
    (hothers : ∀ e ∈ others, ';' ∉ e ∧ ¬ (name.data ++ ['=']) <+: trim e) :
    getCookie (String.mk ([';'].intercalate (before ++ entry :: after))) name =
      (decodeURIComponent (String.mk value)).map some ∧
    ('%' ∉ value →
      getCookie (String.mk ([';'].intercalate (before ++ entry :: after))) name =
        Except.ok (some (String.mk value))) ∧
    (∀ e : JSError,
      getCookie (String.mk ([';'].intercalate (before ++ entry :: after))) name =
        Except.error e → e = JSError.uriError) ∧
    getCookie (String.mk ([';'].intercalate others)) name = Except.ok none ∧
    getCookie "" name = Except.ok none ∧
    getCookie "csrftoken2=x" "csrftoken" = Except.ok none ∧
    Utils.getCSRFToken documentCookie = getCookie documentCookie "csrftoken" := by
  have hmain : getCookie (String.mk ([';'].intercalate (before ++ entry :: after))) name =
      (decodeURIComponent (String.mk value)).map some := by
    rw [getCookie_intercalate name _ (by simp) hsep, if_neg, getCookieLoop_skip _ _ _ hbefore,
      getCookieLoop_match _ _ _ _ hentry]
    intro hnil
    have hsplit := splitSemicolon_intercalate (before ++ entry :: after) (by simp) hsep
    rw [hnil] at hsplit
    have hone : before ++ entry :: after = [[]] := hsplit.symm
    have hmem : entry ∈ [([] : List Char)] := by
      rw [← hone]
      exact List.mem_append_right _ (List.mem_cons_self _ _)
    rw [List.mem_singleton] at hmem
    rw [hmem, trim_nil] at hentry
    exact absurd (congrArg List.length hentry) (by simp; omega)
  refine ⟨hmain, ?_, ?_, ?_, rfl, rfl, Utils.getCSRFToken_eq documentCookie⟩
  · intro hplain
    rw [hmain, decodeURIComponent_plain value hplain]
    rfl
  · intro e he
    rw [hmain] at he
    cases hd : decodeURIComponent (String.mk value) with
    | ok s => rw [hd] at he; cases he
    | error e2 =>
      rw [hd] at he
      have h2 := decodeURIComponent_error _ _ hd
      cases he
      exact h2
  · by_cases hne : others = []
    · rw [hne]; rfl
    · rw [getCookie_intercalate name others hne fun e he => (hothers e he).1]
      split
      · rfl
      · have h := getCookieLoop_skip name.data [] others fun e he => (hothers e he).2
        rw [List.append_nil] at h
        rw [h]
        rfl

/-- Witness of C21 (amended): in `a=1; csrftoken2=x; csrftoken=ab%20c; csrftoken=z` the
third entry is the first that starts with `csrftoken=` after trimming; its value is decoded
to `ab c`. -/
theorem getCookie_decodes_first_matching_entry_witness :
    (∀ e ∈ ["a=1".data, " csrftoken2=x".data] ++ " csrftoken=ab%20c".data ::
        [" csrftoken=z".data], ';' ∉ e) ∧
    (∀ e ∈ ["a=1".data, " csrftoken2=x".data], ¬ ("csrftoken".data ++ ['=']) <+: trim e) ∧
    trim " csrftoken=ab%20c".data = "csrftoken".data ++ '=' :: "ab%20c".data ∧
    getCookie "a=1; csrftoken2=x; csrftoken=ab%20c; csrftoken=z" "csrftoken" =
      Except.ok (some "ab c") ∧
    getCookie "a=1; csrftoken2=x" "csrftoken" = Except.ok none := by
  have hsep : ∀ e ∈ ["a=1".data, " csrftoken2=x".data] ++ " csrftoken=ab%20c".data ::
      [" csrftoken=z".data], ';' ∉ e := by decide
  have hbefore : ∀ e ∈ ["a=1".data, " csrftoken2=x".data],
      ¬ ("csrftoken".data ++ ['=']) <+: trim e := by decide
  have hentry : trim " csrftoken=ab%20c".data = "csrftoken".data ++ '=' :: "ab%20c".data := rfl
  have h := getCookie_decodes_first_matching_entry "csrftoken" "csrftoken=t"
    ["a=1".data, " csrftoken2=x".data] " csrftoken=ab%20c".data [" csrftoken=z".data]
    "ab%20c".data ["a=1".data, " csrftoken2=x".data] hsep hbefore hentry
    (fun e he => ⟨hsep e (by simp at he ⊢; tauto), hbefore e he⟩)
  exact ⟨hsep, hbefore, hentry, h.1, h.2.2.2.1⟩

end LoanSite
